import Mathlib

/-! # TradePro: order execution and portfolio reconciliation

A shallow embedding of the order engine in
`backend/src/controllers/order.controller.js` and of the valuation in
`backend/src/controllers/portfolio.controller.js`.

Modelling conventions:

* JavaScript numbers are exact rationals (`ℚ`); every arithmetic expression of
  the source is kept as written.  What holds of the source's expressions only
  up to the rounding of IEEE doubles is not stated here.
* The three Mongoose collections are lists of documents, searched from the
  front (`findOne`, `findById`) and written by `_id` (`save`).  A `save()` runs
  the validators of the schema, and a validation error is thrown.  The model
  runs them where a function writes numbers it has computed: on the
  `new Order` of `placeOrder` (`orderSchemaAccepts`), and in the fill path of
  `executeOrder` on the paths it assigns to the order (`fillSchemaAccepts`)
  and on the portfolio (`portfolioSchemaAccepts`).  The other paths of a
  loaded order are those of the stored document, which passed the validators
  when it was written; assigning a status of the enum breaks no validator.
  The documents that `getUserPortfolio` writes are taken to pass the
  validators.  `executeOrderWrites` is `executeOrder` with the outcome of its
  two writes as parameters, for a write that fails for any reason.  The
  `createdAt`/`updatedAt` columns that the persistence library maintains on
  its own are not part of the model.
* `socket.js` exports `io: () => io`, a function, and `order.controller.js`
  binds it with `const { io } = require('../socket')`.  A function has no
  property `to`, so every `io.to(...)` throws a `TypeError`.  In `placeOrder`
  (line 81) and `cancelOrder` (line 161) the call comes after the writes and
  before the response: the `catch` answers 500, and the responses of lines
  83 and 163 are never sent.  In `executeOrder` (line 277) it comes after both
  writes and the `catch` only logs.
* A request body carries typed fields: a string, an enum value or a number, or
  nothing.  Symbols are ASCII without surrounding blanks, so `toUpperCase`
  works character by character and the `trim` of the schemas changes nothing.
* `new Date()` is the parameter `now`.
* A portfolio item is only ever created by the `push` of `executeOrder`, which
  sets `currentPrice` and `totalValue`; these two are therefore plain numbers,
  while `profitLoss` and `profitLossPercentage` may be absent.
-/

namespace TradePro

/-! ## Data model (`models/*.js`) -/

/-- Instruction kind of an order: the `type` enum of `order.model.js`. -/
inductive OrderType where
  | market
  | limit
  | stop
deriving DecidableEq, Repr

/-- Side of an order: the `side` enum of `order.model.js`. -/
inductive Side where
  | buy
  | sell
deriving DecidableEq, Repr

/-- Lifecycle status of an order: the `status` enum of `order.model.js`. -/
inductive OrderStatus where
  | pending
  | filled
  | partially_filled
  | cancelled
  | rejected
deriving DecidableEq, Repr

/-- An instrument (`asset.model.js`); the engine reads only these two fields. -/
structure Asset where
  symbol : String
  currentPrice : ℚ
deriving DecidableEq, Repr

/-- One position of a portfolio (`portfolioItemSchema`). -/
structure PortfolioItem where
  symbol : String
  quantity : ℚ
  averageBuyPrice : ℚ
  currentPrice : ℚ
  totalValue : ℚ
  profitLoss : Option ℚ
  profitLossPercentage : Option ℚ
  lastUpdated : Nat
deriving DecidableEq, Repr

/-- A user's portfolio (`portfolioSchema`). -/
structure Portfolio where
  id : Nat
  user : Nat
  items : List PortfolioItem
  totalValue : ℚ
  cashBalance : ℚ
  totalProfitLoss : ℚ
  totalProfitLossPercentage : ℚ
  lastUpdated : Nat
deriving DecidableEq, Repr

/-- An order (`orderSchema`). -/
structure Order where
  id : Nat
  user : Nat
  symbol : String
  type : OrderType
  side : Side
  quantity : ℚ
  price : Option ℚ
  stopPrice : Option ℚ
  status : OrderStatus
  filledQuantity : ℚ
  averageFilledPrice : Option ℚ
  totalCost : Option ℚ
deriving DecidableEq, Repr

/-- The three collections of the store. -/
structure Db where
  assets : List Asset
  portfolios : List Portfolio
  orders : List Order
deriving DecidableEq, Repr

/-- The body of an HTTP response: status code, message and the order, when the response
carries one. -/
structure OrderResponse where
  status : Nat
  message : String
  order : Option Order
deriving DecidableEq, Repr

/-- The body of a `placeOrder` request: each field may be missing. -/
structure OrderRequest where
  symbol : Option String
  type : Option OrderType
  side : Option Side
  quantity : Option ℚ
  price : Option ℚ
  stopPrice : Option ℚ
deriving DecidableEq, Repr

/-! ## The store -/

/-- `Asset.findOne({ symbol })`. -/
def Db.findAsset (db : Db) (symbol : String) : Option Asset :=
  db.assets.find? (fun a => decide (a.symbol = symbol))

/-- `Portfolio.findOne({ user })`. -/
def Db.findPortfolio (db : Db) (user : Nat) : Option Portfolio :=
  db.portfolios.find? (fun p => decide (p.user = user))

/-- `Order.findById(orderId)`. -/
def Db.findOrderById (db : Db) (orderId : Nat) : Option Order :=
  db.orders.find? (fun o => decide (o.id = orderId))

/-- `Order.findOne({ _id: orderId, user: userId })`. -/
def Db.findOrder (db : Db) (orderId userId : Nat) : Option Order :=
  db.orders.find? (fun o => decide (o.id = orderId) && decide (o.user = userId))

/-- Writing a document by `_id`: the stored document with that `_id` is replaced,
a document with a new `_id` is inserted. -/
def saveDoc {α : Type} (key : α → Nat) (doc : α) (docs : List α) : List α :=
  if docs.any (fun d => decide (key d = key doc)) then
    docs.map (fun d => if key d = key doc then doc else d)
  else
    docs ++ [doc]

/-- `order.save()`. -/
def Db.saveOrder (db : Db) (order : Order) : Db :=
  { db with orders := saveDoc Order.id order db.orders }

/-- `portfolio.save()`. -/
def Db.savePortfolio (db : Db) (portfolio : Portfolio) : Db :=
  { db with portfolios := saveDoc Portfolio.id portfolio db.portfolios }

/-! ## `order.controller.js` -/

/-- The `reduce` of `executeOrder`: the sum of the items' `totalValue`, from 0. -/
def itemsTotalValue (items : List PortfolioItem) : ℚ :=
  items.foldl (fun total item => total + item.totalValue) 0

/-- `portfolio.items.findIndex(item => item.symbol === symbol)`; `none` is `-1`. -/
def findItemIndex (items : List PortfolioItem) (symbol : String) : Option Nat :=
  items.findIdx? (fun item => decide (item.symbol = symbol))

/-- The buy branch of `executeOrder` on the items (lines 213-234): blend into the
existing item, or push a new one. -/
def buyItems (now : Nat) (items : List PortfolioItem) (symbol : String)
    (quantity executionPrice totalCost : ℚ) : List PortfolioItem :=
  match findItemIndex items symbol with
  | some existingItemIndex =>
    match items[existingItemIndex]? with
    | some existingItem =>
      let newQuantity := existingItem.quantity + quantity
      let newTotalCost := existingItem.averageBuyPrice * existingItem.quantity + totalCost
      let newAverageBuyPrice := newTotalCost / newQuantity
      items.set existingItemIndex
        { existingItem with
          quantity := newQuantity
          averageBuyPrice := newAverageBuyPrice
          currentPrice := executionPrice
          totalValue := newQuantity * executionPrice }
    | none => items
  | none =>
    items ++ [{ symbol := symbol
                quantity := quantity
                averageBuyPrice := executionPrice
                currentPrice := executionPrice
                totalValue := totalCost
                profitLoss := none
                profitLossPercentage := none
                lastUpdated := now }]

/-- The sell branch of `executeOrder` on the items (lines 247-257), for an item
found at `existingItemIndex`: reduce its quantity, or splice it out. -/
def sellItems (items : List PortfolioItem) (existingItemIndex : Nat)
    (quantity executionPrice : ℚ) : List PortfolioItem :=
  match items[existingItemIndex]? with
  | some existingItem =>
    let newQuantity := existingItem.quantity - quantity
    if newQuantity > 0 then
      items.set existingItemIndex
        { existingItem with
          quantity := newQuantity
          totalValue := newQuantity * executionPrice }
    else
      items.eraseIdx existingItemIndex
  | none => items

/-- What `executeOrder` does to the loaded order and portfolio once order,
asset and portfolio have been found (lines 198-270).  Returns the order to
save and, when the order is filled, the portfolio to save; on a rejection
the function has returned before touching the portfolio (`none`). -/
def executeOn (now : Nat) (order : Order) (asset : Asset) (portfolio : Portfolio) :
    Order × Option Portfolio :=
  let executionPrice := asset.currentPrice
  let totalCost := executionPrice * order.quantity
  let finish (portfolio : Portfolio) : Order × Option Portfolio :=
    ({ order with
        status := OrderStatus.filled
        filledQuantity := order.quantity
        averageFilledPrice := some executionPrice
        totalCost := some totalCost },
     some { portfolio with
        totalValue := itemsTotalValue portfolio.items + portfolio.cashBalance })
  match order.side with
  | Side.buy =>
    if portfolio.cashBalance < totalCost then
      ({ order with status := OrderStatus.rejected }, none)
    else
      finish { portfolio with
        cashBalance := portfolio.cashBalance - totalCost
        items := buyItems now portfolio.items order.symbol order.quantity executionPrice totalCost }
  | Side.sell =>
    match findItemIndex portfolio.items order.symbol with
    | none => ({ order with status := OrderStatus.rejected }, none)
    | some existingItemIndex =>
      match portfolio.items[existingItemIndex]? with
      | none => ({ order with status := OrderStatus.rejected }, none)
      | some existingItem =>
        if existingItem.quantity < order.quantity then
          ({ order with status := OrderStatus.rejected }, none)
        else
          finish { portfolio with
            cashBalance := portfolio.cashBalance + totalCost
            items := sellItems portfolio.items existingItemIndex order.quantity executionPrice }

/-- The validators `order.save()` runs on the paths `executeOrder` assigns when it fills an
order: the `min: 0` of `filledQuantity`, `averageFilledPrice` and `totalCost`
(`order.model.js`, lines 51-63).  The paths it does not assign hold what the stored order
held, which passed the validators when `placeOrder` stored it, and `status` receives a
value of its enum. -/
def fillSchemaAccepts (order : Order) : Bool :=
  let min0 (x : Option ℚ) : Bool :=
    match x with
    | none => true
    | some v => decide (0 ≤ v)
  decide (0 ≤ order.filledQuantity) && min0 order.averageFilledPrice && min0 order.totalCost

/-- The validators of `portfolioItemSchema`: the `min: 0` of `quantity`, `averageBuyPrice`,
`currentPrice` and `totalValue`. -/
def itemSchemaAccepts (item : PortfolioItem) : Bool :=
  decide (0 ≤ item.quantity) && decide (0 ≤ item.averageBuyPrice)
    && decide (0 ≤ item.currentPrice) && decide (0 ≤ item.totalValue)

/-- The validators `portfolio.save()` runs: the `min: 0` of `totalValue` and `cashBalance`
and the validators of every item. -/
def portfolioSchemaAccepts (portfolio : Portfolio) : Bool :=
  decide (0 ≤ portfolio.totalValue) && decide (0 ≤ portfolio.cashBalance)
    && portfolio.items.all itemSchemaAccepts

/-- `executeOrder(orderId)` on the store.  A rejection assigns only `status`, a value of
its enum, and the write passes the validators.  On the fill path `await order.save()`
comes first: when the validators refuse the filled order it throws, `portfolio.save()` is
not reached and nothing is written; when they refuse the portfolio, the order has been
written already.  The `catch` only logs, and so it does for the `io.to` that throws after
the two writes. -/
def executeOrder (now : Nat) (db : Db) (orderId : Nat) : Db :=
  match db.findOrderById orderId with
  | none => db
  | some order =>
    if order.status ≠ OrderStatus.pending then db
    else
      match db.findAsset order.symbol with
      | none => db.saveOrder { order with status := OrderStatus.rejected }
      | some asset =>
        match db.findPortfolio order.user with
        | none => db.saveOrder { order with status := OrderStatus.rejected }
        | some portfolio =>
          match executeOn now order asset portfolio with
          | (order, none) => db.saveOrder order
          | (order, some portfolio) =>
            if fillSchemaAccepts order = false then db
            else if portfolioSchemaAccepts portfolio = false then db.saveOrder order
            else (db.saveOrder order).savePortfolio portfolio

/-- `executeOrder(orderId)` with the outcome of the writes as parameters: `orderWrite`
tells whether `order.save()` succeeds, `portfolioWrite` whether `portfolio.save()` does.
The fill path awaits `order.save()` and then `portfolio.save()` inside one `try`: a
failure of the first skips the second, a failure of the second comes after the first has
been stored; the `catch` only logs. -/
def executeOrderWrites (orderWrite portfolioWrite : Bool) (now : Nat) (db : Db)
    (orderId : Nat) : Db :=
  match db.findOrderById orderId with
  | none => db
  | some order =>
    if order.status ≠ OrderStatus.pending then db
    else
      match db.findAsset order.symbol with
      | none =>
        if orderWrite then db.saveOrder { order with status := OrderStatus.rejected } else db
      | some asset =>
        match db.findPortfolio order.user with
        | none =>
          if orderWrite then db.saveOrder { order with status := OrderStatus.rejected } else db
        | some portfolio =>
          match executeOn now order asset portfolio with
          | (order, none) => if orderWrite then db.saveOrder order else db
          | (order, some portfolio) =>
            if orderWrite then
              if portfolioWrite then (db.saveOrder order).savePortfolio portfolio
              else db.saveOrder order
            else db

/-- `cancelOrder`: the request carries `orderId` and the authenticated `userId`.  For a
pending order the `io.to` of line 161 throws after `order.save()`, and the `catch`
answers 500. -/
def cancelOrder (db : Db) (orderId userId : Nat) : Db × OrderResponse :=
  match db.findOrder orderId userId with
  | none => (db, { status := 404, message := "Order not found", order := none })
  | some order =>
    if order.status ≠ OrderStatus.pending then
      (db, { status := 400, message := "Only pending orders can be cancelled", order := none })
    else
      let order := { order with status := OrderStatus.cancelled }
      (db.saveOrder order,
       { status := 500, message := "Error cancelling order", order := none })

/-- JavaScript `toUpperCase` on an ASCII string: each character is upper-cased. -/
def toUpperCase (s : String) : String :=
  String.mk (s.data.map Char.toUpper)

/-- JavaScript `!x` for a number that may be missing: true for `undefined` and 0. -/
def falsyNumber (x : Option ℚ) : Bool :=
  match x with
  | none => true
  | some v => decide (v = 0)

/-- JavaScript `!x` for a string that may be missing: true for `undefined` and `''`. -/
def falsyString (x : Option String) : Bool :=
  match x with
  | none => true
  | some v => decide (v = "")

/-- The validators of `orderSchema` that `order.save()` runs on a document: the
`min: 0` of the numeric paths, on the values that are present, and the two
`required` functions of `price` and `stopPrice`. -/
def orderSchemaAccepts (order : Order) : Bool :=
  let min0 (x : Option ℚ) : Bool :=
    match x with
    | none => true
    | some v => decide (0 ≤ v)
  decide (0 ≤ order.quantity) && min0 order.price && min0 order.stopPrice
    && decide (0 ≤ order.filledQuantity) && min0 order.averageFilledPrice
    && min0 order.totalCost
    && (decide (order.type = OrderType.market) || order.price.isSome)
    && (decide (order.type ≠ OrderType.stop) || order.stopPrice.isSome)

/-- The document `new Order({ ... })` of `placeOrder`: status `pending`, nothing filled,
total cost 0. -/
def newOrder (newId userId : Nat) (symbol : String) (type : OrderType) (side : Side)
    (quantity : ℚ) (price stopPrice : Option ℚ) : Order :=
  { id := newId
    user := userId
    symbol := symbol
    type := type
    side := side
    quantity := quantity
    price := price
    stopPrice := stopPrice
    status := OrderStatus.pending
    filledQuantity := 0
    averageFilledPrice := none
    totalCost := some 0 }

/-- `placeOrder`: the request body `req` of the authenticated user `userId`.
`newId` is the `_id` the new order receives.  Returns the store and the
response.  A validation error thrown by `order.save()` ends in the `catch`
with status 500 and nothing stored; for a request that passes every check
the `io.to` of line 81 throws after the order is stored and, for a market
order, executed, and the `catch` answers 500 as well. -/
def placeOrder (now newId : Nat) (db : Db) (userId : Nat) (req : OrderRequest) :
    Db × OrderResponse :=
  if falsyString req.symbol || req.type.isNone || req.side.isNone
      || falsyNumber req.quantity then
    (db, { status := 400, message := "Missing required order fields", order := none })
  else
    match req.symbol, req.type, req.side, req.quantity with
    | some symbol, some type, some side, some quantity =>
      if quantity ≤ 0 then
        (db, { status := 400, message := "Quantity must be greater than 0", order := none })
      else if type ≠ OrderType.market ∧ falsyNumber req.price = true then
        (db, { status := 400
               message := "Price is required for limit and stop orders"
               order := none })
      else if type = OrderType.stop ∧ falsyNumber req.stopPrice = true then
        (db, { status := 400
               message := "Stop price is required for stop orders"
               order := none })
      else
        match db.findAsset (toUpperCase symbol) with
        | none => (db, { status := 404, message := "Asset not found", order := none })
        | some asset =>
          match db.findPortfolio userId with
          | none => (db, { status := 404, message := "Portfolio not found", order := none })
          | some portfolio =>
            let orderPrice : Option ℚ :=
              if type = OrderType.market then some asset.currentPrice else req.price
            let totalCost : Option ℚ := orderPrice.map (fun p => p * quantity)
            let short : Bool :=
              match totalCost with
              | some c => decide (portfolio.cashBalance < c)
              | none => false
            if side = Side.buy ∧ short = true then
              (db, { status := 400, message := "Insufficient funds", order := none })
            else if side = Side.sell ∧
                (match portfolio.items.find? (fun item => decide (item.symbol = toUpperCase symbol)) with
                 | none => true
                 | some portfolioItem => decide (portfolioItem.quantity < quantity)) = true then
              (db, { status := 400, message := "Insufficient assets", order := none })
            else
              let order : Order :=
                newOrder newId userId (toUpperCase symbol) type side quantity orderPrice
                  req.stopPrice
              if orderSchemaAccepts order = false then
                (db, { status := 500, message := "Error placing order", order := none })
              else
                let db := db.saveOrder order
                let db := if type = OrderType.market then executeOrder now db order.id else db
                (db, { status := 500, message := "Error placing order", order := none })
    | _, _, _, _ =>
      (db, { status := 400, message := "Missing required order fields", order := none })

/-! ## `portfolio.controller.js` -/

/-- The valuation loop of `getUserPortfolio` (lines 28-42): the items still to
visit, with the running `totalValue`; returns the refreshed items and the
final `totalValue`. -/
def refreshItems (now : Nat) (db : Db) :
    List PortfolioItem → ℚ → List PortfolioItem × ℚ
  | [], totalValue => ([], totalValue)
  | item :: rest, totalValue =>
    match db.findAsset item.symbol with
    | some asset =>
      let item' : PortfolioItem :=
        { item with
          currentPrice := asset.currentPrice
          totalValue := item.quantity * asset.currentPrice
          profitLoss := some ((asset.currentPrice - item.averageBuyPrice) * item.quantity)
          profitLossPercentage :=
            some (((asset.currentPrice / item.averageBuyPrice) - 1) * 100)
          lastUpdated := now }
      let r := refreshItems now db rest (totalValue + item'.totalValue)
      (item' :: r.1, r.2)
    | none =>
      let r := refreshItems now db rest totalValue
      (item :: r.1, r.2)

/-- `getUserPortfolio`: lazy creation, then the valuation refresh.  `newId` is
the `_id` a newly created portfolio receives.  Returns the store and the
portfolio sent to the caller. -/
def getUserPortfolio (now newId : Nat) (db : Db) (userId : Nat) : Db × Portfolio :=
  let created : Db × Portfolio :=
    match db.findPortfolio userId with
    | some portfolio => (db, portfolio)
    | none =>
      let portfolio : Portfolio :=
        { id := newId
          user := userId
          items := []
          totalValue := 0
          cashBalance := 10000
          totalProfitLoss := 0
          totalProfitLossPercentage := 0
          lastUpdated := now }
      (db.savePortfolio portfolio, portfolio)
  let db := created.1
  let portfolio := created.2
  if portfolio.items.length > 0 then
    let r := refreshItems now db portfolio.items portfolio.cashBalance
    let portfolio := { portfolio with items := r.1, totalValue := r.2, lastUpdated := now }
    (db.savePortfolio portfolio, portfolio)
  else
    (db, portfolio)

/-- The body of the `getPortfolioStats` response. -/
structure PortfolioStats where
  totalValue : ℚ
  cashBalance : ℚ
  assetsValue : ℚ
  totalOrders : Nat
  buyOrders : Nat
  sellOrders : Nat
  totalInvested : ℚ
  totalReturned : ℚ
  realizedProfitLoss : ℚ
  unrealizedProfitLoss : ℚ
  totalProfitLoss : ℚ
  profitLossPercentage : ℚ
deriving DecidableEq, Repr

/-- JavaScript `parseFloat(x.toFixed(2))`: the number rounded to two decimals, the
magnitude rounded half up. -/
def toFixed2 (x : ℚ) : ℚ :=
  if x < 0 then -(((⌊(-x) * 100 + 1 / 2⌋ : ℤ) : ℚ) / 100)
  else ((⌊x * 100 + 1 / 2⌋ : ℤ) : ℚ) / 100

/-- `getPortfolioStats`: `none` is the 404 answer for a user without portfolio.  The
orders are `Order.find({ user, status: 'filled' })`; a filled order carries its
`totalCost`, and `item.profitLoss || 0` is 0 for an item never valued. -/
def getPortfolioStats (db : Db) (userId : Nat) : Option PortfolioStats :=
  match db.findPortfolio userId with
  | none => none
  | some portfolio =>
    let orders := db.orders.filter
      (fun order => decide (order.user = userId) && decide (order.status = OrderStatus.filled))
    let totalOrders := orders.length
    let buyOrders := (orders.filter (fun order => decide (order.side = Side.buy))).length
    let sellOrders := (orders.filter (fun order => decide (order.side = Side.sell))).length
    let sums : ℚ × ℚ := orders.foldl
      (fun acc order =>
        match order.side with
        | Side.buy => (acc.1 + order.totalCost.getD 0, acc.2)
        | Side.sell => (acc.1, acc.2 + order.totalCost.getD 0))
      (0, 0)
    let totalInvested := sums.1
    let totalReturned := sums.2
    let unrealizedProfitLoss :=
      portfolio.items.foldl (fun acc item => acc + item.profitLoss.getD 0) 0
    let realizedProfitLoss := totalReturned - totalInvested
    let totalProfitLoss := realizedProfitLoss + unrealizedProfitLoss
    let profitLossPercentage :=
      if totalInvested > 0 then (totalProfitLoss / totalInvested) * 100 else 0
    some
      { totalValue := portfolio.totalValue
        cashBalance := portfolio.cashBalance
        assetsValue := portfolio.totalValue - portfolio.cashBalance
        totalOrders := totalOrders
        buyOrders := buyOrders
        sellOrders := sellOrders
        totalInvested := totalInvested
        totalReturned := totalReturned
        realizedProfitLoss := realizedProfitLoss
        unrealizedProfitLoss := unrealizedProfitLoss
        totalProfitLoss := totalProfitLoss
        profitLossPercentage := toFixed2 profitLossPercentage }

/-! ## Scenario data

The instrument `X`, user 7 and order 1 of the scenarios of the specification. -/

/-- The instrument `X` at a given price. -/
def scenarioAsset (price : ℚ) : Asset :=
  { symbol := "X", currentPrice := price }

/-- A position in `X` as `executeOrder` leaves it after buying at `mark`. -/
def scenarioItem (quantity averageBuyPrice mark : ℚ) : PortfolioItem :=
  { symbol := "X"
    quantity := quantity
    averageBuyPrice := averageBuyPrice
    currentPrice := mark
    totalValue := quantity * mark
    profitLoss := none
    profitLossPercentage := none
    lastUpdated := 0 }

/-- The portfolio of user 7. -/
def scenarioPortfolio (cashBalance : ℚ) (items : List PortfolioItem) : Portfolio :=
  { id := 1
    user := 7
    items := items
    totalValue := 10000
    cashBalance := cashBalance
    totalProfitLoss := 0
    totalProfitLossPercentage := 0
    lastUpdated := 0 }

/-- Order 1 of user 7 on `X`, a market order with nothing filled yet. -/
def scenarioOrder (side : Side) (quantity : ℚ) (status : OrderStatus) : Order :=
  { id := 1
    user := 7
    symbol := "X"
    type := OrderType.market
    side := side
    quantity := quantity
    price := none
    stopPrice := none
    status := status
    filledQuantity := 0
    averageFilledPrice := none
    totalCost := some 0 }

/-- A store holding the instrument `X`, one portfolio and one order. -/
def scenarioDb (price : ℚ) (portfolio : Portfolio) (order : Order) : Db :=
  { assets := [scenarioAsset price], portfolios := [portfolio], orders := [order] }

/-- A request for `X` with the given kind, side, quantity and price, no stop price. -/
def scenarioRequest (type : OrderType) (side : Side) (quantity : Option ℚ)
    (price : Option ℚ) : OrderRequest :=
  { symbol := some "x"
    type := some type
    side := some side
    quantity := quantity
    price := price
    stopPrice := none }

/-- A store holding the instrument `X` and one portfolio, with no order yet. -/
def scenarioStore (price : ℚ) (portfolio : Portfolio) : Db :=
  { assets := [scenarioAsset price], portfolios := [portfolio], orders := [] }

/-- A store in which user 7 has bought one `X` for 3 and sold it for 4: cash 10001, no
item left, two filled orders. -/
def statsDb : Db :=
  { assets := [scenarioAsset 4]
    portfolios := [scenarioPortfolio 10001 []]
    orders :=
      [{ scenarioOrder Side.buy 1 OrderStatus.filled with
          filledQuantity := 1, averageFilledPrice := some 3, totalCost := some 3 },
       { scenarioOrder Side.sell 1 OrderStatus.filled with
          id := 2, filledQuantity := 1, averageFilledPrice := some 4, totalCost := some 4 }] }

/-- A store with no document at all. -/
def emptyDb : Db :=
  { assets := [], portfolios := [], orders := [] }

/-- A store in which user 7 holds 10 `X` bought at 100, with cash 9000, and the
instrument `X` is no longer listed. -/
def staleDb : Db :=
  { assets := [], portfolios := [scenarioPortfolio 9000 [scenarioItem 10 100 100]], orders := [] }

/-! ## Lemmas on the store and on lists -/

theorem any_key_of_find {α : Type} (key : α → Nat) (q : α → Bool) {docs : List α} {p : α}
    (h : docs.find? q = some p) : docs.any (fun d => decide (key d = key p)) = true := by
  have hm := List.mem_of_find?_eq_some h
  exact List.any_eq_true.mpr ⟨p, hm, by simp⟩

theorem find_map_replace {α : Type} (key : α → Nat) (q : α → Bool) (doc : α) :
    ∀ (docs : List α) (p : α), docs.find? q = some p → key doc = key p → q doc = true →
      (docs.map (fun d => if key d = key doc then doc else d)).find? q = some doc := by
  intro docs
  induction docs with
  | nil => intro p h; simp at h
  | cons x xs ih =>
    intro p h hk hq
    by_cases hx : key x = key doc
    · simp [List.map, hx, List.find?, hq]
    · by_cases hqx : q x = true
      · simp [List.find?, hqx] at h
        subst h
        exact absurd hk.symm hx
      · simp only [Bool.not_eq_true] at hqx
        simp only [List.find?, hqx] at h
        simp only [List.map, hx, if_false, List.find?, hqx]
        exact ih p h hk hq

theorem find_saveDoc {α : Type} (key : α → Nat) (q : α → Bool) (doc : α) (docs : List α) (p : α)
    (h : docs.find? q = some p) (hk : key doc = key p) (hq : q doc = true) :
    (saveDoc key doc docs).find? q = some doc := by
  unfold saveDoc
  rw [hk, any_key_of_find key q h, if_pos rfl, ← hk]
  exact find_map_replace key q doc docs p h hk hq

theorem findPortfolio_savePortfolio (db : Db) (u : Nat) (p p' : Portfolio)
    (h : db.findPortfolio u = some p) (hid : p'.id = p.id) (hu : p'.user = u) :
    (db.savePortfolio p').findPortfolio u = some p' := by
  unfold Db.findPortfolio Db.savePortfolio
  exact find_saveDoc Portfolio.id _ p' db.portfolios p h hid (by simp [hu])

theorem findOrderById_saveOrder (db : Db) (i : Nat) (o o' : Order)
    (h : db.findOrderById i = some o) (hid : o'.id = o.id) :
    (db.saveOrder o').findOrderById i = some o' := by
  have hi : o.id = i := by
    have := List.find?_some h
    simpa using this
  unfold Db.findOrderById Db.saveOrder
  exact find_saveDoc Order.id _ o' db.orders o h hid (by simp [hid, hi])

theorem findOrder_saveOrder (db : Db) (i u : Nat) (o o' : Order)
    (h : db.findOrder i u = some o) (hid : o'.id = o.id) (hu : o'.user = o.user) :
    (db.saveOrder o').findOrder i u = some o' := by
  have hi : o.id = i ∧ o.user = u := by
    have := List.find?_some h
    simpa using this
  unfold Db.findOrder Db.saveOrder
  exact find_saveDoc Order.id _ o' db.orders o h hid (by simp [hid, hu, hi.1, hi.2])

theorem map_set_same {α β : Type} (f : α → β) (l : List α) (i : Nat) (x y : α)
    (hy : l[i]? = some y) (hf : f x = f y) : (l.set i x).map f = l.map f := by
  apply List.ext_getElem?
  intro n
  by_cases hn : i = n
  · subst hn
    have hlt : i < l.length := by
      rcases Nat.lt_or_ge i l.length with h | h
      · exact h
      · rw [List.getElem?_eq_none h] at hy
        exact absurd hy (by simp)
    have hget : l[i] = y := by
      rw [List.getElem?_eq_getElem hlt] at hy
      exact Option.some.inj hy
    simp [List.getElem?_set, List.getElem?_map, hf, hlt, hget]
  · simp [List.getElem?_set, List.getElem?_map, hn]

theorem itemsTotalValue_eq_sum (items : List PortfolioItem) :
    itemsTotalValue items = (items.map PortfolioItem.totalValue).sum := by
  unfold itemsTotalValue
  have : ∀ (l : List PortfolioItem) (a : ℚ),
      l.foldl (fun total item => total + item.totalValue) a
        = a + (l.map PortfolioItem.totalValue).sum := by
    intro l
    induction l with
    | nil => intro a; simp
    | cons x xs ih => intro a; simp [List.foldl, ih, add_assoc]
  simpa using this items 0

/-! ## Lemmas on `executeOrder` -/

/-- The run of `executeOrder` once a pending order, its asset and its
portfolio are found. -/
theorem executeOrder_found (now : Nat) (db : Db) (orderId : Nat) (order : Order) (asset : Asset)
    (portfolio : Portfolio)
    (ho : db.findOrderById orderId = some order) (hs : order.status = OrderStatus.pending)
    (ha : db.findAsset order.symbol = some asset)
    (hp : db.findPortfolio order.user = some portfolio) :
    executeOrder now db orderId =
      match executeOn now order asset portfolio with
      | (order, none) => db.saveOrder order
      | (order, some portfolio) =>
        if fillSchemaAccepts order = false then db
        else if portfolioSchemaAccepts portfolio = false then db.saveOrder order
        else (db.saveOrder order).savePortfolio portfolio := by
  simp [executeOrder, ho, hs, ha, hp]

theorem executeOn_buy (now : Nat) (order : Order) (asset : Asset) (portfolio : Portfolio)
    (hside : order.side = Side.buy)
    (hc : ¬ portfolio.cashBalance < asset.currentPrice * order.quantity) :
    executeOn now order asset portfolio =
      ({ order with
          status := OrderStatus.filled
          filledQuantity := order.quantity
          averageFilledPrice := some asset.currentPrice
          totalCost := some (asset.currentPrice * order.quantity) },
       some { portfolio with
          cashBalance := portfolio.cashBalance - asset.currentPrice * order.quantity
          items := buyItems now portfolio.items order.symbol order.quantity asset.currentPrice
            (asset.currentPrice * order.quantity)
          totalValue :=
            itemsTotalValue (buyItems now portfolio.items order.symbol order.quantity
              asset.currentPrice (asset.currentPrice * order.quantity))
            + (portfolio.cashBalance - asset.currentPrice * order.quantity) }) := by
  simp [executeOn, hside, hc]

theorem executeOn_buy_rejected (now : Nat) (order : Order) (asset : Asset) (portfolio : Portfolio)
    (hside : order.side = Side.buy)
    (hc : portfolio.cashBalance < asset.currentPrice * order.quantity) :
    executeOn now order asset portfolio = ({ order with status := OrderStatus.rejected }, none) := by
  simp [executeOn, hside, hc]

theorem executeOn_sell (now : Nat) (order : Order) (asset : Asset) (portfolio : Portfolio)
    (i : Nat) (item : PortfolioItem)
    (hside : order.side = Side.sell)
    (hi : findItemIndex portfolio.items order.symbol = some i)
    (hitem : portfolio.items[i]? = some item)
    (hq : ¬ item.quantity < order.quantity) :
    executeOn now order asset portfolio =
      ({ order with
          status := OrderStatus.filled
          filledQuantity := order.quantity
          averageFilledPrice := some asset.currentPrice
          totalCost := some (asset.currentPrice * order.quantity) },
       some { portfolio with
          cashBalance := portfolio.cashBalance + asset.currentPrice * order.quantity
          items := sellItems portfolio.items i order.quantity asset.currentPrice
          totalValue :=
            itemsTotalValue (sellItems portfolio.items i order.quantity asset.currentPrice)
            + (portfolio.cashBalance + asset.currentPrice * order.quantity) }) := by
  simp [executeOn, hside, hi, hitem, hq]

theorem executeOn_sell_not_held (now : Nat) (order : Order) (asset : Asset)
    (portfolio : Portfolio) (hside : order.side = Side.sell)
    (hi : findItemIndex portfolio.items order.symbol = none) :
    executeOn now order asset portfolio = ({ order with status := OrderStatus.rejected }, none) := by
  simp [executeOn, hside, hi]

theorem executeOn_sell_short (now : Nat) (order : Order) (asset : Asset) (portfolio : Portfolio)
    (i : Nat) (item : PortfolioItem)
    (hside : order.side = Side.sell)
    (hi : findItemIndex portfolio.items order.symbol = some i)
    (hitem : portfolio.items[i]? = some item)
    (hq : item.quantity < order.quantity) :
    executeOn now order asset portfolio = ({ order with status := OrderStatus.rejected }, none) := by
  simp [executeOn, hside, hi, hitem, hq]

/-- The index `findIndex` returns is inside the list. -/
theorem findItemIndex_get (items : List PortfolioItem) (symbol : String) (i : Nat)
    (hi : findItemIndex items symbol = some i) :
    ∃ item, items[i]? = some item ∧ item.symbol = symbol := by
  unfold findItemIndex at hi
  rw [List.findIdx?_eq_some_iff_getElem] at hi
  obtain ⟨hlt, hp, _⟩ := hi
  exact ⟨items[i], by simp [List.getElem?_eq_getElem hlt], by simpa using hp⟩

/-- Every portfolio `executeOrder` writes satisfies the total-value identity: its
`totalValue` is the cash plus the sum of the items' total values. -/
theorem executeOn_filled_totalValue (now : Nat) (order order' : Order) (asset : Asset)
    (portfolio p' : Portfolio)
    (h : executeOn now order asset portfolio = (order', some p')) :
    p'.totalValue = p'.cashBalance + (p'.items.map PortfolioItem.totalValue).sum := by
  unfold executeOn at h
  simp only at h
  split at h
  · split at h
    · simp at h
    · simp only [Prod.mk.injEq, Option.some.injEq] at h
      rw [← h.2, itemsTotalValue_eq_sum]
      exact add_comm _ _
  · split at h
    · simp at h
    · split at h
      · simp at h
      · split at h
        · simp at h
        · simp only [Prod.mk.injEq, Option.some.injEq] at h
          rw [← h.2, itemsTotalValue_eq_sum]
          exact add_comm _ _

/-- The portfolio `executeOn` hands back: the one of before with cash, items and total
value updated by the buy branch or by the sell branch. -/
theorem executeOn_some (now : Nat) (order : Order) (asset : Asset) (portfolio p' : Portfolio)
    (h : (executeOn now order asset portfolio).2 = some p') :
    (executeOn now order asset portfolio).1 =
        { order with
          status := OrderStatus.filled
          filledQuantity := order.quantity
          averageFilledPrice := some asset.currentPrice
          totalCost := some (asset.currentPrice * order.quantity) } ∧
      p'.id = portfolio.id ∧ p'.user = portfolio.user ∧
      ((order.side = Side.buy ∧
          ¬ portfolio.cashBalance < asset.currentPrice * order.quantity ∧
          p'.cashBalance = portfolio.cashBalance - asset.currentPrice * order.quantity ∧
          p'.items = buyItems now portfolio.items order.symbol order.quantity
            asset.currentPrice (asset.currentPrice * order.quantity)) ∨
        (order.side = Side.sell ∧ ∃ i item,
          findItemIndex portfolio.items order.symbol = some i ∧
          portfolio.items[i]? = some item ∧ ¬ item.quantity < order.quantity ∧
          p'.cashBalance = portfolio.cashBalance + asset.currentPrice * order.quantity ∧
          p'.items = sellItems portfolio.items i order.quantity asset.currentPrice)) := by
  have hsides : order.side = Side.buy ∨ order.side = Side.sell := by
    cases order.side
    · exact Or.inl rfl
    · exact Or.inr rfl
  rcases hsides with hside | hside
  · by_cases hc : portfolio.cashBalance < asset.currentPrice * order.quantity
    · rw [executeOn_buy_rejected now order asset portfolio hside hc] at h
      exact absurd h (by simp)
    · rw [executeOn_buy now order asset portfolio hside hc] at h ⊢
      simp only [Option.some.injEq] at h
      subst h
      exact ⟨rfl, rfl, rfl, Or.inl ⟨hside, hc, rfl, rfl⟩⟩
  · rcases hfi : findItemIndex portfolio.items order.symbol with _ | i
    · rw [executeOn_sell_not_held now order asset portfolio hside hfi] at h
      exact absurd h (by simp)
    · obtain ⟨item, hitem, _⟩ := findItemIndex_get _ _ _ hfi
      by_cases hq : item.quantity < order.quantity
      · rw [executeOn_sell_short now order asset portfolio i item hside hfi hitem hq] at h
        exact absurd h (by simp)
      · rw [executeOn_sell now order asset portfolio i item hside hfi hitem hq] at h ⊢
        simp only [Option.some.injEq] at h
        subst h
        exact ⟨rfl, rfl, rfl, Or.inr ⟨hside, i, item, rfl, hitem, hq, rfl, rfl⟩⟩

/-! ## Lemmas on the validators -/

/-- The validators accept the filled order when quantity and price are not negative. -/
theorem fillSchemaAccepts_filled (order : Order) (price : ℚ) (hq : 0 ≤ order.quantity)
    (hprice : 0 ≤ price) :
    fillSchemaAccepts
      { order with
        status := OrderStatus.filled
        filledQuantity := order.quantity
        averageFilledPrice := some price
        totalCost := some (price * order.quantity) } = true := by
  simp [fillSchemaAccepts, hq, hprice, mul_nonneg hprice hq]

/-- The validators refuse the filled order when the price is negative: its average filled
price is below 0. -/
theorem fillSchemaAccepts_negative (order : Order) (price : ℚ) (hprice : price < 0) :
    fillSchemaAccepts
      { order with
        status := OrderStatus.filled
        filledQuantity := order.quantity
        averageFilledPrice := some price
        totalCost := some (price * order.quantity) } = false := by
  simp [fillSchemaAccepts, hprice]

/-- The items all pass their validators exactly when the portfolio's item check does. -/
theorem items_accepted_iff (items : List PortfolioItem) :
    items.all itemSchemaAccepts = true ↔ ∀ item ∈ items, itemSchemaAccepts item = true := by
  simp [List.all_eq_true]

/-- What the validators of an item say. -/
theorem itemSchemaAccepts_iff (item : PortfolioItem) :
    itemSchemaAccepts item = true ↔
      0 ≤ item.quantity ∧ 0 ≤ item.averageBuyPrice ∧ 0 ≤ item.currentPrice ∧
        0 ≤ item.totalValue := by
  simp [itemSchemaAccepts, and_assoc]

/-- The total value of items that pass their validators is not negative. -/
theorem itemsTotalValue_nonneg (items : List PortfolioItem)
    (h : ∀ item ∈ items, itemSchemaAccepts item = true) : 0 ≤ itemsTotalValue items := by
  rw [itemsTotalValue_eq_sum]
  apply List.sum_nonneg
  intro x hx
  rw [List.mem_map] at hx
  obtain ⟨item, hitem, rfl⟩ := hx
  exact ((itemSchemaAccepts_iff item).mp (h item hitem)).2.2.2

/-- The buy branch keeps the items valid, for a quantity and a price that are not
negative. -/
theorem buyItems_accepted (now : Nat) (items : List PortfolioItem) (symbol : String)
    (quantity executionPrice : ℚ)
    (h : ∀ item ∈ items, itemSchemaAccepts item = true)
    (hq : 0 ≤ quantity) (hprice : 0 ≤ executionPrice) :
    ∀ item ∈ buyItems now items symbol quantity executionPrice (executionPrice * quantity),
      itemSchemaAccepts item = true := by
  intro item hitem
  unfold buyItems at hitem
  cases hfi : findItemIndex items symbol with
  | none =>
    simp only [hfi] at hitem
    rw [List.mem_append] at hitem
    rcases hitem with hm | hm
    · exact h item hm
    · rw [List.mem_singleton.mp hm, itemSchemaAccepts_iff]
      exact ⟨hq, hprice, hprice, mul_nonneg hprice hq⟩
  | some i =>
    cases hget : items[i]? with
    | none =>
      simp only [hfi, hget] at hitem
      exact h item hitem
    | some existingItem =>
      simp only [hfi, hget] at hitem
      have hex := (itemSchemaAccepts_iff existingItem).mp
        (h existingItem (List.mem_iff_getElem?.mpr ⟨i, hget⟩))
      rcases List.mem_or_eq_of_mem_set hitem with hm | hm
      · exact h item hm
      · rw [hm, itemSchemaAccepts_iff]
        have hnq : 0 ≤ existingItem.quantity + quantity := add_nonneg hex.1 hq
        exact ⟨hnq,
          div_nonneg (add_nonneg (mul_nonneg hex.2.1 hex.1) (mul_nonneg hprice hq)) hnq,
          hprice, mul_nonneg hnq hprice⟩

/-- The sell branch keeps the items valid, for a price that is not negative. -/
theorem sellItems_accepted (items : List PortfolioItem) (i : Nat) (quantity executionPrice : ℚ)
    (h : ∀ item ∈ items, itemSchemaAccepts item = true) (hprice : 0 ≤ executionPrice) :
    ∀ item ∈ sellItems items i quantity executionPrice, itemSchemaAccepts item = true := by
  intro item hitem
  unfold sellItems at hitem
  cases hget : items[i]? with
  | none =>
    simp only [hget] at hitem
    exact h item hitem
  | some existingItem =>
    simp only [hget] at hitem
    have hex := (itemSchemaAccepts_iff existingItem).mp
      (h existingItem (List.mem_iff_getElem?.mpr ⟨i, hget⟩))
    by_cases hpos : existingItem.quantity - quantity > 0
    · rw [if_pos hpos] at hitem
      rcases List.mem_or_eq_of_mem_set hitem with hm | hm
      · exact h item hm
      · rw [hm, itemSchemaAccepts_iff]
        exact ⟨le_of_lt hpos, hex.2.1, hex.2.2.1, mul_nonneg (le_of_lt hpos) hprice⟩
    · rw [if_neg hpos] at hitem
      exact h item ((List.eraseIdx_sublist _ _).subset hitem)

/-- The portfolio `executeOn` hands back passes the validators when the stored portfolio
does and quantity and price are not negative: on a schema-valid store the portfolio write
of a fill does not fail validation. -/
theorem executeOn_portfolio_accepted (now : Nat) (order : Order) (asset : Asset)
    (portfolio p' : Portfolio)
    (h : (executeOn now order asset portfolio).2 = some p')
    (hq : 0 ≤ order.quantity) (hprice : 0 ≤ asset.currentPrice)
    (hvalid : portfolioSchemaAccepts portfolio = true) :
    portfolioSchemaAccepts p' = true := by
  have hv : 0 ≤ portfolio.totalValue ∧ 0 ≤ portfolio.cashBalance ∧
      ∀ item ∈ portfolio.items, itemSchemaAccepts item = true := by
    simpa [portfolioSchemaAccepts, List.all_eq_true, and_assoc] using hvalid
  have htv : p'.totalValue = p'.cashBalance + (p'.items.map PortfolioItem.totalValue).sum :=
    executeOn_filled_totalValue now order (executeOn now order asset portfolio).1 asset
      portfolio p' (by rw [← h])
  obtain ⟨_, _, _, hcase⟩ := executeOn_some now order asset portfolio p' h
  have hgoal : ∀ (hc : 0 ≤ p'.cashBalance)
      (hi : ∀ item ∈ p'.items, itemSchemaAccepts item = true),
      portfolioSchemaAccepts p' = true := by
    intro hc hi
    have hs : 0 ≤ (p'.items.map PortfolioItem.totalValue).sum := by
      rw [← itemsTotalValue_eq_sum]
      exact itemsTotalValue_nonneg _ hi
    have ht : 0 ≤ p'.totalValue := by
      rw [htv]
      exact add_nonneg hc hs
    simp only [portfolioSchemaAccepts, Bool.and_eq_true, decide_eq_true_eq, List.all_eq_true]
    exact ⟨⟨ht, hc⟩, hi⟩
  rcases hcase with ⟨_, hc, hcb, hitems⟩ | ⟨_, i, item, _, _, _, hcb, hitems⟩
  · apply hgoal
    · rw [hcb]
      linarith [not_lt.mp hc]
    · rw [hitems]
      exact buyItems_accepted now _ _ _ _ hv.2.2 hq hprice
  · apply hgoal
    · rw [hcb]
      linarith [mul_nonneg hprice hq, hv.2.1]
    · rw [hitems]
      exact sellItems_accepted _ _ _ _ hv.2.2 hprice

/-- The three outcomes of the fill path of `executeOrder`: the validators refuse the
filled order and nothing is written; they accept it and refuse the portfolio, and only the
order is written; they accept both, and both are written. -/
theorem executeOrder_fill_cases (now : Nat) (db : Db) (orderId : Nat) (order o' : Order)
    (asset : Asset) (portfolio p' : Portfolio)
    (ho : db.findOrderById orderId = some order) (hs : order.status = OrderStatus.pending)
    (ha : db.findAsset order.symbol = some asset)
    (hp : db.findPortfolio order.user = some portfolio)
    (hfill : executeOn now order asset portfolio = (o', some p')) :
    (fillSchemaAccepts o' = false ∧ executeOrder now db orderId = db) ∨
    (fillSchemaAccepts o' = true ∧ portfolioSchemaAccepts p' = false ∧
      executeOrder now db orderId = db.saveOrder o') ∨
    (fillSchemaAccepts o' = true ∧ portfolioSchemaAccepts p' = true ∧
      executeOrder now db orderId = (db.saveOrder o').savePortfolio p') := by
  rw [executeOrder_found now db orderId order asset portfolio ho hs ha hp, hfill]
  cases h1 : fillSchemaAccepts o' <;> cases h2 : portfolioSchemaAccepts p' <;> simp [h1, h2]

/-- The run of `executeOrder` that fills an order on a schema-valid portfolio at a price
and a quantity that are not negative: both documents are written. -/
theorem executeOrder_filled (now : Nat) (db : Db) (orderId : Nat) (order o' : Order)
    (asset : Asset) (portfolio p' : Portfolio)
    (ho : db.findOrderById orderId = some order) (hs : order.status = OrderStatus.pending)
    (ha : db.findAsset order.symbol = some asset)
    (hp : db.findPortfolio order.user = some portfolio)
    (hfill : executeOn now order asset portfolio = (o', some p'))
    (hq : 0 ≤ order.quantity) (hprice : 0 ≤ asset.currentPrice)
    (hvalid : portfolioSchemaAccepts portfolio = true) :
    executeOrder now db orderId = (db.saveOrder o').savePortfolio p' := by
  have hsome : (executeOn now order asset portfolio).2 = some p' := by rw [hfill]
  have ho' := (executeOn_some now order asset portfolio p' hsome).1
  rw [hfill] at ho'
  simp only at ho'
  have h1 : fillSchemaAccepts o' = true := by
    rw [ho']
    exact fillSchemaAccepts_filled order asset.currentPrice hq hprice
  have h2 := executeOn_portfolio_accepted now order asset portfolio p' hsome hq hprice hvalid
  rw [executeOrder_found now db orderId order asset portfolio ho hs ha hp, hfill]
  simp [h1, h2]

/-- The order found under the id after a fill, for a quantity and a price that are not
negative: the filled order, whether or not the portfolio write passed its validators. -/
theorem executeOrder_fill_stores (now : Nat) (db : Db) (orderId : Nat) (order o' : Order)
    (asset : Asset) (portfolio p' : Portfolio)
    (ho : db.findOrderById orderId = some order) (hs : order.status = OrderStatus.pending)
    (ha : db.findAsset order.symbol = some asset)
    (hp : db.findPortfolio order.user = some portfolio)
    (hfill : executeOn now order asset portfolio = (o', some p'))
    (hq : 0 ≤ order.quantity) (hprice : 0 ≤ asset.currentPrice) :
    (executeOrder now db orderId).findOrderById orderId = some o' := by
  have hsome : (executeOn now order asset portfolio).2 = some p' := by rw [hfill]
  have ho' := (executeOn_some now order asset portfolio p' hsome).1
  rw [hfill] at ho'
  simp only at ho'
  have h1 : fillSchemaAccepts o' = true := by
    rw [ho']
    exact fillSchemaAccepts_filled order asset.currentPrice hq hprice
  have hid : o'.id = order.id := by rw [ho']
  have hsaved : (db.saveOrder o').findOrderById orderId = some o' :=
    findOrderById_saveOrder db orderId order o' ho hid
  rcases executeOrder_fill_cases now db orderId order o' asset portfolio p' ho hs ha hp hfill
    with ⟨h, _⟩ | ⟨_, _, hrun⟩ | ⟨_, _, hrun⟩
  · rw [h1] at h
    exact absurd h (by decide)
  · rw [hrun]
    exact hsaved
  · rw [hrun]
    exact hsaved

/-- The run of `executeOrder` at a negative price, for an order that `executeOn` fills: the
validators refuse the filled order and the store is left as it was, the order still
`pending`. -/
theorem executeOrder_refused (now : Nat) (db : Db) (orderId : Nat) (order o' : Order)
    (asset : Asset) (portfolio p' : Portfolio)
    (ho : db.findOrderById orderId = some order) (hs : order.status = OrderStatus.pending)
    (ha : db.findAsset order.symbol = some asset)
    (hp : db.findPortfolio order.user = some portfolio)
    (hfill : executeOn now order asset portfolio = (o', some p'))
    (hprice : asset.currentPrice < 0) :
    executeOrder now db orderId = db := by
  have hsome : (executeOn now order asset portfolio).2 = some p' := by rw [hfill]
  have ho' := (executeOn_some now order asset portfolio p' hsome).1
  rw [hfill] at ho'
  simp only at ho'
  have h1 : fillSchemaAccepts o' = false := by
    rw [ho']
    exact fillSchemaAccepts_negative order asset.currentPrice hprice
  rw [executeOrder_found now db orderId order asset portfolio ho hs ha hp, hfill]
  simp [h1]

/-! ## Portfolio total value (C1) -/

/-- C1 (the code departs from it): the portfolio `getUserPortfolio` creates for a new user
has cash 10000, no item and `totalValue` 0, and the valuation refresh leaves the total
value of an item whose instrument is not found out of `totalValue` (cash 9000, one item
worth 1000, `totalValue` 9000); in both states `totalValue` differs from cash plus the
sum of the items' total values. -/
theorem getUserPortfolio_totalValue_off :
    ((getUserPortfolio 0 1 emptyDb 7).2.items = [] ∧
      (getUserPortfolio 0 1 emptyDb 7).2.cashBalance = 10000 ∧
      (getUserPortfolio 0 1 emptyDb 7).2.totalValue = 0 ∧
      (getUserPortfolio 0 1 emptyDb 7).2.totalValue ≠
        (getUserPortfolio 0 1 emptyDb 7).2.cashBalance
          + ((getUserPortfolio 0 1 emptyDb 7).2.items.map PortfolioItem.totalValue).sum) ∧
    ((getUserPortfolio 0 2 staleDb 7).2.totalValue = 9000 ∧
      (getUserPortfolio 0 2 staleDb 7).2.cashBalance = 9000 ∧
      (getUserPortfolio 0 2 staleDb 7).2.items = [scenarioItem 10 100 100] ∧
      (getUserPortfolio 0 2 staleDb 7).2.totalValue ≠
        (getUserPortfolio 0 2 staleDb 7).2.cashBalance
          + ((getUserPortfolio 0 2 staleDb 7).2.items.map PortfolioItem.totalValue).sum) := by
  have h1 : (getUserPortfolio 0 1 emptyDb 7).2.totalValue = 0 := rfl
  have h2 : (getUserPortfolio 0 1 emptyDb 7).2.cashBalance = 10000 := rfl
  have h3 : (getUserPortfolio 0 1 emptyDb 7).2.items = [] := rfl
  have h4 : (getUserPortfolio 0 2 staleDb 7).2.totalValue = 9000 := rfl
  have h5 : (getUserPortfolio 0 2 staleDb 7).2.cashBalance = 9000 := rfl
  have h6 : (getUserPortfolio 0 2 staleDb 7).2.items = [scenarioItem 10 100 100] := rfl
  refine ⟨⟨h3, h2, h1, ?_⟩, h4, h5, h6, ?_⟩
  · rw [h1, h2, h3]
    norm_num
  · rw [h4, h5, h6]
    norm_num [scenarioItem]

/-! ## Buying (C2, C3, C4) -/

/-- C2 (as amended): a pending buy order of positive quantity on an instrument priced `p`,
with `p` not negative, against a stored portfolio that passes the validators of its schema
and whose cash covers `p × q`, leaves the stored portfolio with cash equal to the previous
cash minus exactly `p × q`. -/
theorem executeOrder_buy_debits_cash (now : Nat) (db : Db) (orderId : Nat) (order : Order)
    (asset : Asset) (portfolio : Portfolio)
    (ho : db.findOrderById orderId = some order) (hs : order.status = OrderStatus.pending)
    (ha : db.findAsset order.symbol = some asset)
    (hp : db.findPortfolio order.user = some portfolio)
    (hside : order.side = Side.buy)
    (hq : 0 < order.quantity) (hprice : 0 ≤ asset.currentPrice)
    (hvalid : portfolioSchemaAccepts portfolio = true)
    (hc : portfolio.cashBalance ≥ asset.currentPrice * order.quantity) :
    ∃ p', (executeOrder now db orderId).findPortfolio order.user = some p' ∧
      p'.cashBalance = portfolio.cashBalance - asset.currentPrice * order.quantity := by
  rw [executeOrder_filled now db orderId order _ asset portfolio _ ho hs ha hp
    (executeOn_buy now order asset portfolio hside (not_lt.mpr hc)) (le_of_lt hq) hprice hvalid]
  exact ⟨_, findPortfolio_savePortfolio _ _ portfolio _ hp rfl
    (by simpa [Db.findPortfolio] using List.find?_some hp), rfl⟩

/-- Witness of C2: with cash 10000, buying 10 `X` priced 100 leaves cash 9000. -/
theorem executeOrder_buy_debits_cash_witness :
    ∃ p', (executeOrder 5 (scenarioDb 100 (scenarioPortfolio 10000 [])
        (scenarioOrder Side.buy 10 OrderStatus.pending)) 1).findPortfolio 7 = some p' ∧
      p'.cashBalance = 9000 := by
  obtain ⟨p', h1, h2⟩ := executeOrder_buy_debits_cash 5
    (scenarioDb 100 (scenarioPortfolio 10000 []) (scenarioOrder Side.buy 10 OrderStatus.pending))
    1 (scenarioOrder Side.buy 10 OrderStatus.pending) (scenarioAsset 100)
    (scenarioPortfolio 10000 []) rfl rfl rfl rfl rfl
    (by norm_num [scenarioOrder]) (by norm_num [scenarioAsset])
    (by norm_num [portfolioSchemaAccepts, scenarioPortfolio])
    (by norm_num [scenarioPortfolio, scenarioAsset, scenarioOrder])
  refine ⟨p', h1, ?_⟩
  rw [h2]
  norm_num [scenarioPortfolio, scenarioAsset, scenarioOrder]

/-- Counterexample to C2 as stated: with `X` priced -5 and cash 10000 the pending buy of
10 is covered by the cash, but the validators refuse the filled order (total cost -50),
`executeOrder` leaves the store as it was, and the cash is still 10000, not
10000 - (-5) × 10. -/
theorem executeOrder_buy_negative_price_no_debit :
    (scenarioPortfolio 10000 []).cashBalance ≥ (scenarioAsset (-5)).currentPrice
        * (scenarioOrder Side.buy 10 OrderStatus.pending).quantity ∧
    executeOrder 5 (scenarioDb (-5) (scenarioPortfolio 10000 [])
        (scenarioOrder Side.buy 10 OrderStatus.pending)) 1
      = scenarioDb (-5) (scenarioPortfolio 10000 [])
        (scenarioOrder Side.buy 10 OrderStatus.pending) ∧
    ¬ ∃ p', (executeOrder 5 (scenarioDb (-5) (scenarioPortfolio 10000 [])
        (scenarioOrder Side.buy 10 OrderStatus.pending)) 1).findPortfolio 7 = some p' ∧
      p'.cashBalance = (scenarioPortfolio 10000 []).cashBalance
        - (scenarioAsset (-5)).currentPrice
          * (scenarioOrder Side.buy 10 OrderStatus.pending).quantity := by
  have hc : (scenarioPortfolio 10000 []).cashBalance ≥ (scenarioAsset (-5)).currentPrice
      * (scenarioOrder Side.buy 10 OrderStatus.pending).quantity := by
    norm_num [scenarioPortfolio, scenarioAsset, scenarioOrder]
  have hrun := executeOrder_refused 5
    (scenarioDb (-5) (scenarioPortfolio 10000 []) (scenarioOrder Side.buy 10 OrderStatus.pending))
    1 (scenarioOrder Side.buy 10 OrderStatus.pending) _ (scenarioAsset (-5))
    (scenarioPortfolio 10000 []) _ rfl rfl rfl rfl
    (executeOn_buy 5 (scenarioOrder Side.buy 10 OrderStatus.pending) (scenarioAsset (-5))
      (scenarioPortfolio 10000 []) rfl (not_lt.mpr hc))
    (by norm_num [scenarioAsset])
  refine ⟨hc, hrun, ?_⟩
  rw [hrun]
  rintro ⟨p', hp', hcash⟩
  have h : p' = scenarioPortfolio 10000 [] := (Option.some.inj hp').symm
  rw [h] at hcash
  norm_num [scenarioPortfolio, scenarioAsset, scenarioOrder] at hcash

/-- C3 (as amended): an affordable buy of positive quantity `q` at an execution price `p`
that is not negative, of a symbol already held (the item `findIndex` finds, with quantity
`oldQty` and average `oldAvg`) in a stored portfolio that passes the validators of its
schema, replaces that item, in place, by one with average
`(oldAvg × oldQty + p × q) / (oldQty + q)`, quantity `oldQty + q`, current price `p` and
total value `(oldQty + q) × p`. -/
theorem executeOrder_buy_held_blends (now : Nat) (db : Db) (orderId : Nat) (order : Order)
    (asset : Asset) (portfolio : Portfolio) (i : Nat) (item : PortfolioItem)
    (ho : db.findOrderById orderId = some order) (hs : order.status = OrderStatus.pending)
    (ha : db.findAsset order.symbol = some asset)
    (hp : db.findPortfolio order.user = some portfolio)
    (hside : order.side = Side.buy)
    (hq : 0 < order.quantity) (hprice : 0 ≤ asset.currentPrice)
    (hvalid : portfolioSchemaAccepts portfolio = true)
    (hc : portfolio.cashBalance ≥ asset.currentPrice * order.quantity)
    (hi : findItemIndex portfolio.items order.symbol = some i)
    (hitem : portfolio.items[i]? = some item) :
    ∃ p', (executeOrder now db orderId).findPortfolio order.user = some p' ∧
      p'.items = portfolio.items.set i
        { item with
          quantity := item.quantity + order.quantity
          averageBuyPrice :=
            (item.averageBuyPrice * item.quantity + asset.currentPrice * order.quantity)
              / (item.quantity + order.quantity)
          currentPrice := asset.currentPrice
          totalValue := (item.quantity + order.quantity) * asset.currentPrice } ∧
      i < p'.items.length ∧ item.quantity + order.quantity ≠ 0 := by
  rw [executeOrder_filled now db orderId order _ asset portfolio _ ho hs ha hp
    (executeOn_buy now order asset portfolio hside (not_lt.mpr hc)) (le_of_lt hq) hprice hvalid]
  have hlt : i < portfolio.items.length := by
    rcases Nat.lt_or_ge i portfolio.items.length with h | h
    · exact h
    · rw [List.getElem?_eq_none h] at hitem
      exact absurd hitem (by simp)
  have hv : ∀ it ∈ portfolio.items, itemSchemaAccepts it = true := by
    have := hvalid
    simp only [portfolioSchemaAccepts, Bool.and_eq_true, List.all_eq_true] at this
    exact this.2
  have hold : 0 ≤ item.quantity :=
    ((itemSchemaAccepts_iff item).mp (hv item (List.mem_iff_getElem?.mpr ⟨i, hitem⟩))).1
  refine ⟨_, findPortfolio_savePortfolio _ _ portfolio _ hp rfl
    (by simpa [Db.findPortfolio] using List.find?_some hp), ?_, ?_, ?_⟩
  · simp only [buyItems, hi, hitem]
  · simp only [buyItems, hi, hitem, List.length_set]
    exact hlt
  · exact ne_of_gt (add_pos_of_nonneg_of_pos hold hq)

/-- Witness of C3: holding 10 `X` bought at 100, buying 10 more at 200 gives quantity 20
and average 150, marked at 200 with total value 4000. -/
theorem executeOrder_buy_held_blends_witness :
    ∃ p', (executeOrder 5 (scenarioDb 200 (scenarioPortfolio 9000 [scenarioItem 10 100 100])
        (scenarioOrder Side.buy 10 OrderStatus.pending)) 1).findPortfolio 7 = some p' ∧
      p'.items =
        [{ symbol := "X", quantity := 20, averageBuyPrice := 150, currentPrice := 200,
           totalValue := 4000, profitLoss := none, profitLossPercentage := none,
           lastUpdated := 0 }] := by
  obtain ⟨p', h1, h2, _⟩ := executeOrder_buy_held_blends 5
    (scenarioDb 200 (scenarioPortfolio 9000 [scenarioItem 10 100 100])
      (scenarioOrder Side.buy 10 OrderStatus.pending))
    1 (scenarioOrder Side.buy 10 OrderStatus.pending) (scenarioAsset 200)
    (scenarioPortfolio 9000 [scenarioItem 10 100 100]) 0 (scenarioItem 10 100 100)
    rfl rfl rfl rfl rfl
    (by norm_num [scenarioOrder]) (by norm_num [scenarioAsset])
    (by norm_num [portfolioSchemaAccepts, itemSchemaAccepts, scenarioPortfolio, scenarioItem])
    (by norm_num [scenarioPortfolio, scenarioAsset, scenarioOrder])
    rfl rfl
  refine ⟨p', h1, ?_⟩
  rw [h2]
  norm_num [scenarioPortfolio, scenarioAsset, scenarioOrder, scenarioItem]

/-- Counterexample to C3 as stated: holding 10 `X` bought at 100, with cash 9000 and `X`
priced -5, the pending buy of 10 is covered by the cash, but the validators refuse the
filled order and `executeOrder` leaves the store as it was: the item still has quantity
10, not 20. -/
theorem executeOrder_buy_negative_price_no_blend :
    (scenarioPortfolio 9000 [scenarioItem 10 100 100]).cashBalance
        ≥ (scenarioAsset (-5)).currentPrice
          * (scenarioOrder Side.buy 10 OrderStatus.pending).quantity ∧
    findItemIndex (scenarioPortfolio 9000 [scenarioItem 10 100 100]).items "X" = some 0 ∧
    (executeOrder 5 (scenarioDb (-5) (scenarioPortfolio 9000 [scenarioItem 10 100 100])
        (scenarioOrder Side.buy 10 OrderStatus.pending)) 1).findPortfolio 7
      = some (scenarioPortfolio 9000 [scenarioItem 10 100 100]) ∧
    ¬ ∃ p' item', (executeOrder 5 (scenarioDb (-5)
        (scenarioPortfolio 9000 [scenarioItem 10 100 100])
        (scenarioOrder Side.buy 10 OrderStatus.pending)) 1).findPortfolio 7 = some p' ∧
      p'.items[0]? = some item' ∧
      item'.quantity = (scenarioItem 10 100 100).quantity
        + (scenarioOrder Side.buy 10 OrderStatus.pending).quantity := by
  have hc : (scenarioPortfolio 9000 [scenarioItem 10 100 100]).cashBalance
      ≥ (scenarioAsset (-5)).currentPrice
        * (scenarioOrder Side.buy 10 OrderStatus.pending).quantity := by
    norm_num [scenarioPortfolio, scenarioAsset, scenarioOrder]
  have hrun := executeOrder_refused 5
    (scenarioDb (-5) (scenarioPortfolio 9000 [scenarioItem 10 100 100])
      (scenarioOrder Side.buy 10 OrderStatus.pending))
    1 (scenarioOrder Side.buy 10 OrderStatus.pending) _ (scenarioAsset (-5))
    (scenarioPortfolio 9000 [scenarioItem 10 100 100]) _ rfl rfl rfl rfl
    (executeOn_buy 5 (scenarioOrder Side.buy 10 OrderStatus.pending) (scenarioAsset (-5))
      (scenarioPortfolio 9000 [scenarioItem 10 100 100]) rfl (not_lt.mpr hc))
    (by norm_num [scenarioAsset])
  refine ⟨hc, rfl, by rw [hrun]; rfl, ?_⟩
  rw [hrun]
  rintro ⟨p', item', hp', hitem', hquantity⟩
  have h : p' = scenarioPortfolio 9000 [scenarioItem 10 100 100] := (Option.some.inj hp').symm
  rw [h] at hitem'
  have h' : item' = scenarioItem 10 100 100 := (Option.some.inj hitem').symm
  rw [h'] at hquantity
  norm_num [scenarioItem, scenarioOrder] at hquantity

/-- C4 (as amended): an affordable buy of positive quantity `q` at an execution price `p`
that is not negative, of a symbol not held in a stored portfolio that passes the
validators of its schema, appends exactly one item (symbol of the order, quantity `q`,
average `p`, current price `p`, total value `p × q`) behind the existing items, which stay
as they were, and debits `p × q`. -/
theorem executeOrder_buy_new_appends (now : Nat) (db : Db) (orderId : Nat) (order : Order)
    (asset : Asset) (portfolio : Portfolio)
    (ho : db.findOrderById orderId = some order) (hs : order.status = OrderStatus.pending)
    (ha : db.findAsset order.symbol = some asset)
    (hp : db.findPortfolio order.user = some portfolio)
    (hside : order.side = Side.buy)
    (hq : 0 < order.quantity) (hprice : 0 ≤ asset.currentPrice)
    (hvalid : portfolioSchemaAccepts portfolio = true)
    (hc : portfolio.cashBalance ≥ asset.currentPrice * order.quantity)
    (hi : findItemIndex portfolio.items order.symbol = none) :
    ∃ p', (executeOrder now db orderId).findPortfolio order.user = some p' ∧
      p'.cashBalance = portfolio.cashBalance - asset.currentPrice * order.quantity ∧
      p'.items = portfolio.items ++
        [{ symbol := order.symbol
           quantity := order.quantity
           averageBuyPrice := asset.currentPrice
           currentPrice := asset.currentPrice
           totalValue := asset.currentPrice * order.quantity
           profitLoss := none
           profitLossPercentage := none
           lastUpdated := now }] := by
  rw [executeOrder_filled now db orderId order _ asset portfolio _ ho hs ha hp
    (executeOn_buy now order asset portfolio hside (not_lt.mpr hc)) (le_of_lt hq) hprice hvalid]
  refine ⟨_, findPortfolio_savePortfolio _ _ portfolio _ hp rfl
    (by simpa [Db.findPortfolio] using List.find?_some hp), rfl, ?_⟩
  simp only [buyItems, hi]

/-- Witness of C4: a new portfolio with cash 10000 buying 10 `X` priced 100 ends with cash
9000 and the single item `X` of quantity 10, average 100 and total value 1000. -/
theorem executeOrder_buy_new_appends_witness :
    ∃ p', (executeOrder 5 (scenarioDb 100 (scenarioPortfolio 10000 [])
        (scenarioOrder Side.buy 10 OrderStatus.pending)) 1).findPortfolio 7 = some p' ∧
      p'.cashBalance = 9000 ∧
      p'.items =
        [{ symbol := "X", quantity := 10, averageBuyPrice := 100, currentPrice := 100,
           totalValue := 1000, profitLoss := none, profitLossPercentage := none,
           lastUpdated := 5 }] := by
  obtain ⟨p', h1, h2, h3⟩ := executeOrder_buy_new_appends 5
    (scenarioDb 100 (scenarioPortfolio 10000 []) (scenarioOrder Side.buy 10 OrderStatus.pending))
    1 (scenarioOrder Side.buy 10 OrderStatus.pending) (scenarioAsset 100)
    (scenarioPortfolio 10000 []) rfl rfl rfl rfl rfl
    (by norm_num [scenarioOrder]) (by norm_num [scenarioAsset])
    (by norm_num [portfolioSchemaAccepts, scenarioPortfolio])
    (by norm_num [scenarioPortfolio, scenarioAsset, scenarioOrder])
    rfl
  refine ⟨p', h1, ?_, ?_⟩
  · rw [h2]
    norm_num [scenarioPortfolio, scenarioAsset, scenarioOrder]
  · rw [h3]
    norm_num [scenarioPortfolio, scenarioAsset, scenarioOrder]

/-- Counterexample to C4 as stated: with `X` priced -5, not held, and cash 10000 the
pending buy of 3 is covered by the cash, but the validators refuse the filled order and
`executeOrder` leaves the store as it was: no item is appended. -/
theorem executeOrder_buy_negative_price_no_item :
    (scenarioPortfolio 10000 []).cashBalance ≥ (scenarioAsset (-5)).currentPrice
        * (scenarioOrder Side.buy 3 OrderStatus.pending).quantity ∧
    findItemIndex (scenarioPortfolio 10000 []).items "X" = none ∧
    (executeOrder 5 (scenarioDb (-5) (scenarioPortfolio 10000 [])
        (scenarioOrder Side.buy 3 OrderStatus.pending)) 1).findPortfolio 7
      = some (scenarioPortfolio 10000 []) ∧
    ¬ ∃ p' item', (executeOrder 5 (scenarioDb (-5) (scenarioPortfolio 10000 [])
        (scenarioOrder Side.buy 3 OrderStatus.pending)) 1).findPortfolio 7 = some p' ∧
      p'.items = (scenarioPortfolio 10000 []).items ++ [item'] := by
  have hc : (scenarioPortfolio 10000 []).cashBalance ≥ (scenarioAsset (-5)).currentPrice
      * (scenarioOrder Side.buy 3 OrderStatus.pending).quantity := by
    norm_num [scenarioPortfolio, scenarioAsset, scenarioOrder]
  have hrun := executeOrder_refused 5
    (scenarioDb (-5) (scenarioPortfolio 10000 []) (scenarioOrder Side.buy 3 OrderStatus.pending))
    1 (scenarioOrder Side.buy 3 OrderStatus.pending) _ (scenarioAsset (-5))
    (scenarioPortfolio 10000 []) _ rfl rfl rfl rfl
    (executeOn_buy 5 (scenarioOrder Side.buy 3 OrderStatus.pending) (scenarioAsset (-5))
      (scenarioPortfolio 10000 []) rfl (not_lt.mpr hc))
    (by norm_num [scenarioAsset])
  refine ⟨hc, rfl, by rw [hrun]; rfl, ?_⟩
  rw [hrun]
  rintro ⟨p', item', hp', hitems⟩
  have h : p' = scenarioPortfolio 10000 [] := (Option.some.inj hp').symm
  rw [h] at hitems
  simp [scenarioPortfolio] at hitems

/-! ## Selling (C5, C6, C7) -/

/-- C5 (as amended): a pending sell order of positive quantity `q` on an instrument priced
`p`, with `p` not negative, against a stored portfolio that passes the validators of its
schema and whose item for the symbol holds at least `q`, leaves the stored portfolio with
cash equal to the previous cash plus exactly `p × q`. -/
theorem executeOrder_sell_credits_cash (now : Nat) (db : Db) (orderId : Nat) (order : Order)
    (asset : Asset) (portfolio : Portfolio) (i : Nat) (item : PortfolioItem)
    (ho : db.findOrderById orderId = some order) (hs : order.status = OrderStatus.pending)
    (ha : db.findAsset order.symbol = some asset)
    (hp : db.findPortfolio order.user = some portfolio)
    (hside : order.side = Side.sell)
    (hq0 : 0 < order.quantity) (hprice : 0 ≤ asset.currentPrice)
    (hvalid : portfolioSchemaAccepts portfolio = true)
    (hi : findItemIndex portfolio.items order.symbol = some i)
    (hitem : portfolio.items[i]? = some item)
    (hq : item.quantity ≥ order.quantity) :
    ∃ p', (executeOrder now db orderId).findPortfolio order.user = some p' ∧
      p'.cashBalance = portfolio.cashBalance + asset.currentPrice * order.quantity := by
  rw [executeOrder_filled now db orderId order _ asset portfolio _ ho hs ha hp
    (executeOn_sell now order asset portfolio i item hside hi hitem (not_lt.mpr hq))
    (le_of_lt hq0) hprice hvalid]
  exact ⟨_, findPortfolio_savePortfolio _ _ portfolio _ hp rfl
    (by simpa [Db.findPortfolio] using List.find?_some hp), rfl⟩

/-- Witness of C5: with cash 9000 and 10 `X` held, selling 10 at 120 gives cash 10200. -/
theorem executeOrder_sell_credits_cash_witness :
    ∃ p', (executeOrder 5 (scenarioDb 120 (scenarioPortfolio 9000 [scenarioItem 10 100 100])
        (scenarioOrder Side.sell 10 OrderStatus.pending)) 1).findPortfolio 7 = some p' ∧
      p'.cashBalance = 10200 := by
  obtain ⟨p', h1, h2⟩ := executeOrder_sell_credits_cash 5
    (scenarioDb 120 (scenarioPortfolio 9000 [scenarioItem 10 100 100])
      (scenarioOrder Side.sell 10 OrderStatus.pending))
    1 (scenarioOrder Side.sell 10 OrderStatus.pending) (scenarioAsset 120)
    (scenarioPortfolio 9000 [scenarioItem 10 100 100]) 0 (scenarioItem 10 100 100)
    rfl rfl rfl rfl rfl
    (by norm_num [scenarioOrder]) (by norm_num [scenarioAsset])
    (by norm_num [portfolioSchemaAccepts, itemSchemaAccepts, scenarioPortfolio, scenarioItem])
    rfl rfl
    (by norm_num [scenarioItem, scenarioOrder])
  refine ⟨p', h1, ?_⟩
  rw [h2]
  norm_num [scenarioPortfolio, scenarioAsset, scenarioOrder]

/-- Counterexample to C5 as stated: with cash 9000, 10 `X` held and `X` priced -5, the
pending sell of 10 is covered by the holding, but the validators refuse the filled order
(total cost -50) and `executeOrder` leaves the store as it was: the cash is still 9000,
not 9000 + (-5) × 10. -/
theorem executeOrder_sell_negative_price_no_credit :
    (scenarioItem 10 100 100).quantity
        ≥ (scenarioOrder Side.sell 10 OrderStatus.pending).quantity ∧
    executeOrder 5 (scenarioDb (-5) (scenarioPortfolio 9000 [scenarioItem 10 100 100])
        (scenarioOrder Side.sell 10 OrderStatus.pending)) 1
      = scenarioDb (-5) (scenarioPortfolio 9000 [scenarioItem 10 100 100])
        (scenarioOrder Side.sell 10 OrderStatus.pending) ∧
    ¬ ∃ p', (executeOrder 5 (scenarioDb (-5) (scenarioPortfolio 9000 [scenarioItem 10 100 100])
        (scenarioOrder Side.sell 10 OrderStatus.pending)) 1).findPortfolio 7 = some p' ∧
      p'.cashBalance = (scenarioPortfolio 9000 [scenarioItem 10 100 100]).cashBalance
        + (scenarioAsset (-5)).currentPrice
          * (scenarioOrder Side.sell 10 OrderStatus.pending).quantity := by
  have hq : ¬ (scenarioItem 10 100 100).quantity
      < (scenarioOrder Side.sell 10 OrderStatus.pending).quantity := by
    norm_num [scenarioItem, scenarioOrder]
  have hrun := executeOrder_refused 5
    (scenarioDb (-5) (scenarioPortfolio 9000 [scenarioItem 10 100 100])
      (scenarioOrder Side.sell 10 OrderStatus.pending))
    1 (scenarioOrder Side.sell 10 OrderStatus.pending) _ (scenarioAsset (-5))
    (scenarioPortfolio 9000 [scenarioItem 10 100 100]) _ rfl rfl rfl rfl
    (executeOn_sell 5 (scenarioOrder Side.sell 10 OrderStatus.pending) (scenarioAsset (-5))
      (scenarioPortfolio 9000 [scenarioItem 10 100 100]) 0 (scenarioItem 10 100 100)
      rfl rfl rfl hq)
    (by norm_num [scenarioAsset])
  refine ⟨not_lt.mp hq, hrun, ?_⟩
  rw [hrun]
  rintro ⟨p', hp', hcash⟩
  have h : p' = scenarioPortfolio 9000 [scenarioItem 10 100 100] := (Option.some.inj hp').symm
  rw [h] at hcash
  norm_num [scenarioPortfolio, scenarioAsset, scenarioOrder] at hcash

/-- C6 (as amended): a sell never changes an average buy price: after `executeOrder` on any
pending sell order the (symbol, average) pairs of the stored items are those of before, in
order, with at most the sold-out item dropped; and when the quantity is positive, the
execution price not negative, the stored portfolio passes the validators of its schema
and the sold quantity is strictly less than the held quantity, the item stays in place
with its average untouched and its quantity reduced by the sold quantity. -/
theorem executeOrder_sell_keeps_average (now : Nat) (db : Db) (orderId : Nat) (order : Order)
    (asset : Asset) (portfolio : Portfolio)
    (ho : db.findOrderById orderId = some order) (hs : order.status = OrderStatus.pending)
    (ha : db.findAsset order.symbol = some asset)
    (hp : db.findPortfolio order.user = some portfolio)
    (hside : order.side = Side.sell) :
    ∃ p', (executeOrder now db orderId).findPortfolio order.user = some p' ∧
      (p'.items.map (fun it => (it.symbol, it.averageBuyPrice))).Sublist
        (portfolio.items.map (fun it => (it.symbol, it.averageBuyPrice))) ∧
      (0 < order.quantity → 0 ≤ asset.currentPrice →
        portfolioSchemaAccepts portfolio = true →
        ∀ i item, findItemIndex portfolio.items order.symbol = some i →
          portfolio.items[i]? = some item → order.quantity < item.quantity →
          p'.items.map PortfolioItem.averageBuyPrice
            = portfolio.items.map PortfolioItem.averageBuyPrice ∧
          ∃ item', p'.items[i]? = some item' ∧
            item'.symbol = item.symbol ∧
            item'.averageBuyPrice = item.averageBuyPrice ∧
            item'.quantity = item.quantity - order.quantity) := by
  have hu : portfolio.user = order.user := by
    simpa [Db.findPortfolio] using List.find?_some hp
  have hfi : findItemIndex portfolio.items order.symbol = none ∨
      ∃ i, findItemIndex portfolio.items order.symbol = some i := by
    cases findItemIndex portfolio.items order.symbol
    · exact Or.inl rfl
    · exact Or.inr ⟨_, rfl⟩
  rcases hfi with hi | ⟨i, hi⟩
  · rw [executeOrder_found now db orderId order asset portfolio ho hs ha hp,
      executeOn_sell_not_held now order asset portfolio hside hi]
    exact ⟨portfolio, hp, List.Sublist.refl _, by intro _ _ _ i item h; simp [hi] at h⟩
  · obtain ⟨item, hitem, _⟩ := findItemIndex_get _ _ _ hi
    have hlt : i < portfolio.items.length := by
      rcases Nat.lt_or_ge i portfolio.items.length with h | h
      · exact h
      · rw [List.getElem?_eq_none h] at hitem
        exact absurd hitem (by simp)
    by_cases hq : item.quantity < order.quantity
    · rw [executeOrder_found now db orderId order asset portfolio ho hs ha hp,
        executeOn_sell_short now order asset portfolio i item hside hi hitem hq]
      refine ⟨portfolio, hp, List.Sublist.refl _, ?_⟩
      intro _ _ _ j item2 hj hitem2 hlt2
      rw [hi] at hj
      simp only [Option.some.injEq] at hj
      subst hj
      rw [hitem] at hitem2
      simp only [Option.some.injEq] at hitem2
      subst hitem2
      exact absurd hq (not_lt.mpr (le_of_lt hlt2))
    · have hfill := executeOn_sell now order asset portfolio i item hside hi hitem hq
      have hsome : (executeOn now order asset portfolio).2 =
          some { portfolio with
            cashBalance := portfolio.cashBalance + asset.currentPrice * order.quantity
            items := sellItems portfolio.items i order.quantity asset.currentPrice
            totalValue :=
              itemsTotalValue (sellItems portfolio.items i order.quantity asset.currentPrice)
              + (portfolio.cashBalance + asset.currentPrice * order.quantity) } := by
        rw [hfill]
      have hkept : ∀ db' : Db, db'.findPortfolio order.user = some portfolio →
          fillSchemaAccepts
              { order with
                status := OrderStatus.filled
                filledQuantity := order.quantity
                averageFilledPrice := some asset.currentPrice
                totalCost := some (asset.currentPrice * order.quantity) } = false ∨
            portfolioSchemaAccepts
              { portfolio with
                cashBalance := portfolio.cashBalance + asset.currentPrice * order.quantity
                items := sellItems portfolio.items i order.quantity asset.currentPrice
                totalValue :=
                  itemsTotalValue (sellItems portfolio.items i order.quantity asset.currentPrice)
                  + (portfolio.cashBalance + asset.currentPrice * order.quantity) } = false →
          ∃ p', db'.findPortfolio order.user = some p' ∧
            (p'.items.map (fun it => (it.symbol, it.averageBuyPrice))).Sublist
              (portfolio.items.map (fun it => (it.symbol, it.averageBuyPrice))) ∧
            (0 < order.quantity → 0 ≤ asset.currentPrice →
              portfolioSchemaAccepts portfolio = true →
              ∀ i item, findItemIndex portfolio.items order.symbol = some i →
                portfolio.items[i]? = some item → order.quantity < item.quantity →
                p'.items.map PortfolioItem.averageBuyPrice
                  = portfolio.items.map PortfolioItem.averageBuyPrice ∧
                ∃ item', p'.items[i]? = some item' ∧
                  item'.symbol = item.symbol ∧
                  item'.averageBuyPrice = item.averageBuyPrice ∧
                  item'.quantity = item.quantity - order.quantity) := by
        intro db' hdb' hrefused
        refine ⟨portfolio, hdb', List.Sublist.refl _, ?_⟩
        intro hq0 hprice hvalid
        rcases hrefused with h | h
        · rw [fillSchemaAccepts_filled order asset.currentPrice (le_of_lt hq0) hprice] at h
          exact absurd h (by decide)
        · rw [executeOn_portfolio_accepted now order asset portfolio _ hsome (le_of_lt hq0)
            hprice hvalid] at h
          exact absurd h (by decide)
      rcases executeOrder_fill_cases now db orderId order _ asset portfolio _ ho hs ha hp hfill
        with ⟨h1, hrun⟩ | ⟨_, h2, hrun⟩ | ⟨_, _, hrun⟩
      · rw [hrun]
        exact hkept db hp (Or.inl h1)
      · rw [hrun]
        exact hkept _ hp (Or.inr h2)
      · rw [hrun]
        refine ⟨_, findPortfolio_savePortfolio _ _ portfolio _ hp rfl hu, ?_, ?_⟩
        · simp only [sellItems, hitem]
          split
          · rw [map_set_same (fun it : PortfolioItem => (it.symbol, it.averageBuyPrice))
              portfolio.items i
              { item with
                quantity := item.quantity - order.quantity
                totalValue := (item.quantity - order.quantity) * asset.currentPrice }
              item hitem rfl]
          · exact (List.eraseIdx_sublist _ _).map _
        · intro _ _ _ j item2 hj hitem2 hlt2
          rw [hi] at hj
          simp only [Option.some.injEq] at hj
          subst hj
          rw [hitem] at hitem2
          simp only [Option.some.injEq] at hitem2
          subst hitem2
          have hpos : item.quantity - order.quantity > 0 := sub_pos.mpr hlt2
          simp only [sellItems, hitem, hpos, if_true]
          refine ⟨map_set_same PortfolioItem.averageBuyPrice portfolio.items i
            { item with
              quantity := item.quantity - order.quantity
              totalValue := (item.quantity - order.quantity) * asset.currentPrice } item hitem
              rfl,
            { item with
              quantity := item.quantity - order.quantity
              totalValue := (item.quantity - order.quantity) * asset.currentPrice },
            ?_, rfl, rfl, rfl⟩
          simp [List.getElem?_set, hlt]

/-- Witness of C6: holding 10 `X` at average 100, selling 4 at 120 leaves the item in
place with average 100 and quantity 6. -/
theorem executeOrder_sell_keeps_average_witness :
    ∃ p' item', (executeOrder 5 (scenarioDb 120 (scenarioPortfolio 9000 [scenarioItem 10 100 100])
        (scenarioOrder Side.sell 4 OrderStatus.pending)) 1).findPortfolio 7 = some p' ∧
      p'.items[0]? = some item' ∧ item'.averageBuyPrice = 100 ∧ item'.quantity = 6 := by
  obtain ⟨p', h1, _, h3⟩ := executeOrder_sell_keeps_average 5
    (scenarioDb 120 (scenarioPortfolio 9000 [scenarioItem 10 100 100])
      (scenarioOrder Side.sell 4 OrderStatus.pending))
    1 (scenarioOrder Side.sell 4 OrderStatus.pending) (scenarioAsset 120)
    (scenarioPortfolio 9000 [scenarioItem 10 100 100]) rfl rfl rfl rfl rfl
  obtain ⟨_, item', h4, _, h5, h6⟩ := h3
    (by norm_num [scenarioOrder]) (by norm_num [scenarioAsset])
    (by norm_num [portfolioSchemaAccepts, itemSchemaAccepts, scenarioPortfolio, scenarioItem])
    0 (scenarioItem 10 100 100) rfl rfl
    (by norm_num [scenarioItem, scenarioOrder])
  refine ⟨p', item', h1, h4, ?_, ?_⟩
  · rw [h5]
    rfl
  · rw [h6]
    norm_num [scenarioItem, scenarioOrder]

/-- Counterexample to C6 as stated: holding 10 `X` with `X` priced -5, the pending sell of
4 is strictly less than the holding, but the validators refuse the filled order and
`executeOrder` leaves the store as it was: the item still has quantity 10, not 10 - 4. -/
theorem executeOrder_sell_negative_price_no_reduction :
    (scenarioOrder Side.sell 4 OrderStatus.pending).quantity
        < (scenarioItem 10 100 100).quantity ∧
    (executeOrder 5 (scenarioDb (-5) (scenarioPortfolio 9000 [scenarioItem 10 100 100])
        (scenarioOrder Side.sell 4 OrderStatus.pending)) 1).findPortfolio 7
      = some (scenarioPortfolio 9000 [scenarioItem 10 100 100]) ∧
    ¬ ∃ p' item', (executeOrder 5 (scenarioDb (-5)
        (scenarioPortfolio 9000 [scenarioItem 10 100 100])
        (scenarioOrder Side.sell 4 OrderStatus.pending)) 1).findPortfolio 7 = some p' ∧
      p'.items[0]? = some item' ∧
      item'.quantity = (scenarioItem 10 100 100).quantity
        - (scenarioOrder Side.sell 4 OrderStatus.pending).quantity := by
  have hq : ¬ (scenarioItem 10 100 100).quantity
      < (scenarioOrder Side.sell 4 OrderStatus.pending).quantity := by
    norm_num [scenarioItem, scenarioOrder]
  have hrun := executeOrder_refused 5
    (scenarioDb (-5) (scenarioPortfolio 9000 [scenarioItem 10 100 100])
      (scenarioOrder Side.sell 4 OrderStatus.pending))
    1 (scenarioOrder Side.sell 4 OrderStatus.pending) _ (scenarioAsset (-5))
    (scenarioPortfolio 9000 [scenarioItem 10 100 100]) _ rfl rfl rfl rfl
    (executeOn_sell 5 (scenarioOrder Side.sell 4 OrderStatus.pending) (scenarioAsset (-5))
      (scenarioPortfolio 9000 [scenarioItem 10 100 100]) 0 (scenarioItem 10 100 100)
      rfl rfl rfl hq)
    (by norm_num [scenarioAsset])
  refine ⟨by norm_num [scenarioItem, scenarioOrder], by rw [hrun]; rfl, ?_⟩
  rw [hrun]
  rintro ⟨p', item', hp', hitem', hquantity⟩
  have h : p' = scenarioPortfolio 9000 [scenarioItem 10 100 100] := (Option.some.inj hp').symm
  rw [h] at hitem'
  have h' : item' = scenarioItem 10 100 100 := (Option.some.inj hitem').symm
  rw [h'] at hquantity
  norm_num [scenarioItem, scenarioOrder] at hquantity

/-- C7 (as amended): a sell of positive quantity, at an execution price that is not
negative and against a stored portfolio that passes the validators of its schema, whose
quantity equals the held quantity removes the item `findIndex` found from the stored
items; what remains is the other items, unchanged and in their order. -/
theorem executeOrder_sell_all_removes (now : Nat) (db : Db) (orderId : Nat) (order : Order)
    (asset : Asset) (portfolio : Portfolio) (i : Nat) (item : PortfolioItem)
    (ho : db.findOrderById orderId = some order) (hs : order.status = OrderStatus.pending)
    (ha : db.findAsset order.symbol = some asset)
    (hp : db.findPortfolio order.user = some portfolio)
    (hside : order.side = Side.sell)
    (hq0 : 0 < order.quantity) (hprice : 0 ≤ asset.currentPrice)
    (hvalid : portfolioSchemaAccepts portfolio = true)
    (hi : findItemIndex portfolio.items order.symbol = some i)
    (hitem : portfolio.items[i]? = some item)
    (hq : order.quantity = item.quantity) :
    ∃ p', (executeOrder now db orderId).findPortfolio order.user = some p' ∧
      p'.items = portfolio.items.eraseIdx i ∧
      p'.items.length + 1 = portfolio.items.length := by
  have hu : portfolio.user = order.user := by
    simpa [Db.findPortfolio] using List.find?_some hp
  have hlt : i < portfolio.items.length := by
    rcases Nat.lt_or_ge i portfolio.items.length with h | h
    · exact h
    · rw [List.getElem?_eq_none h] at hitem
      exact absurd hitem (by simp)
  rw [executeOrder_filled now db orderId order _ asset portfolio _ ho hs ha hp
    (executeOn_sell now order asset portfolio i item hside hi hitem
      (by rw [hq]; exact lt_irrefl _)) (le_of_lt hq0) hprice hvalid]
  refine ⟨_, findPortfolio_savePortfolio _ _ portfolio _ hp rfl hu, ?_, ?_⟩
  · simp [sellItems, hitem, hq]
  · simp only [sellItems, hitem, hq, sub_self, gt_iff_lt, lt_self_iff_false, if_false]
    rw [List.length_eraseIdx, if_pos hlt]
    omega

/-- Witness of C7: holding 10 `X` and nothing else, selling 10 at 120 leaves no item. -/
theorem executeOrder_sell_all_removes_witness :
    ∃ p', (executeOrder 5 (scenarioDb 120 (scenarioPortfolio 9000 [scenarioItem 10 100 100])
        (scenarioOrder Side.sell 10 OrderStatus.pending)) 1).findPortfolio 7 = some p' ∧
      p'.items = [] := by
  obtain ⟨p', h1, h2, _⟩ := executeOrder_sell_all_removes 5
    (scenarioDb 120 (scenarioPortfolio 9000 [scenarioItem 10 100 100])
      (scenarioOrder Side.sell 10 OrderStatus.pending))
    1 (scenarioOrder Side.sell 10 OrderStatus.pending) (scenarioAsset 120)
    (scenarioPortfolio 9000 [scenarioItem 10 100 100]) 0 (scenarioItem 10 100 100)
    rfl rfl rfl rfl rfl
    (by norm_num [scenarioOrder]) (by norm_num [scenarioAsset])
    (by norm_num [portfolioSchemaAccepts, itemSchemaAccepts, scenarioPortfolio, scenarioItem])
    rfl rfl rfl
  exact ⟨p', h1, by rw [h2]; rfl⟩

/-- Counterexample to C7 as stated: holding 2 `X` with `X` priced -5, the pending sell of
2 equals the holding, but the validators refuse the filled order and `executeOrder`
leaves the store as it was: the item is still in the portfolio. -/
theorem executeOrder_sell_negative_price_no_removal :
    (scenarioOrder Side.sell 2 OrderStatus.pending).quantity
        = (scenarioItem 2 100 100).quantity ∧
    (executeOrder 5 (scenarioDb (-5) (scenarioPortfolio 9000 [scenarioItem 2 100 100])
        (scenarioOrder Side.sell 2 OrderStatus.pending)) 1).findPortfolio 7
      = some (scenarioPortfolio 9000 [scenarioItem 2 100 100]) ∧
    ¬ ∃ p', (executeOrder 5 (scenarioDb (-5) (scenarioPortfolio 9000 [scenarioItem 2 100 100])
        (scenarioOrder Side.sell 2 OrderStatus.pending)) 1).findPortfolio 7 = some p' ∧
      p'.items = (scenarioPortfolio 9000 [scenarioItem 2 100 100]).items.eraseIdx 0 := by
  have hq : ¬ (scenarioItem 2 100 100).quantity
      < (scenarioOrder Side.sell 2 OrderStatus.pending).quantity := by
    norm_num [scenarioItem, scenarioOrder]
  have hrun := executeOrder_refused 5
    (scenarioDb (-5) (scenarioPortfolio 9000 [scenarioItem 2 100 100])
      (scenarioOrder Side.sell 2 OrderStatus.pending))
    1 (scenarioOrder Side.sell 2 OrderStatus.pending) _ (scenarioAsset (-5))
    (scenarioPortfolio 9000 [scenarioItem 2 100 100]) _ rfl rfl rfl rfl
    (executeOn_sell 5 (scenarioOrder Side.sell 2 OrderStatus.pending) (scenarioAsset (-5))
      (scenarioPortfolio 9000 [scenarioItem 2 100 100]) 0 (scenarioItem 2 100 100)
      rfl rfl rfl hq)
    (by norm_num [scenarioAsset])
  refine ⟨rfl, by rw [hrun]; rfl, ?_⟩
  rw [hrun]
  rintro ⟨p', hp', hitems⟩
  have h : p' = scenarioPortfolio 9000 [scenarioItem 2 100 100] := (Option.some.inj hp').symm
  rw [h] at hitems
  simp [scenarioPortfolio] at hitems

/-! ## Rejection (C8) -/

/-- C8: when `executeOrder` cannot honour a pending order (a buy with cash below
`price × quantity`, a sell of a symbol that is not held, or a sell of more than the held
quantity) the stored order becomes `rejected` with no other field changed, and the
portfolio collection, hence the user's cash, items and total value, is left as it was. -/
theorem executeOrder_rejects_untouched (now : Nat) (db : Db) (orderId : Nat) (order : Order)
    (asset : Asset) (portfolio : Portfolio)
    (ho : db.findOrderById orderId = some order) (hs : order.status = OrderStatus.pending)
    (ha : db.findAsset order.symbol = some asset)
    (hp : db.findPortfolio order.user = some portfolio)
    (h : (order.side = Side.buy ∧
            portfolio.cashBalance < asset.currentPrice * order.quantity) ∨
         (order.side = Side.sell ∧ findItemIndex portfolio.items order.symbol = none) ∨
         (order.side = Side.sell ∧ ∃ i item,
            findItemIndex portfolio.items order.symbol = some i ∧
            portfolio.items[i]? = some item ∧ item.quantity < order.quantity)) :
    (executeOrder now db orderId).findOrderById orderId
        = some { order with status := OrderStatus.rejected } ∧
      (executeOrder now db orderId).portfolios = db.portfolios ∧
      (executeOrder now db orderId).findPortfolio order.user = some portfolio := by
  have hrej : executeOrder now db orderId
      = db.saveOrder { order with status := OrderStatus.rejected } := by
    rw [executeOrder_found now db orderId order asset portfolio ho hs ha hp]
    rcases h with ⟨hside, hc⟩ | ⟨hside, hi⟩ | ⟨hside, i, item, hi, hitem, hq⟩
    · rw [executeOn_buy_rejected now order asset portfolio hside hc]
    · rw [executeOn_sell_not_held now order asset portfolio hside hi]
    · rw [executeOn_sell_short now order asset portfolio i item hside hi hitem hq]
  rw [hrej]
  exact ⟨findOrderById_saveOrder db orderId order _ ho rfl, rfl, hp⟩

/-- Witness of C8: with cash 500, a buy of 10 `X` priced 100 is rejected and the
portfolio collection is the one of before. -/
theorem executeOrder_rejects_untouched_witness :
    (executeOrder 5 (scenarioDb 100 (scenarioPortfolio 500 [])
        (scenarioOrder Side.buy 10 OrderStatus.pending)) 1).findOrderById 1
        = some (scenarioOrder Side.buy 10 OrderStatus.rejected) ∧
      (executeOrder 5 (scenarioDb 100 (scenarioPortfolio 500 [])
        (scenarioOrder Side.buy 10 OrderStatus.pending)) 1).portfolios
        = [scenarioPortfolio 500 []] := by
  obtain ⟨h1, h2, _⟩ := executeOrder_rejects_untouched 5
    (scenarioDb 100 (scenarioPortfolio 500 []) (scenarioOrder Side.buy 10 OrderStatus.pending))
    1 (scenarioOrder Side.buy 10 OrderStatus.pending) (scenarioAsset 100)
    (scenarioPortfolio 500 []) rfl rfl rfl rfl
    (Or.inl ⟨rfl, by norm_num [scenarioPortfolio, scenarioAsset, scenarioOrder]⟩)
  exact ⟨h1, h2⟩

/-! ## Cancellation (C9, C10) -/

/-- C9: cancelling an order of the user that is `pending` writes that order with status
`cancelled` and every other field as before, and nothing else: the portfolio collection
and the instruments are as they were.  (The answer is the 500 of the `catch`, since the
notification of line 161 throws after the write.) -/
theorem cancelOrder_pending_cancels (db : Db) (orderId userId : Nat) (order : Order)
    (ho : db.findOrder orderId userId = some order)
    (hs : order.status = OrderStatus.pending) :
    (cancelOrder db orderId userId).1
        = db.saveOrder { order with status := OrderStatus.cancelled } ∧
      (cancelOrder db orderId userId).1.findOrder orderId userId
        = some { order with status := OrderStatus.cancelled } ∧
      (cancelOrder db orderId userId).1.portfolios = db.portfolios ∧
      (cancelOrder db orderId userId).1.assets = db.assets ∧
      (cancelOrder db orderId userId).2 =
        { status := 500, message := "Error cancelling order", order := none } := by
  have hc : cancelOrder db orderId userId =
      (db.saveOrder { order with status := OrderStatus.cancelled },
       { status := 500, message := "Error cancelling order", order := none }) := by
    simp [cancelOrder, ho, hs]
  rw [hc]
  exact ⟨rfl, findOrder_saveOrder db orderId userId order _ ho rfl rfl, rfl, rfl, rfl⟩

/-- Witness of C9: cancelling the pending order 1 of user 7 stores it as cancelled and
leaves the portfolio of user 7 as it was. -/
theorem cancelOrder_pending_cancels_witness :
    (cancelOrder (scenarioDb 100 (scenarioPortfolio 10000 [])
        (scenarioOrder Side.buy 10 OrderStatus.pending)) 1 7).1.findOrder 1 7
        = some (scenarioOrder Side.buy 10 OrderStatus.cancelled) ∧
      (cancelOrder (scenarioDb 100 (scenarioPortfolio 10000 [])
        (scenarioOrder Side.buy 10 OrderStatus.pending)) 1 7).1.portfolios
        = [scenarioPortfolio 10000 []] := by
  obtain ⟨_, h1, h2, _⟩ := cancelOrder_pending_cancels
    (scenarioDb 100 (scenarioPortfolio 10000 []) (scenarioOrder Side.buy 10 OrderStatus.pending))
    1 7 (scenarioOrder Side.buy 10 OrderStatus.pending) rfl rfl
  exact ⟨h1, h2⟩

/-- C10: cancelling an order of the user whose status is not `pending` fails with 400 and
the reason "Only pending orders can be cancelled", and an order id that no order of the
user carries fails with 404 "Order not found"; in both cases the store, and so the order
with all its fields, is left as it was. -/
theorem cancelOrder_refuses (db : Db) (orderId userId : Nat) :
    (∀ order, db.findOrder orderId userId = some order →
        order.status ≠ OrderStatus.pending →
        cancelOrder db orderId userId =
          (db, { status := 400
                 message := "Only pending orders can be cancelled"
                 order := none })) ∧
      ((∀ o ∈ db.orders, o.id = orderId → o.user ≠ userId) →
        cancelOrder db orderId userId =
          (db, { status := 404, message := "Order not found", order := none })) := by
  constructor
  · intro order ho hs
    simp [cancelOrder, ho, hs]
  · intro h
    have hnone : db.findOrder orderId userId = none := by
      unfold Db.findOrder
      rw [List.find?_eq_none]
      intro o ho
      simp only [Bool.and_eq_true, decide_eq_true_eq, not_and]
      exact h o ho
    simp [cancelOrder, hnone]

/-- Witness of C10: cancelling the filled order 1 of user 7 is refused with 400, and user 8
cancelling order 1 of user 7 gets 404. -/
theorem cancelOrder_refuses_witness :
    (cancelOrder (scenarioDb 100 (scenarioPortfolio 9000 [scenarioItem 10 100 100])
        (scenarioOrder Side.buy 10 OrderStatus.filled)) 1 7).2.message
        = "Only pending orders can be cancelled" ∧
      (cancelOrder (scenarioDb 100 (scenarioPortfolio 10000 [])
        (scenarioOrder Side.buy 10 OrderStatus.pending)) 1 8).2.message = "Order not found" := by
  constructor
  · rw [(cancelOrder_refuses (scenarioDb 100 (scenarioPortfolio 9000 [scenarioItem 10 100 100])
      (scenarioOrder Side.buy 10 OrderStatus.filled)) 1 7).1
      (scenarioOrder Side.buy 10 OrderStatus.filled) rfl (by decide)]
  · rw [(cancelOrder_refuses (scenarioDb 100 (scenarioPortfolio 10000 [])
      (scenarioOrder Side.buy 10 OrderStatus.pending)) 1 8).2
      (by intro o ho _; simp [scenarioDb] at ho; subst ho; decide)]

/-! ## Lemmas on `placeOrder` -/

/-- The run of `placeOrder` for a request that passes the four shape checks and whose
instrument and portfolio are found: what remains is the funds check, the holdings check,
the schema validation of the new order and, for a market order, the execution; the
notification then throws and the answer is the 500 of the `catch`. -/
theorem placeOrder_checked (now newId : Nat) (db : Db) (userId : Nat) (symbol : String)
    (type : OrderType) (side : Side) (quantity : ℚ) (price stopPrice : Option ℚ)
    (asset : Asset) (portfolio : Portfolio)
    (hsym : symbol ≠ "") (hq : 0 < quantity)
    (hprice : type ≠ OrderType.market → falsyNumber price = false)
    (hstop : type = OrderType.stop → falsyNumber stopPrice = false)
    (ha : db.findAsset (toUpperCase symbol) = some asset)
    (hp : db.findPortfolio userId = some portfolio) :
    placeOrder now newId db userId
        { symbol := some symbol, type := some type, side := some side
          quantity := some quantity, price := price, stopPrice := stopPrice } =
      if side = Side.buy ∧
          (match (if type = OrderType.market then some asset.currentPrice else price).map
              (fun p => p * quantity) with
            | some c => decide (portfolio.cashBalance < c)
            | none => false) = true then
        (db, { status := 400, message := "Insufficient funds", order := none })
      else if side = Side.sell ∧
          (match portfolio.items.find? (fun item => decide (item.symbol = toUpperCase symbol)) with
           | none => true
           | some portfolioItem => decide (portfolioItem.quantity < quantity)) = true then
        (db, { status := 400, message := "Insufficient assets", order := none })
      else if orderSchemaAccepts
          (newOrder newId userId (toUpperCase symbol) type side quantity
            (if type = OrderType.market then some asset.currentPrice else price) stopPrice)
          = false then
        (db, { status := 500, message := "Error placing order", order := none })
      else
        (if type = OrderType.market then
            executeOrder now (db.saveOrder
              (newOrder newId userId (toUpperCase symbol) type side quantity
                (if type = OrderType.market then some asset.currentPrice else price) stopPrice))
              newId
          else
            db.saveOrder
              (newOrder newId userId (toUpperCase symbol) type side quantity
                (if type = OrderType.market then some asset.currentPrice else price) stopPrice),
         { status := 500, message := "Error placing order", order := none }) := by
  have hq0 : quantity ≠ 0 := ne_of_gt hq
  have hq1 : ¬ quantity ≤ 0 := not_le.mpr hq
  have h1 : ¬ (type ≠ OrderType.market ∧ falsyNumber price = true) := by
    rintro ⟨h, h'⟩
    rw [hprice h] at h'
    exact absurd h' (by decide)
  have h2 : ¬ (type = OrderType.stop ∧ falsyNumber stopPrice = true) := by
    rintro ⟨h, h'⟩
    rw [hstop h] at h'
    exact absurd h' (by decide)
  have hfq : falsyNumber (some quantity) = false := by simp [falsyNumber, hq0]
  have hfs : falsyString (some symbol) = false := by simp [falsyString, hsym]
  unfold placeOrder
  simp only [hfq, hfs, Option.isNone_some, Bool.or_self, Bool.false_eq_true, if_false, hq1]
  rw [if_neg h1, if_neg h2]
  simp only [ha, hp]
  rfl

/-- Every run of `placeOrder` either refuses the request, leaving the store as it was and
answering without an order and with a status other than 201, or passes every check: the
new pending order is stored and, for a market order, executed, and the answer is the 500
of the `catch`. -/
theorem placeOrder_cases (now newId : Nat) (db : Db) (userId : Nat) (req : OrderRequest) :
    ((placeOrder now newId db userId req).1 = db ∧
      (placeOrder now newId db userId req).2.order = none ∧
      (placeOrder now newId db userId req).2.status ≠ 201) ∨
    (∃ symbol type side quantity asset portfolio,
      req.symbol = some symbol ∧ symbol ≠ "" ∧ req.type = some type ∧ req.side = some side ∧
      req.quantity = some quantity ∧ 0 < quantity ∧
      (type ≠ OrderType.market → falsyNumber req.price = false) ∧
      (type = OrderType.stop → falsyNumber req.stopPrice = false) ∧
      db.findAsset (toUpperCase symbol) = some asset ∧
      db.findPortfolio userId = some portfolio ∧
      ¬ (side = Side.buy ∧
          (match (if type = OrderType.market then some asset.currentPrice else req.price).map
              (fun p => p * quantity) with
            | some c => decide (portfolio.cashBalance < c)
            | none => false) = true) ∧
      ¬ (side = Side.sell ∧
          (match portfolio.items.find? (fun item => decide (item.symbol = toUpperCase symbol)) with
           | none => true
           | some portfolioItem => decide (portfolioItem.quantity < quantity)) = true) ∧
      orderSchemaAccepts
          (newOrder newId userId (toUpperCase symbol) type side quantity
            (if type = OrderType.market then some asset.currentPrice else req.price)
            req.stopPrice) = true ∧
      placeOrder now newId db userId req =
        (if type = OrderType.market then
            executeOrder now (db.saveOrder
              (newOrder newId userId (toUpperCase symbol) type side quantity
                (if type = OrderType.market then some asset.currentPrice else req.price)
                req.stopPrice)) newId
          else
            db.saveOrder
              (newOrder newId userId (toUpperCase symbol) type side quantity
                (if type = OrderType.market then some asset.currentPrice else req.price)
                req.stopPrice),
         { status := 500, message := "Error placing order", order := none })) := by
  rcases req with ⟨symbol, type, side, quantity, price, stopPrice⟩
  cases symbol with
  | none => left; simp [placeOrder, falsyString]
  | some symbol =>
  cases type with
  | none => left; simp [placeOrder]
  | some type =>
  cases side with
  | none => left; simp [placeOrder]
  | some side =>
  cases quantity with
  | none => left; simp [placeOrder, falsyNumber]
  | some quantity =>
  by_cases hsym : symbol = ""
  · left; simp [placeOrder, falsyString, hsym]
  by_cases hq0 : quantity = 0
  · left; simp [placeOrder, falsyNumber, hq0]
  have hfq : falsyNumber (some quantity) = false := by simp [falsyNumber, hq0]
  have hfs : falsyString (some symbol) = false := by simp [falsyString, hsym]
  by_cases hq1 : quantity ≤ 0
  · left; simp [placeOrder, hfq, hfs, hq1]
  by_cases h1 : type ≠ OrderType.market ∧ falsyNumber price = true
  · left
    unfold placeOrder
    simp only [hfq, hfs, Option.isNone_some, Bool.or_self, Bool.false_eq_true, if_false, hq1]
    rw [if_pos h1]
    simp
  by_cases h2 : type = OrderType.stop ∧ falsyNumber stopPrice = true
  · left
    unfold placeOrder
    simp only [hfq, hfs, Option.isNone_some, Bool.or_self, Bool.false_eq_true, if_false, hq1]
    rw [if_neg h1, if_pos h2]
    simp
  cases ha : db.findAsset (toUpperCase symbol) with
  | none =>
    left
    unfold placeOrder
    simp only [hfq, hfs, Option.isNone_some, Bool.or_self, Bool.false_eq_true, if_false, hq1]
    rw [if_neg h1, if_neg h2]
    simp [ha]
  | some asset =>
  cases hp : db.findPortfolio userId with
  | none =>
    left
    unfold placeOrder
    simp only [hfq, hfs, Option.isNone_some, Bool.or_self, Bool.false_eq_true, if_false, hq1]
    rw [if_neg h1, if_neg h2]
    simp [ha, hp]
  | some portfolio =>
  have hprice : type ≠ OrderType.market → falsyNumber price = false := by
    intro hm
    cases hf : falsyNumber price with
    | false => rfl
    | true => exact absurd ⟨hm, hf⟩ h1
  have hstop : type = OrderType.stop → falsyNumber stopPrice = false := by
    intro hm
    cases hf : falsyNumber stopPrice with
    | false => rfl
    | true => exact absurd ⟨hm, hf⟩ h2
  have hq : 0 < quantity := lt_of_not_ge hq1
  have hrun := placeOrder_checked now newId db userId symbol type side quantity price
    stopPrice asset portfolio hsym hq hprice hstop ha hp
  by_cases hb : side = Side.buy ∧
      (match (if type = OrderType.market then some asset.currentPrice else price).map
          (fun p => p * quantity) with
        | some c => decide (portfolio.cashBalance < c)
        | none => false) = true
  · left
    rw [hrun, if_pos hb]
    simp
  by_cases hsl : side = Side.sell ∧
      (match portfolio.items.find? (fun item => decide (item.symbol = toUpperCase symbol)) with
       | none => true
       | some portfolioItem => decide (portfolioItem.quantity < quantity)) = true
  · left
    rw [hrun, if_neg hb, if_pos hsl]
    simp
  by_cases hacc : orderSchemaAccepts
      (newOrder newId userId (toUpperCase symbol) type side quantity
        (if type = OrderType.market then some asset.currentPrice else price) stopPrice) = false
  · left
    rw [hrun, if_neg hb, if_neg hsl, if_pos hacc]
    simp
  · right
    refine ⟨symbol, type, side, quantity, asset, portfolio, rfl, hsym, rfl, rfl, rfl, hq,
      hprice, hstop, ?_, ?_, hb, hsl, by simpa using hacc, ?_⟩
    · exact ha
    · rfl
    · rw [hrun, if_neg hb, if_neg hsl, if_neg hacc]

/-! ## Placement validation (C11 to C15) -/

/-- C11 (as amended): a request whose symbol matches no instrument never creates an order
and never changes the store, whatever else it carries; when it passes the four shape
checks (fields present, quantity above 0, price for a limit or stop order, stop price for
a stop order) the answer is 404 with the reason "Asset not found". -/
theorem placeOrder_unknown_symbol (now newId : Nat) (db : Db) (userId : Nat)
    (req : OrderRequest)
    (hunknown : ∀ symbol, req.symbol = some symbol → db.findAsset (toUpperCase symbol) = none) :
    (placeOrder now newId db userId req).1 = db ∧
      (placeOrder now newId db userId req).2.order = none ∧
      (∀ symbol type side quantity, req.symbol = some symbol → symbol ≠ "" →
        req.type = some type → req.side = some side → req.quantity = some quantity →
        0 < quantity → (type ≠ OrderType.market → falsyNumber req.price = false) →
        (type = OrderType.stop → falsyNumber req.stopPrice = false) →
        (placeOrder now newId db userId req).2 =
          { status := 404, message := "Asset not found", order := none }) := by
  refine ⟨?_, ?_, ?_⟩
  · unfold placeOrder
    split
    · rfl
    · split
      · rename_i symbol type side quantity hs _ _ _
        rw [hunknown symbol hs]
        split
        · rfl
        · split
          · rfl
          · split
            · rfl
            · rfl
      · rfl
  · unfold placeOrder
    split
    · rfl
    · split
      · rename_i symbol type side quantity hs _ _ _
        rw [hunknown symbol hs]
        split
        · rfl
        · split
          · rfl
          · split
            · rfl
            · rfl
      · rfl
  · intro symbol type side quantity hs hsym ht hsd hqty hq hprice hstop
    have hq0 : quantity ≠ 0 := ne_of_gt hq
    have hq1 : ¬ quantity ≤ 0 := not_le.mpr hq
    have h1 : ¬ (type ≠ OrderType.market ∧ falsyNumber req.price = true) := by
      rintro ⟨h, h'⟩
      rw [hprice h] at h'
      exact absurd h' (by decide)
    have h2 : ¬ (type = OrderType.stop ∧ falsyNumber req.stopPrice = true) := by
      rintro ⟨h, h'⟩
      rw [hstop h] at h'
      exact absurd h' (by decide)
    have hfq : falsyNumber (some quantity) = false := by simp [falsyNumber, hq0]
    have hfs : falsyString (some symbol) = false := by simp [falsyString, hsym]
    unfold placeOrder
    simp only [hs, ht, hsd, hqty, hfq, hfs, Option.isNone_some, Bool.or_self,
      Bool.false_eq_true, if_false, hq1]
    rw [if_neg h1, if_neg h2, hunknown symbol hs]

/-- Witness of C11: a market buy of 10 `ZZZ`, which is not listed, is answered with
404 "Asset not found" and the store is the one of before. -/
theorem placeOrder_unknown_symbol_witness :
    (placeOrder 5 1 (scenarioStore 100 (scenarioPortfolio 10000 [])) 7
        { symbol := some "zzz", type := some OrderType.market, side := some Side.buy
          quantity := some 10, price := none, stopPrice := none }).1
        = scenarioStore 100 (scenarioPortfolio 10000 []) ∧
      (placeOrder 5 1 (scenarioStore 100 (scenarioPortfolio 10000 [])) 7
        { symbol := some "zzz", type := some OrderType.market, side := some Side.buy
          quantity := some 10, price := none, stopPrice := none }).2
        = { status := 404, message := "Asset not found", order := none } := by
  obtain ⟨h1, _, h3⟩ := placeOrder_unknown_symbol 5 1
    (scenarioStore 100 (scenarioPortfolio 10000 [])) 7
    { symbol := some "zzz", type := some OrderType.market, side := some Side.buy
      quantity := some 10, price := none, stopPrice := none }
    (by intro symbol hs; simp only [Option.some.injEq] at hs; subst hs; rfl)
  exact ⟨h1, h3 "zzz" OrderType.market Side.buy 10 rfl (by decide) rfl rfl rfl (by norm_num)
    (by intro h; exact absurd rfl h) (by intro h; exact absurd h (by decide))⟩

/-- Counterexample to C11 as stated: a request for the unlisted symbol `ZZZ` with
quantity -1 is not answered with "Asset not found" but with the quantity reason. -/
theorem placeOrder_unknown_symbol_quantity_reason :
    (scenarioStore 100 (scenarioPortfolio 10000 [])).findAsset (toUpperCase "zzz") = none ∧
      (placeOrder 5 1 (scenarioStore 100 (scenarioPortfolio 10000 [])) 7
        { symbol := some "zzz", type := some OrderType.market, side := some Side.buy
          quantity := some (-1), price := none, stopPrice := none }).2.message
        = "Quantity must be greater than 0" ∧
      ¬ ((placeOrder 5 1 (scenarioStore 100 (scenarioPortfolio 10000 [])) 7
        { symbol := some "zzz", type := some OrderType.market, side := some Side.buy
          quantity := some (-1), price := none, stopPrice := none }).2.message
        = "Asset not found") := by
  have h : (placeOrder 5 1 (scenarioStore 100 (scenarioPortfolio 10000 [])) 7
        { symbol := some "zzz", type := some OrderType.market, side := some Side.buy
          quantity := some (-1), price := none, stopPrice := none }).2.message
        = "Quantity must be greater than 0" := by
    norm_num [placeOrder, falsyString, falsyNumber]
    rfl
  refine ⟨rfl, h, ?_⟩
  rw [h]
  decide

/-- C12: a buy request that passes the shape checks, with instrument and portfolio found,
is answered with "Insufficient funds" exactly when the cash is below the effective price
times the quantity; the effective price `p` is the instrument's current price for a market
order and the supplied price otherwise.  The refusal is a 400 that leaves the store as it
was. -/
theorem placeOrder_buy_funds (now newId : Nat) (db : Db) (userId : Nat) (symbol : String)
    (type : OrderType) (quantity : ℚ) (price stopPrice : Option ℚ)
    (asset : Asset) (portfolio : Portfolio) (p : ℚ)
    (hsym : symbol ≠ "") (hq : 0 < quantity)
    (hprice : type ≠ OrderType.market → falsyNumber price = false)
    (hstop : type = OrderType.stop → falsyNumber stopPrice = false)
    (ha : db.findAsset (toUpperCase symbol) = some asset)
    (hp : db.findPortfolio userId = some portfolio)
    (heff : (type = OrderType.market ∧ p = asset.currentPrice) ∨
            (type ≠ OrderType.market ∧ price = some p)) :
    ((placeOrder now newId db userId
        { symbol := some symbol, type := some type, side := some Side.buy
          quantity := some quantity, price := price, stopPrice := stopPrice }).2.message
        = "Insufficient funds" ↔ portfolio.cashBalance < p * quantity) ∧
      (portfolio.cashBalance < p * quantity →
        placeOrder now newId db userId
          { symbol := some symbol, type := some type, side := some Side.buy
            quantity := some quantity, price := price, stopPrice := stopPrice }
          = (db, { status := 400, message := "Insufficient funds", order := none })) := by
  have hprice' : (if type = OrderType.market then some asset.currentPrice else price) = some p := by
    rcases heff with ⟨h1, h2⟩ | ⟨h1, h2⟩
    · rw [if_pos h1, h2]
    · rw [if_neg h1, h2]
  rw [placeOrder_checked now newId db userId symbol type Side.buy quantity price stopPrice
    asset portfolio hsym hq hprice hstop ha hp, hprice']
  simp only [Option.map_some', true_and, decide_eq_true_eq, false_and, if_false]
  by_cases hc : portfolio.cashBalance < p * quantity
  · simp [hc]
  · simp only [hc, if_false, iff_false, false_implies, and_true, reduceCtorEq, false_and]
    repeat' split
    all_goals simp

/-- Witness of C12: with cash 500 a limit buy of 10 `X` at 60 is refused for funds, since
500 is below 60 times 10. -/
theorem placeOrder_buy_funds_witness :
    placeOrder 5 1 (scenarioStore 100 (scenarioPortfolio 500 [])) 7
        { symbol := some "x", type := some OrderType.limit, side := some Side.buy
          quantity := some 10, price := some 60, stopPrice := none }
      = (scenarioStore 100 (scenarioPortfolio 500 []),
         { status := 400, message := "Insufficient funds", order := none }) :=
  (placeOrder_buy_funds 5 1 (scenarioStore 100 (scenarioPortfolio 500 [])) 7 "x"
    OrderType.limit 10 (some 60) none (scenarioAsset 100) (scenarioPortfolio 500 []) 60
    (by decide) (by norm_num) (by intro _; simp [falsyNumber])
    (by intro h; exact absurd h (by decide)) rfl rfl
    (Or.inr ⟨by decide, rfl⟩)).2 (by norm_num [scenarioPortfolio])

/-- C13: a sell request that passes the shape checks, with instrument and portfolio found,
is answered with "Insufficient assets" exactly when the portfolio has no item for the
upper-cased symbol or the item found holds less than the requested quantity; the refusal
is a 400 that leaves the store as it was. -/
theorem placeOrder_sell_holdings (now newId : Nat) (db : Db) (userId : Nat) (symbol : String)
    (type : OrderType) (quantity : ℚ) (price stopPrice : Option ℚ)
    (asset : Asset) (portfolio : Portfolio)
    (hsym : symbol ≠ "") (hq : 0 < quantity)
    (hprice : type ≠ OrderType.market → falsyNumber price = false)
    (hstop : type = OrderType.stop → falsyNumber stopPrice = false)
    (ha : db.findAsset (toUpperCase symbol) = some asset)
    (hp : db.findPortfolio userId = some portfolio) :
    ((placeOrder now newId db userId
        { symbol := some symbol, type := some type, side := some Side.sell
          quantity := some quantity, price := price, stopPrice := stopPrice }).2.message
        = "Insufficient assets" ↔
      (portfolio.items.find? (fun item => decide (item.symbol = toUpperCase symbol)) = none ∨
        ∃ item, portfolio.items.find? (fun item => decide (item.symbol = toUpperCase symbol))
            = some item ∧ item.quantity < quantity)) ∧
      ((portfolio.items.find? (fun item => decide (item.symbol = toUpperCase symbol)) = none ∨
        ∃ item, portfolio.items.find? (fun item => decide (item.symbol = toUpperCase symbol))
            = some item ∧ item.quantity < quantity) →
        placeOrder now newId db userId
          { symbol := some symbol, type := some type, side := some Side.sell
            quantity := some quantity, price := price, stopPrice := stopPrice }
          = (db, { status := 400, message := "Insufficient assets", order := none })) := by
  rw [placeOrder_checked now newId db userId symbol type Side.sell quantity price stopPrice
    asset portfolio hsym hq hprice hstop ha hp]
  simp only [false_and, if_false, true_and, reduceCtorEq]
  cases hf : portfolio.items.find? (fun item => decide (item.symbol = toUpperCase symbol)) with
  | none => simp
  | some item =>
    by_cases hlt : item.quantity < quantity
    · simp [hlt]
    · simp only [decide_eq_true_eq, hlt, if_false, reduceCtorEq, Option.some.injEq,
        false_or, exists_eq_left', iff_false, false_implies, and_true]
      repeat' split
      all_goals simp

/-- Witness of C13: holding 10 `X`, a market sell of 11 is refused for holdings. -/
theorem placeOrder_sell_holdings_witness :
    placeOrder 5 1 (scenarioStore 100 (scenarioPortfolio 9000 [scenarioItem 10 100 100])) 7
        { symbol := some "x", type := some OrderType.market, side := some Side.sell
          quantity := some 11, price := none, stopPrice := none }
      = (scenarioStore 100 (scenarioPortfolio 9000 [scenarioItem 10 100 100]),
         { status := 400, message := "Insufficient assets", order := none }) :=
  (placeOrder_sell_holdings 5 1
    (scenarioStore 100 (scenarioPortfolio 9000 [scenarioItem 10 100 100])) 7 "x"
    OrderType.market 11 none none (scenarioAsset 100)
    (scenarioPortfolio 9000 [scenarioItem 10 100 100])
    (by decide) (by norm_num) (by intro h; exact absurd rfl h)
    (by intro h; exact absurd h (by decide)) rfl rfl).2
    (Or.inr ⟨scenarioItem 10 100 100, rfl, by norm_num [scenarioItem]⟩)

/-- The schema refuses an order whose price is present and negative. -/
theorem orderSchemaAccepts_negative_price (order : Order) (p : ℚ)
    (hp : order.price = some p) (hneg : p < 0) : orderSchemaAccepts order = false := by
  have h : decide (0 ≤ p) = false := by simpa using hneg
  simp [orderSchemaAccepts, hp, h]

/-- C14: a limit or stop request whose price is missing, zero or negative is rejected and
creates no order: the store is left as it was, the response carries no order and its
status is not 201.  A missing or zero price is refused by the price check, a negative one
by the `min: 0` validator of the schema when the new order is saved. -/
theorem placeOrder_bad_price_rejected (now newId : Nat) (db : Db) (userId : Nat)
    (req : OrderRequest)
    (htype : req.type = some OrderType.limit ∨ req.type = some OrderType.stop)
    (hprice : req.price = none ∨ ∃ p, req.price = some p ∧ p ≤ 0) :
    (placeOrder now newId db userId req).1 = db ∧
      (placeOrder now newId db userId req).2.order = none ∧
      (placeOrder now newId db userId req).2.status ≠ 201 := by
  rcases placeOrder_cases now newId db userId req with h | h
  · exact h
  · obtain ⟨symbol, type, side, quantity, asset, portfolio, _, _, ht, _, _, _, hpr, _, _, _,
      _, _, hacc, _⟩ := h
    exfalso
    have hm : type ≠ OrderType.market := by
      rcases htype with h | h <;> rw [ht] at h <;> simp only [Option.some.injEq] at h <;>
        rw [h] <;> decide
    have hf := hpr hm
    rcases hprice with h | ⟨p, h, hle⟩
    · rw [h] at hf
      exact absurd hf (by decide)
    · have hp0 : p ≠ 0 := by
        intro h0
        rw [h, h0] at hf
        simp [falsyNumber] at hf
      rw [orderSchemaAccepts_negative_price _ p (by simp [newOrder, hm, h])
        (lt_of_le_of_ne hle hp0)] at hacc
      exact absurd hacc (by decide)

/-- Witness of C14: a limit buy of 1 `X` at price -5 is answered with 500 and no order is
stored. -/
theorem placeOrder_bad_price_rejected_witness :
    (placeOrder 5 1 (scenarioStore 100 (scenarioPortfolio 10000 [])) 7
        (scenarioRequest OrderType.limit Side.buy (some 1) (some (-5)))).1.orders = [] ∧
      (placeOrder 5 1 (scenarioStore 100 (scenarioPortfolio 10000 [])) 7
        (scenarioRequest OrderType.limit Side.buy (some 1) (some (-5)))).2.status ≠ 201 := by
  obtain ⟨h1, _, h3⟩ := placeOrder_bad_price_rejected 5 1
    (scenarioStore 100 (scenarioPortfolio 10000 [])) 7
    (scenarioRequest OrderType.limit Side.buy (some 1) (some (-5)))
    (Or.inl rfl) (Or.inr ⟨-5, rfl, by norm_num⟩)
  exact ⟨by rw [h1]; rfl, h3⟩

/-- C15 (the code departs from it): a request that supplies symbol, type and side and the
quantity 0 is answered with the missing-fields reason, not the quantity reason; a
negative quantity does get the quantity reason. -/
theorem placeOrder_zero_quantity_reason (now newId : Nat) (db : Db) (userId : Nat)
    (symbol : String) (type : OrderType) (side : Side) (price stopPrice : Option ℚ) :
    placeOrder now newId db userId
        { symbol := some symbol, type := some type, side := some side
          quantity := some 0, price := price, stopPrice := stopPrice }
        = (db, { status := 400, message := "Missing required order fields", order := none }) ∧
      (placeOrder 5 1 (scenarioStore 100 (scenarioPortfolio 10000 [])) 7
        (scenarioRequest OrderType.market Side.buy (some 0) none)).2.message
        ≠ "Quantity must be greater than 0" ∧
      (placeOrder 5 1 (scenarioStore 100 (scenarioPortfolio 10000 [])) 7
        (scenarioRequest OrderType.market Side.buy (some (-1)) none)).2.message
        = "Quantity must be greater than 0" := by
  have h0 : ∀ (db : Db) (symbol : String) (type : OrderType) (side : Side)
      (price stopPrice : Option ℚ),
      placeOrder now newId db userId
        { symbol := some symbol, type := some type, side := some side
          quantity := some 0, price := price, stopPrice := stopPrice }
        = (db, { status := 400, message := "Missing required order fields", order := none }) := by
    intro db symbol type side price stopPrice
    simp [placeOrder, falsyNumber]
  refine ⟨h0 db symbol type side price stopPrice, ?_, ?_⟩
  · have : (placeOrder 5 1 (scenarioStore 100 (scenarioPortfolio 10000 [])) 7
        (scenarioRequest OrderType.market Side.buy (some 0) none)).2.message
        = "Missing required order fields" := by
      simp [placeOrder, falsyNumber, scenarioRequest]
    rw [this]
    decide
  · norm_num [placeOrder, falsyString, falsyNumber, scenarioRequest]
    rfl

/-! ## Lemmas on the valuation -/

/-- Saving a document for a key nobody holds yet makes it the one that is found. -/
theorem find_saveDoc_new {α : Type} (key : α → Nat) (q : α → Bool) (doc : α) :
    ∀ (docs : List α), docs.find? q = none → q doc = true →
      (saveDoc key doc docs).find? q = some doc := by
  intro docs hnone hq
  unfold saveDoc
  split
  · rename_i hany
    induction docs with
    | nil => simp at hany
    | cons x xs ih =>
      have hx : q x = false := by
        cases hqx : q x with
        | false => rfl
        | true => simp [List.find?, hqx] at hnone
      have hxs : xs.find? q = none := by simpa [List.find?, hx] using hnone
      by_cases hk : key x = key doc
      · simp [List.map, hk, List.find?, hq]
      · have hany' : xs.any (fun d => decide (key d = key doc)) = true := by
          simpa [List.any, hk] using hany
        simp only [List.map, hk, if_false, List.find?, hx]
        exact ih hxs hany'
  · rw [List.find?_append, hnone]
    simp [List.find?, hq]

/-- The valuation loop reads the store only through its instruments. -/
theorem refreshItems_assets (now : Nat) (db db' : Db) (h : db'.assets = db.assets) :
    ∀ (items : List PortfolioItem) (tv : ℚ),
      refreshItems now db' items tv = refreshItems now db items tv := by
  intro items
  induction items with
  | nil => intro tv; rfl
  | cons item rest ih =>
    intro tv
    have hf : db'.findAsset item.symbol = db.findAsset item.symbol := by
      unfold Db.findAsset
      rw [h]
    unfold refreshItems
    rw [hf]
    cases db.findAsset item.symbol with
    | none => simp only [ih]
    | some asset => simp only [ih]

/-- The valuation loop keeps the number of items. -/
theorem refreshItems_length (now : Nat) (db : Db) :
    ∀ (items : List PortfolioItem) (tv : ℚ),
      (refreshItems now db items tv).1.length = items.length := by
  intro items
  induction items with
  | nil => intro tv; rfl
  | cons item rest ih =>
    intro tv
    unfold refreshItems
    cases db.findAsset item.symbol with
    | none => simp [ih]
    | some asset => simp [ih]

/-- Running the valuation loop on its own output changes nothing but `lastUpdated`. -/
theorem refreshItems_twice_items (now now' : Nat) (db : Db) :
    ∀ (items : List PortfolioItem) (tv tv' : ℚ),
      (refreshItems now' db (refreshItems now db items tv).1 tv').1.map
          (fun it : PortfolioItem => (it.symbol, it.quantity, it.averageBuyPrice,
            it.currentPrice, it.totalValue, it.profitLoss, it.profitLossPercentage))
        = (refreshItems now db items tv).1.map
          (fun it : PortfolioItem => (it.symbol, it.quantity, it.averageBuyPrice,
            it.currentPrice, it.totalValue, it.profitLoss, it.profitLossPercentage)) := by
  intro items
  induction items with
  | nil => intro tv tv'; rfl
  | cons item rest ih =>
    intro tv tv'
    cases ha : db.findAsset item.symbol with
    | none =>
      have h1 : refreshItems now db (item :: rest) tv
          = (item :: (refreshItems now db rest tv).1, (refreshItems now db rest tv).2) := by
        simp [refreshItems, ha]
      rw [h1]
      have h2 : refreshItems now' db (item :: (refreshItems now db rest tv).1) tv'
          = (item :: (refreshItems now' db (refreshItems now db rest tv).1 tv').1,
             (refreshItems now' db (refreshItems now db rest tv).1 tv').2) := by
        simp [refreshItems, ha]
      rw [h2]
      simp only [List.map_cons, ih]
    | some asset =>
      have h1 : refreshItems now db (item :: rest) tv
          = ({ item with
                currentPrice := asset.currentPrice
                totalValue := item.quantity * asset.currentPrice
                profitLoss := some ((asset.currentPrice - item.averageBuyPrice) * item.quantity)
                profitLossPercentage :=
                  some (((asset.currentPrice / item.averageBuyPrice) - 1) * 100)
                lastUpdated := now } ::
              (refreshItems now db rest (tv + item.quantity * asset.currentPrice)).1,
             (refreshItems now db rest (tv + item.quantity * asset.currentPrice)).2) := by
        simp [refreshItems, ha]
      rw [h1]
      simp only [refreshItems, ha, List.map_cons, ih]

/-- Running the valuation loop on its own output adds the same amounts to the total. -/
theorem refreshItems_twice_total (now now' : Nat) (db : Db) :
    ∀ (items : List PortfolioItem) (tv tv' : ℚ),
      (refreshItems now' db (refreshItems now db items tv).1 tv').2
        = tv' + ((refreshItems now db items tv).2 - tv) := by
  intro items
  induction items with
  | nil => intro tv tv'; simp [refreshItems]
  | cons item rest ih =>
    intro tv tv'
    cases ha : db.findAsset item.symbol with
    | none =>
      simp only [refreshItems, ha]
      exact ih tv tv'
    | some asset =>
      simp only [refreshItems, ha]
      rw [ih]
      ring

/-! ## Valuation (C16) -/

/-- The portfolio `getUserPortfolio` answers with is the one the store holds afterwards. -/
theorem getUserPortfolio_stored (now newId : Nat) (db : Db) (userId : Nat) :
    (getUserPortfolio now newId db userId).1.findPortfolio userId
        = some (getUserPortfolio now newId db userId).2 ∧
      (getUserPortfolio now newId db userId).1.assets = db.assets := by
  unfold getUserPortfolio
  cases hp : db.findPortfolio userId with
  | none =>
    simp only [List.length_nil, gt_iff_lt, lt_self_iff_false, if_false]
    exact ⟨find_saveDoc_new Portfolio.id _ _ db.portfolios hp (by simp), rfl⟩
  | some portfolio =>
    have hu : portfolio.user = userId := by
      simpa [Db.findPortfolio] using List.find?_some hp
    simp only
    split
    · exact ⟨findPortfolio_savePortfolio db userId portfolio _ hp rfl hu, rfl⟩
    · exact ⟨hp, rfl⟩

/-- What `getUserPortfolio` answers when the portfolio exists. -/
theorem getUserPortfolio_found (now newId : Nat) (db : Db) (userId : Nat)
    (portfolio : Portfolio) (hp : db.findPortfolio userId = some portfolio) :
    (getUserPortfolio now newId db userId).2 =
      if portfolio.items.length > 0 then
        { portfolio with
          items := (refreshItems now db portfolio.items portfolio.cashBalance).1
          totalValue := (refreshItems now db portfolio.items portfolio.cashBalance).2
          lastUpdated := now }
      else portfolio := by
  unfold getUserPortfolio
  simp only [hp]
  split <;> rfl

/-- C16: the valuation is idempotent.  Calling `getUserPortfolio` a second time, on the
store the first call left and with the instruments unchanged, answers with the same cash,
the same total value and, item by item, the same symbol, quantity, average, current price,
total value, profit/loss and profit/loss percentage as the first call. -/
theorem getUserPortfolio_idempotent (now now' newId newId' : Nat) (db : Db) (userId : Nat) :
    (getUserPortfolio now' newId' (getUserPortfolio now newId db userId).1 userId).2.cashBalance
        = (getUserPortfolio now newId db userId).2.cashBalance ∧
      (getUserPortfolio now' newId' (getUserPortfolio now newId db userId).1 userId).2.totalValue
        = (getUserPortfolio now newId db userId).2.totalValue ∧
      (getUserPortfolio now' newId' (getUserPortfolio now newId db userId).1 userId).2.items.map
          (fun it : PortfolioItem => (it.symbol, it.quantity, it.averageBuyPrice,
            it.currentPrice, it.totalValue, it.profitLoss, it.profitLossPercentage))
        = (getUserPortfolio now newId db userId).2.items.map
          (fun it : PortfolioItem => (it.symbol, it.quantity, it.averageBuyPrice,
            it.currentPrice, it.totalValue, it.profitLoss, it.profitLossPercentage)) := by
  obtain ⟨hst, hassets⟩ := getUserPortfolio_stored now newId db userId
  rw [getUserPortfolio_found now' newId' _ userId _ hst]
  split
  · rename_i hlen
    -- the first call did refresh, or the portfolio would have no item
    have hfirst : ∃ p, db.findPortfolio userId = some p ∧ p.items.length > 0 ∧
        (getUserPortfolio now newId db userId).2 =
          { p with
            items := (refreshItems now db p.items p.cashBalance).1
            totalValue := (refreshItems now db p.items p.cashBalance).2
            lastUpdated := now } := by
      cases hp : db.findPortfolio userId with
      | none =>
        exfalso
        have : (getUserPortfolio now newId db userId).2.items = [] := by
          simp [getUserPortfolio, hp]
        rw [this] at hlen
        simp at hlen
      | some p =>
        have hf := getUserPortfolio_found now newId db userId p hp
        by_cases hl : p.items.length > 0
        · rw [if_pos hl] at hf
          exact ⟨p, rfl, hl, hf⟩
        · rw [if_neg hl] at hf
          rw [hf] at hlen
          exact absurd hlen hl
    obtain ⟨p, _, _, hr⟩ := hfirst
    rw [refreshItems_assets now' db _ hassets, hr]
    refine ⟨rfl, ?_, ?_⟩
    · simp only
      rw [refreshItems_twice_total]
      ring
    · simp only
      exact refreshItems_twice_items now now' db p.items p.cashBalance p.cashBalance
  · exact ⟨rfl, rfl, rfl⟩

/-! ## Fills (C18, C19, C20) -/

/-- The two outcomes of `executeOn`: the order rejected and no portfolio to write, or the
order filled at the instrument's current price and a portfolio to write. -/
theorem executeOn_cases (now : Nat) (order : Order) (asset : Asset) (portfolio : Portfolio) :
    executeOn now order asset portfolio = ({ order with status := OrderStatus.rejected }, none) ∨
    ∃ p', executeOn now order asset portfolio =
      ({ order with
          status := OrderStatus.filled
          filledQuantity := order.quantity
          averageFilledPrice := some asset.currentPrice
          totalCost := some (asset.currentPrice * order.quantity) }, some p') := by
  unfold executeOn
  simp only
  split
  · split
    · exact Or.inl rfl
    · exact Or.inr ⟨_, rfl⟩
  · split
    · exact Or.inl rfl
    · split
      · exact Or.inl rfl
      · split
        · exact Or.inl rfl
        · exact Or.inr ⟨_, rfl⟩

/-- The requested price of the order plays no part in `executeOn`: it is carried through
unchanged and the portfolio written is the same. -/
theorem executeOn_price (now : Nat) (order : Order) (asset : Asset) (portfolio : Portfolio)
    (x : Option ℚ) :
    executeOn now { order with price := x } asset portfolio =
      ({ (executeOn now order asset portfolio).1 with price := x },
       (executeOn now order asset portfolio).2) := by
  unfold executeOn
  simp only
  split
  · split <;> rfl
  · split
    · rfl
    · split
      · rfl
      · split <;> rfl

/-- The outcomes of `executeOrder` for a pending order: the rejected order is written when
the instrument or the portfolio is missing or `executeOn` rejects; when `executeOn` fills,
nothing is written if the validators refuse the filled order, the filled order alone if
they refuse the portfolio, and both documents otherwise. -/
theorem executeOrder_stored (now : Nat) (db : Db) (orderId : Nat) (order : Order)
    (ho : db.findOrderById orderId = some order) (hs : order.status = OrderStatus.pending) :
    ((db.findAsset order.symbol = none ∨ db.findPortfolio order.user = none) ∧
      executeOrder now db orderId = db.saveOrder { order with status := OrderStatus.rejected }) ∨
    (∃ asset portfolio, db.findAsset order.symbol = some asset ∧
      db.findPortfolio order.user = some portfolio ∧
      ((executeOn now order asset portfolio).2 = none ∧
          executeOrder now db orderId = db.saveOrder (executeOn now order asset portfolio).1 ∨
        ∃ p', (executeOn now order asset portfolio).2 = some p' ∧
          ((fillSchemaAccepts (executeOn now order asset portfolio).1 = false ∧
              executeOrder now db orderId = db) ∨
            (fillSchemaAccepts (executeOn now order asset portfolio).1 = true ∧
              portfolioSchemaAccepts p' = false ∧
              executeOrder now db orderId
                = db.saveOrder (executeOn now order asset portfolio).1) ∨
            (fillSchemaAccepts (executeOn now order asset portfolio).1 = true ∧
              portfolioSchemaAccepts p' = true ∧
              executeOrder now db orderId =
                (db.saveOrder (executeOn now order asset portfolio).1).savePortfolio p')))) := by
  cases ha : db.findAsset order.symbol with
  | none =>
    left
    exact ⟨Or.inl rfl, by simp [executeOrder, ho, hs, ha]⟩
  | some asset =>
    cases hp : db.findPortfolio order.user with
    | none =>
      left
      exact ⟨Or.inr rfl, by simp [executeOrder, ho, hs, ha, hp]⟩
    | some portfolio =>
      right
      refine ⟨asset, portfolio, rfl, rfl, ?_⟩
      rcases h : executeOn now order asset portfolio with ⟨o', _ | p'⟩
      · left
        rw [executeOrder_found now db orderId order asset portfolio ho hs ha hp, h]
        exact ⟨rfl, rfl⟩
      · right
        exact ⟨p', rfl, executeOrder_fill_cases now db orderId order o' asset portfolio p'
          ho hs ha hp h⟩

/-- The order found under the id after `executeOrder` of a pending order: the order itself,
still pending, when the validators refused the fill and nothing was written; the order
with status `rejected`; or the order filled at the instrument's current price. -/
theorem executeOrder_findOrder (now : Nat) (db : Db) (orderId : Nat) (order : Order)
    (ho : db.findOrderById orderId = some order) (hs : order.status = OrderStatus.pending) :
    (executeOrder now db orderId = db ∧
      (executeOrder now db orderId).findOrderById orderId = some order) ∨
    (executeOrder now db orderId).findOrderById orderId
      = some { order with status := OrderStatus.rejected } ∨
    ∃ asset, db.findAsset order.symbol = some asset ∧
      (executeOrder now db orderId).findOrderById orderId =
        some { order with
          status := OrderStatus.filled
          filledQuantity := order.quantity
          averageFilledPrice := some asset.currentPrice
          totalCost := some (asset.currentPrice * order.quantity) } := by
  rcases executeOrder_stored now db orderId order ho hs with
    ⟨_, hrun⟩ | ⟨asset, portfolio, ha, _, hrun⟩
  · right
    left
    rw [hrun]
    exact findOrderById_saveOrder db orderId order
      { order with status := OrderStatus.rejected } ho rfl
  · have hid : (executeOn now order asset portfolio).1.id = order.id := by
      rcases executeOn_cases now order asset portfolio with h | ⟨p', h⟩ <;> rw [h]
    have hsaved : (db.saveOrder (executeOn now order asset portfolio).1).findOrderById orderId
        = some (executeOn now order asset portfolio).1 :=
      findOrderById_saveOrder db orderId order (executeOn now order asset portfolio).1 ho hid
    have hwritten : (executeOrder now db orderId).findOrderById orderId
          = some (executeOn now order asset portfolio).1 →
        (executeOrder now db orderId).findOrderById orderId
            = some { order with status := OrderStatus.rejected } ∨
          ∃ asset, db.findAsset order.symbol = some asset ∧
            (executeOrder now db orderId).findOrderById orderId =
              some { order with
                status := OrderStatus.filled
                filledQuantity := order.quantity
                averageFilledPrice := some asset.currentPrice
                totalCost := some (asset.currentPrice * order.quantity) } := by
      intro hst
      rcases executeOn_cases now order asset portfolio with h | ⟨p', h⟩
      · left
        rw [hst, h]
      · right
        refine ⟨asset, ha, ?_⟩
        rw [hst, h]
    rcases hrun with ⟨_, h⟩ | ⟨p', _, ⟨_, h⟩ | ⟨_, _, h⟩ | ⟨_, _, h⟩⟩
    · right
      apply hwritten
      rw [h]
      exact hsaved
    · left
      refine ⟨h, ?_⟩
      rw [h]
      exact ho
    · right
      apply hwritten
      rw [h]
      exact hsaved
    · right
      apply hwritten
      rw [h]
      exact hsaved

/-- C20: when `executeOrder` fills a pending order, the stored order is the order of before
with status `filled`, filled quantity equal to the requested quantity, average filled
price equal to the instrument's current price and total cost equal to that price times
the quantity; symbol, side, type, quantity and requested price are unchanged. -/
theorem executeOrder_filled_order (now : Nat) (db : Db) (orderId : Nat) (order o' : Order)
    (ho : db.findOrderById orderId = some order) (hs : order.status = OrderStatus.pending)
    (hstored : (executeOrder now db orderId).findOrderById orderId = some o')
    (hfilled : o'.status = OrderStatus.filled) :
    ∃ asset, db.findAsset order.symbol = some asset ∧
      o' = { order with
        status := OrderStatus.filled
        filledQuantity := order.quantity
        averageFilledPrice := some asset.currentPrice
        totalCost := some (asset.currentPrice * order.quantity) } := by
  rcases executeOrder_findOrder now db orderId order ho hs with
    ⟨_, h⟩ | h | ⟨asset, ha, h⟩
  · rw [h] at hstored
    simp only [Option.some.injEq] at hstored
    rw [← hstored, hs] at hfilled
    exact absurd hfilled (by decide)
  · rw [h] at hstored
    simp only [Option.some.injEq] at hstored
    rw [← hstored] at hfilled
    exact absurd hfilled (by simp)
  · rw [h] at hstored
    simp only [Option.some.injEq] at hstored
    exact ⟨asset, ha, hstored.symm⟩

/-- Witness of C20: the market buy of 10 `X` at 100 with cash 10000 is stored as filled,
filled quantity 10, average filled price 100, total cost 1000, everything else as in the
pending order. -/
theorem executeOrder_filled_order_witness :
    (executeOrder 5 (scenarioDb 100 (scenarioPortfolio 10000 [])
        (scenarioOrder Side.buy 10 OrderStatus.pending)) 1).findOrderById 1
      = some { scenarioOrder Side.buy 10 OrderStatus.filled with
          filledQuantity := 10, averageFilledPrice := some 100, totalCost := some 1000 } ∧
    ∃ asset, (scenarioDb 100 (scenarioPortfolio 10000 [])
        (scenarioOrder Side.buy 10 OrderStatus.pending)).findAsset "X" = some asset ∧
      ({ scenarioOrder Side.buy 10 OrderStatus.filled with
          filledQuantity := 10, averageFilledPrice := some 100, totalCost := some 1000 } : Order)
        = { scenarioOrder Side.buy 10 OrderStatus.pending with
            status := OrderStatus.filled
            filledQuantity := 10
            averageFilledPrice := some asset.currentPrice
            totalCost := some (asset.currentPrice * 10) } := by
  have hrun : (executeOrder 5 (scenarioDb 100 (scenarioPortfolio 10000 [])
        (scenarioOrder Side.buy 10 OrderStatus.pending)) 1).findOrderById 1
      = some { scenarioOrder Side.buy 10 OrderStatus.filled with
          filledQuantity := 10, averageFilledPrice := some 100, totalCost := some 1000 } := by
    rw [executeOrder_filled 5 (scenarioDb 100 (scenarioPortfolio 10000 [])
        (scenarioOrder Side.buy 10 OrderStatus.pending)) 1
        (scenarioOrder Side.buy 10 OrderStatus.pending) _
        (scenarioAsset 100) (scenarioPortfolio 10000 []) _ rfl rfl rfl rfl
        (executeOn_buy 5 _ _ _ rfl
          (by norm_num [scenarioPortfolio, scenarioAsset, scenarioOrder]))
        (by norm_num [scenarioOrder]) (by norm_num [scenarioAsset])
        (by norm_num [portfolioSchemaAccepts, scenarioPortfolio])]
    have hsave := findOrderById_saveOrder (scenarioDb 100 (scenarioPortfolio 10000 [])
        (scenarioOrder Side.buy 10 OrderStatus.pending)) 1
        (scenarioOrder Side.buy 10 OrderStatus.pending)
        { scenarioOrder Side.buy 10 OrderStatus.pending with
          status := OrderStatus.filled
          filledQuantity := (scenarioOrder Side.buy 10 OrderStatus.pending).quantity
          averageFilledPrice := some (scenarioAsset 100).currentPrice
          totalCost := some ((scenarioAsset 100).currentPrice
            * (scenarioOrder Side.buy 10 OrderStatus.pending).quantity) } rfl rfl
    refine hsave.trans ?_
    norm_num [scenarioOrder, scenarioAsset]
  exact ⟨hrun, executeOrder_filled_order 5
    (scenarioDb 100 (scenarioPortfolio 10000 []) (scenarioOrder Side.buy 10 OrderStatus.pending))
    1 (scenarioOrder Side.buy 10 OrderStatus.pending) _ rfl rfl hrun rfl⟩

/-- C18: the execution price is the instrument's current price, whatever price the order
asks for.  Two stores with the same instruments and portfolios, holding under the same id
two pending orders that differ only in the requested price, are left by `executeOrder`
with the same portfolios and with stored orders that differ only in the requested price
(same status, filled quantity, average filled price and total cost); a filled order has
the instrument's current price as its average filled price. -/
theorem executeOrder_ignores_requested_price (now : Nat) (db db' : Db) (orderId : Nat)
    (order : Order) (x : Option ℚ)
    (hassets : db'.assets = db.assets) (hportfolios : db'.portfolios = db.portfolios)
    (ho : db.findOrderById orderId = some order)
    (ho' : db'.findOrderById orderId = some { order with price := x })
    (hs : order.status = OrderStatus.pending) :
    (executeOrder now db' orderId).portfolios = (executeOrder now db orderId).portfolios ∧
      ∃ o, (executeOrder now db orderId).findOrderById orderId = some o ∧
        (executeOrder now db' orderId).findOrderById orderId = some { o with price := x } ∧
        (o.status = OrderStatus.filled →
          ∃ asset, db.findAsset order.symbol = some asset ∧
            o.averageFilledPrice = some asset.currentPrice) := by
  have hfa : ∀ s, db'.findAsset s = db.findAsset s := by
    intro s
    unfold Db.findAsset
    rw [hassets]
  have hfp : ∀ u, db'.findPortfolio u = db.findPortfolio u := by
    intro u
    unfold Db.findPortfolio
    rw [hportfolios]
  have hsp : ∀ (o1 o2 : Order) (p : Portfolio),
      ((db'.saveOrder o1).savePortfolio p).portfolios
        = ((db.saveOrder o2).savePortfolio p).portfolios := by
    intro o1 o2 p
    show saveDoc Portfolio.id p db'.portfolios = saveDoc Portfolio.id p db.portfolios
    rw [hportfolios]
  cases ha : db.findAsset order.symbol with
  | none =>
    have h1 : executeOrder now db orderId
        = db.saveOrder { order with status := OrderStatus.rejected } := by
      simp [executeOrder, ho, hs, ha]
    have h2 : executeOrder now db' orderId
        = db'.saveOrder { order with price := x, status := OrderStatus.rejected } := by
      simp [executeOrder, ho', hs, hfa, ha]
    rw [h1, h2]
    refine ⟨hportfolios, { order with status := OrderStatus.rejected },
      findOrderById_saveOrder db orderId order _ ho rfl,
      findOrderById_saveOrder db' orderId { order with price := x }
        { order with price := x, status := OrderStatus.rejected } ho' rfl, ?_⟩
    intro h
    simp at h
  | some asset =>
    cases hp : db.findPortfolio order.user with
    | none =>
      have h1 : executeOrder now db orderId
          = db.saveOrder { order with status := OrderStatus.rejected } := by
        simp [executeOrder, ho, hs, ha, hp]
      have h2 : executeOrder now db' orderId
          = db'.saveOrder { order with price := x, status := OrderStatus.rejected } := by
        simp [executeOrder, ho', hs, hfa, ha, hfp, hp]
      rw [h1, h2]
      refine ⟨hportfolios, { order with status := OrderStatus.rejected },
        findOrderById_saveOrder db orderId order _ ho rfl,
        findOrderById_saveOrder db' orderId { order with price := x }
          { order with price := x, status := OrderStatus.rejected } ho' rfl, ?_⟩
      intro h
      simp at h
    | some portfolio =>
      have h1 := executeOrder_found now db orderId order asset portfolio ho hs ha hp
      have h2 := executeOrder_found now db' orderId { order with price := x } asset portfolio
        ho' hs (by rw [hfa]; exact ha) (by rw [hfp]; exact hp)
      rw [executeOn_price] at h2
      rcases executeOn_cases now order asset portfolio with h | ⟨p', h⟩
      · rw [h] at h1 h2
        simp only at h1 h2
        rw [h1, h2]
        refine ⟨hportfolios, { order with status := OrderStatus.rejected },
          findOrderById_saveOrder db orderId order _ ho rfl,
          findOrderById_saveOrder db' orderId { order with price := x }
            { order with price := x, status := OrderStatus.rejected } ho' rfl, ?_⟩
        intro hf
        simp at hf
      · have h' : executeOn now { order with price := x } asset portfolio =
            ({ order with
                price := x
                status := OrderStatus.filled
                filledQuantity := order.quantity
                averageFilledPrice := some asset.currentPrice
                totalCost := some (asset.currentPrice * order.quantity) }, some p') := by
          rw [executeOn_price, h]
        have hflag : fillSchemaAccepts
            { order with
              price := x
              status := OrderStatus.filled
              filledQuantity := order.quantity
              averageFilledPrice := some asset.currentPrice
              totalCost := some (asset.currentPrice * order.quantity) }
            = fillSchemaAccepts
              { order with
                status := OrderStatus.filled
                filledQuantity := order.quantity
                averageFilledPrice := some asset.currentPrice
                totalCost := some (asset.currentPrice * order.quantity) } := rfl
        have hA := executeOrder_fill_cases now db orderId order _ asset portfolio p' ho hs ha hp h
        have hB := executeOrder_fill_cases now db' orderId { order with price := x } _ asset
          portfolio p' ho' hs (by rw [hfa]; exact ha) (by rw [hfp]; exact hp) h'
        rw [hflag] at hB
        have hwritten : (db.saveOrder
              { order with
                status := OrderStatus.filled
                filledQuantity := order.quantity
                averageFilledPrice := some asset.currentPrice
                totalCost := some (asset.currentPrice * order.quantity) }).findOrderById orderId
            = some
              { order with
                status := OrderStatus.filled
                filledQuantity := order.quantity
                averageFilledPrice := some asset.currentPrice
                totalCost := some (asset.currentPrice * order.quantity) } :=
          findOrderById_saveOrder db orderId order
            { order with
              status := OrderStatus.filled
              filledQuantity := order.quantity
              averageFilledPrice := some asset.currentPrice
              totalCost := some (asset.currentPrice * order.quantity) } ho rfl
        have hwritten' : (db'.saveOrder
              { order with
                price := x
                status := OrderStatus.filled
                filledQuantity := order.quantity
                averageFilledPrice := some asset.currentPrice
                totalCost := some (asset.currentPrice * order.quantity) }).findOrderById orderId
            = some
              { order with
                price := x
                status := OrderStatus.filled
                filledQuantity := order.quantity
                averageFilledPrice := some asset.currentPrice
                totalCost := some (asset.currentPrice * order.quantity) } :=
          findOrderById_saveOrder db' orderId { order with price := x }
            { order with
              price := x
              status := OrderStatus.filled
              filledQuantity := order.quantity
              averageFilledPrice := some asset.currentPrice
              totalCost := some (asset.currentPrice * order.quantity) } ho' rfl
        rcases hA with ⟨a1, ra⟩ | ⟨a1, a2, ra⟩ | ⟨a1, a2, ra⟩
        · have rb : executeOrder now db' orderId = db' := by
            rcases hB with ⟨_, rb⟩ | ⟨b1, _, _⟩ | ⟨b1, _, _⟩
            · exact rb
            · rw [a1] at b1
              exact absurd b1 (by decide)
            · rw [a1] at b1
              exact absurd b1 (by decide)
          rw [ra, rb]
          refine ⟨hportfolios, order, ho, ho', ?_⟩
          intro hf
          rw [hs] at hf
          exact absurd hf (by decide)
        · have rb : executeOrder now db' orderId = db'.saveOrder
              { order with
                price := x
                status := OrderStatus.filled
                filledQuantity := order.quantity
                averageFilledPrice := some asset.currentPrice
                totalCost := some (asset.currentPrice * order.quantity) } := by
            rcases hB with ⟨b1, _⟩ | ⟨_, _, rb⟩ | ⟨_, b2, _⟩
            · rw [a1] at b1
              exact absurd b1 (by decide)
            · exact rb
            · rw [a2] at b2
              exact absurd b2 (by decide)
          rw [ra, rb]
          refine ⟨hportfolios, _, hwritten, hwritten', ?_⟩
          intro _
          exact ⟨asset, rfl, rfl⟩
        · have rb : executeOrder now db' orderId = (db'.saveOrder
              { order with
                price := x
                status := OrderStatus.filled
                filledQuantity := order.quantity
                averageFilledPrice := some asset.currentPrice
                totalCost := some (asset.currentPrice * order.quantity) }).savePortfolio p' := by
            rcases hB with ⟨b1, _⟩ | ⟨_, b2, _⟩ | ⟨_, _, rb⟩
            · rw [a1] at b1
              exact absurd b1 (by decide)
            · rw [a2] at b2
              exact absurd b2 (by decide)
            · exact rb
          rw [ra, rb]
          refine ⟨hsp _ _ p', _, hwritten, hwritten', ?_⟩
          intro _
          exact ⟨asset, rfl, rfl⟩

/-- Witness of C18: the market buy of 10 `X` at 100 and the same order asking for price 1
leave the same portfolios, and both are filled at 100. -/
theorem executeOrder_ignores_requested_price_witness :
    (executeOrder 5 (scenarioDb 100 (scenarioPortfolio 10000 [])
        { scenarioOrder Side.buy 10 OrderStatus.pending with price := some 1 }) 1).portfolios
      = (executeOrder 5 (scenarioDb 100 (scenarioPortfolio 10000 [])
        (scenarioOrder Side.buy 10 OrderStatus.pending)) 1).portfolios :=
  (executeOrder_ignores_requested_price 5
    (scenarioDb 100 (scenarioPortfolio 10000 []) (scenarioOrder Side.buy 10 OrderStatus.pending))
    (scenarioDb 100 (scenarioPortfolio 10000 [])
      { scenarioOrder Side.buy 10 OrderStatus.pending with price := some 1 })
    1 (scenarioOrder Side.buy 10 OrderStatus.pending) (some 1) rfl rfl rfl rfl rfl).1

/-- No response of `placeOrder` carries an order, and none has status 201: a refusal
answers before an order exists, and for a request that passes every check the
notification throws before the response of line 83. -/
theorem placeOrder_response_order (now newId : Nat) (db : Db) (userId : Nat)
    (req : OrderRequest) :
    (placeOrder now newId db userId req).2.order = none ∧
      (placeOrder now newId db userId req).2.status ≠ 201 := by
  rcases placeOrder_cases now newId db userId req with hrej | hacc
  · exact ⟨hrej.2.1, hrej.2.2⟩
  · obtain ⟨symbol, type, side, quantity, asset, portfolio, _, _, _, _, _, _, _, _, _, _,
      _, _, _, hrun⟩ := hacc
    rw [hrun]
    refine ⟨rfl, ?_⟩
    show (500 : Nat) ≠ 201
    decide

/-- C19 (the code departs from it): for the market buy of 10 `X` priced 100 by a user with
cash 10000, a request that passes every check, `placeOrder` stores the order as `filled`,
with filled quantity 10 and total cost 1000, and debits the cash to 9000, but answers
500 "Error placing order" with no order at all: the caller is not handed a filled order. -/
theorem placeOrder_market_answers_error :
    (placeOrder 5 1 (scenarioStore 100 (scenarioPortfolio 10000 [])) 7
        (scenarioRequest OrderType.market Side.buy (some 10) none)).2
      = { status := 500, message := "Error placing order", order := none } ∧
    (placeOrder 5 1 (scenarioStore 100 (scenarioPortfolio 10000 [])) 7
        (scenarioRequest OrderType.market Side.buy (some 10) none)).1.findOrderById 1
      = some { newOrder 1 7 "X" OrderType.market Side.buy 10 (some 100) none with
          status := OrderStatus.filled
          filledQuantity := 10
          averageFilledPrice := some 100
          totalCost := some 1000 } ∧
    ((placeOrder 5 1 (scenarioStore 100 (scenarioPortfolio 10000 [])) 7
        (scenarioRequest OrderType.market Side.buy (some 10) none)).1.findPortfolio 7).map
        Portfolio.cashBalance
      = some 9000 := by
  have hplace : placeOrder 5 1 (scenarioStore 100 (scenarioPortfolio 10000 [])) 7
        (scenarioRequest OrderType.market Side.buy (some 10) none)
      = (executeOrder 5 ((scenarioStore 100 (scenarioPortfolio 10000 [])).saveOrder
            (newOrder 1 7 "X" OrderType.market Side.buy 10 (some 100) none)) 1,
         { status := 500, message := "Error placing order", order := none }) := by
    have h := placeOrder_checked 5 1 (scenarioStore 100 (scenarioPortfolio 10000 [])) 7 "x"
      OrderType.market Side.buy 10 none none (scenarioAsset 100) (scenarioPortfolio 10000 [])
      (by decide) (by norm_num) (by intro h; exact absurd rfl h)
      (by intro h; exact absurd h (by decide)) rfl rfl
    have hup : toUpperCase "x" = "X" := rfl
    have hshort : ¬ (scenarioPortfolio 10000 []).cashBalance
        < (scenarioAsset 100).currentPrice * 10 := by
      norm_num [scenarioPortfolio, scenarioAsset]
    have hacc : orderSchemaAccepts
        (newOrder 1 7 "X" OrderType.market Side.buy 10 (some (scenarioAsset 100).currentPrice)
          none) = true := by
      norm_num [orderSchemaAccepts, newOrder, scenarioAsset]
      decide
    simp only [hup, if_true, Option.map_some', decide_eq_true_eq, hshort, and_false, if_false,
      reduceCtorEq, false_and, hacc, Bool.true_eq_false] at h
    exact h
  have hexec : executeOrder 5 ((scenarioStore 100 (scenarioPortfolio 10000 [])).saveOrder
        (newOrder 1 7 "X" OrderType.market Side.buy 10 (some 100) none)) 1
      = (((scenarioStore 100 (scenarioPortfolio 10000 [])).saveOrder
          (newOrder 1 7 "X" OrderType.market Side.buy 10 (some 100) none)).saveOrder _).savePortfolio
          _ :=
    executeOrder_filled 5 ((scenarioStore 100 (scenarioPortfolio 10000 [])).saveOrder
        (newOrder 1 7 "X" OrderType.market Side.buy 10 (some 100) none)) 1
      (newOrder 1 7 "X" OrderType.market Side.buy 10 (some 100) none) _
      (scenarioAsset 100) (scenarioPortfolio 10000 []) _ rfl rfl rfl rfl
      (executeOn_buy 5 _ _ _ rfl (by norm_num [scenarioPortfolio, scenarioAsset, newOrder]))
      (by norm_num [newOrder]) (by norm_num [scenarioAsset])
      (by norm_num [portfolioSchemaAccepts, scenarioPortfolio])
  rw [hplace]
  refine ⟨rfl, ?_, ?_⟩
  · rw [hexec]
    have hsave := findOrderById_saveOrder
        ((scenarioStore 100 (scenarioPortfolio 10000 [])).saveOrder
          (newOrder 1 7 "X" OrderType.market Side.buy 10 (some 100) none)) 1
        (newOrder 1 7 "X" OrderType.market Side.buy 10 (some 100) none)
        { newOrder 1 7 "X" OrderType.market Side.buy 10 (some 100) none with
          status := OrderStatus.filled
          filledQuantity := (newOrder 1 7 "X" OrderType.market Side.buy 10 (some 100) none).quantity
          averageFilledPrice := some (scenarioAsset 100).currentPrice
          totalCost := some ((scenarioAsset 100).currentPrice
            * (newOrder 1 7 "X" OrderType.market Side.buy 10 (some 100) none).quantity) } rfl rfl
    refine hsave.trans ?_
    norm_num [newOrder, scenarioAsset]
  · rw [hexec]
    have hfind := findPortfolio_savePortfolio
      (((scenarioStore 100 (scenarioPortfolio 10000 [])).saveOrder
          (newOrder 1 7 "X" OrderType.market Side.buy 10 (some 100) none)).saveOrder
        { newOrder 1 7 "X" OrderType.market Side.buy 10 (some 100) none with
          status := OrderStatus.filled
          filledQuantity := (newOrder 1 7 "X" OrderType.market Side.buy 10 (some 100) none).quantity
          averageFilledPrice := some (scenarioAsset 100).currentPrice
          totalCost := some ((scenarioAsset 100).currentPrice
            * (newOrder 1 7 "X" OrderType.market Side.buy 10 (some 100) none).quantity) })
      7 (scenarioPortfolio 10000 [])
      { scenarioPortfolio 10000 [] with
        cashBalance := (scenarioPortfolio 10000 []).cashBalance
          - (scenarioAsset 100).currentPrice
            * (newOrder 1 7 "X" OrderType.market Side.buy 10 (some 100) none).quantity
        items := buyItems 5 (scenarioPortfolio 10000 []).items
          (newOrder 1 7 "X" OrderType.market Side.buy 10 (some 100) none).symbol
          (newOrder 1 7 "X" OrderType.market Side.buy 10 (some 100) none).quantity
          (scenarioAsset 100).currentPrice
          ((scenarioAsset 100).currentPrice
            * (newOrder 1 7 "X" OrderType.market Side.buy 10 (some 100) none).quantity)
        totalValue :=
          itemsTotalValue (buyItems 5 (scenarioPortfolio 10000 []).items
            (newOrder 1 7 "X" OrderType.market Side.buy 10 (some 100) none).symbol
            (newOrder 1 7 "X" OrderType.market Side.buy 10 (some 100) none).quantity
            (scenarioAsset 100).currentPrice
            ((scenarioAsset 100).currentPrice
              * (newOrder 1 7 "X" OrderType.market Side.buy 10 (some 100) none).quantity))
          + ((scenarioPortfolio 10000 []).cashBalance
            - (scenarioAsset 100).currentPrice
              * (newOrder 1 7 "X" OrderType.market Side.buy 10 (some 100) none).quantity) }
      rfl rfl rfl
    rw [hfind]
    norm_num [scenarioPortfolio, scenarioAsset, newOrder]

/-! ## Statistics (C21) -/

/-- The two running sums of `getPortfolioStats` are the sums of `totalCost` over the buy
orders and over the sell orders. -/
theorem statsSums_eq (orders : List Order) :
    ∀ (a b : ℚ),
      orders.foldl
        (fun (acc : ℚ × ℚ) (order : Order) =>
          match order.side with
          | Side.buy => (acc.1 + order.totalCost.getD 0, acc.2)
          | Side.sell => (acc.1, acc.2 + order.totalCost.getD 0))
        (a, b)
      = (a + ((orders.filter (fun order => decide (order.side = Side.buy))).map
              (fun order => order.totalCost.getD 0)).sum,
         b + ((orders.filter (fun order => decide (order.side = Side.sell))).map
              (fun order => order.totalCost.getD 0)).sum) := by
  induction orders with
  | nil => intro a b; simp
  | cons o os ih =>
    intro a b
    cases hside : o.side with
    | buy => simp [List.foldl, hside, ih, List.filter, add_assoc]
    | sell => simp [List.foldl, hside, ih, List.filter, add_assoc]

/-- The running sum of the items' profit/loss is their sum. -/
theorem unrealized_eq (items : List PortfolioItem) :
    items.foldl (fun acc item => acc + item.profitLoss.getD 0) 0
      = (items.map (fun item => item.profitLoss.getD 0)).sum := by
  have : ∀ (l : List PortfolioItem) (a : ℚ),
      l.foldl (fun acc item => acc + item.profitLoss.getD 0) a
        = a + (l.map (fun item => item.profitLoss.getD 0)).sum := by
    intro l
    induction l with
    | nil => intro a; simp
    | cons x xs ih => intro a; simp [List.foldl, ih, add_assoc]
  simpa using this items 0

/-- Rounding to two decimals moves a number by at most half a hundredth. -/
theorem toFixed2_near (x : ℚ) : |toFixed2 x - x| ≤ 1 / 200 := by
  unfold toFixed2
  split
  · have h1 := Int.floor_le ((-x) * 100 + 1 / 2)
    have h2 := Int.lt_floor_add_one ((-x) * 100 + 1 / 2)
    rw [abs_le]
    constructor <;> linarith
  · have h1 := Int.floor_le (x * 100 + 1 / 2)
    have h2 := Int.lt_floor_add_one (x * 100 + 1 / 2)
    rw [abs_le]
    constructor <;> linarith

/-- Rounding 0 gives 0. -/
theorem toFixed2_zero : toFixed2 0 = 0 := by
  unfold toFixed2
  norm_num

/-- C21 (as amended): for a user with a portfolio `getPortfolioStats` answers with
`totalInvested` and `totalReturned` the sums of `totalCost` over the user's filled buy and
filled sell orders, `realizedProfitLoss = totalReturned − totalInvested`,
`unrealizedProfitLoss` the sum of the items' profit/loss, `totalProfitLoss` their sum, and
`profitLossPercentage` equal to `totalProfitLoss / totalInvested × 100` rounded to two
decimals (so within 0.005 of it) when `totalInvested` is positive and 0 otherwise. -/
theorem getPortfolioStats_profitLoss (db : Db) (userId : Nat) (portfolio : Portfolio)
    (hp : db.findPortfolio userId = some portfolio) :
    ∃ stats, getPortfolioStats db userId = some stats ∧
      stats.totalInvested =
        (((db.orders.filter (fun order =>
            decide (order.user = userId) && decide (order.status = OrderStatus.filled))).filter
          (fun order => decide (order.side = Side.buy))).map
            (fun order => order.totalCost.getD 0)).sum ∧
      stats.totalReturned =
        (((db.orders.filter (fun order =>
            decide (order.user = userId) && decide (order.status = OrderStatus.filled))).filter
          (fun order => decide (order.side = Side.sell))).map
            (fun order => order.totalCost.getD 0)).sum ∧
      stats.realizedProfitLoss = stats.totalReturned - stats.totalInvested ∧
      stats.unrealizedProfitLoss
        = (portfolio.items.map (fun item => item.profitLoss.getD 0)).sum ∧
      stats.totalProfitLoss = stats.realizedProfitLoss + stats.unrealizedProfitLoss ∧
      (0 < stats.totalInvested →
        stats.profitLossPercentage
            = toFixed2 (stats.totalProfitLoss / stats.totalInvested * 100) ∧
          |stats.profitLossPercentage - stats.totalProfitLoss / stats.totalInvested * 100|
            ≤ 1 / 200) ∧
      (¬ 0 < stats.totalInvested → stats.profitLossPercentage = 0) := by
  unfold getPortfolioStats
  rw [hp]
  refine ⟨_, rfl, ?_, ?_, rfl, ?_, rfl, ?_, ?_⟩
  · simp only [statsSums_eq, zero_add]
  · simp only [statsSums_eq, zero_add]
  · exact unrealized_eq portfolio.items
  · intro hpos
    simp only [gt_iff_lt] at hpos ⊢
    rw [if_pos hpos]
    exact ⟨rfl, toFixed2_near _⟩
  · intro hneg
    simp only [gt_iff_lt] at hneg ⊢
    rw [if_neg hneg]
    exact toFixed2_zero

/-- What `getPortfolioStats` answers in the store `statsDb`. -/
theorem getPortfolioStats_statsDb :
    getPortfolioStats statsDb 7 = some
      { totalValue := 10000, cashBalance := 10001, assetsValue := -1, totalOrders := 2
        buyOrders := 1, sellOrders := 1, totalInvested := 3, totalReturned := 4
        realizedProfitLoss := 1, unrealizedProfitLoss := 0, totalProfitLoss := 1
        profitLossPercentage := 3333 / 100 } := by
  have hfloor : (⌊(1 / 3 * 100 * 100 + 1 / 2 : ℚ)⌋ : ℤ) = 3333 := by
    rw [Int.floor_eq_iff]
    constructor <;> norm_num
  have hfind : statsDb.findPortfolio 7 = some (scenarioPortfolio 10001 []) := rfl
  unfold getPortfolioStats
  rw [hfind]
  simp only [statsDb, scenarioOrder, scenarioPortfolio, List.filter, List.foldl, List.length,
    decide_True, decide_False, Bool.and_self, Option.getD_some, reduceCtorEq]
  norm_num [toFixed2, hfloor]

/-- Counterexample to C21 as stated: with one filled buy of total cost 3 and one filled
sell of total cost 4 the total profit/loss is 1 and `totalInvested` is 3, and the
percentage answered is 33.33, not 1 / 3 × 100. -/
theorem getPortfolioStats_rounds :
    ∃ stats, getPortfolioStats statsDb 7 = some stats ∧
      stats.totalInvested = 3 ∧ stats.totalProfitLoss = 1 ∧
      stats.profitLossPercentage = 3333 / 100 ∧
      stats.profitLossPercentage ≠ stats.totalProfitLoss / stats.totalInvested * 100 := by
  refine ⟨_, getPortfolioStats_statsDb, rfl, rfl, rfl, ?_⟩
  norm_num

/-- Witness of C21: in the store `statsDb` the percentage answered is 1 / 3 × 100 rounded
to two decimals. -/
theorem getPortfolioStats_profitLoss_witness :
    ∃ stats, getPortfolioStats statsDb 7 = some stats ∧
      stats.profitLossPercentage
        = toFixed2 (stats.totalProfitLoss / stats.totalInvested * 100) := by
  obtain ⟨stats, h1, _, _, _, _, _, h7, _⟩ :=
    getPortfolioStats_profitLoss statsDb 7 (scenarioPortfolio 10001 []) rfl
  refine ⟨stats, h1, (h7 ?_).1⟩
  rw [getPortfolioStats_statsDb] at h1
  simp only [Option.some.injEq] at h1
  rw [← h1]
  norm_num

/-! ## Further lemmas on the store and on `executeOn` -/

/-- A document of the collection after a write is the written one or was there before. -/
theorem mem_saveDoc {α : Type} (key : α → Nat) (doc : α) (docs : List α) (d : α)
    (h : d ∈ saveDoc key doc docs) : d = doc ∨ d ∈ docs := by
  unfold saveDoc at h
  split at h
  · rw [List.mem_map] at h
    obtain ⟨x, hx, hd⟩ := h
    split at hd
    · exact Or.inl hd.symm
    · exact Or.inr (hd ▸ hx)
  · rw [List.mem_append] at h
    rcases h with h | h
    · exact Or.inr h
    · exact Or.inl (by simpa using h)

/-- The order just written is the one found under its id. -/
theorem findOrderById_saveOrder_self (db : Db) (o : Order) :
    (db.saveOrder o).findOrderById o.id = some o := by
  cases h : db.findOrderById o.id with
  | none =>
    exact find_saveDoc_new Order.id _ o db.orders h (by simp)
  | some o0 =>
    have hid : o0.id = o.id := by
      have := List.find?_some h
      simpa using this
    exact findOrderById_saveOrder db o.id o0 o h hid.symm

/-- Writing an order leaves the orders of every other id as they are found. -/
theorem findOrderById_saveOrder_other (db : Db) (o : Order) (i : Nat) (h : o.id ≠ i) :
    (db.saveOrder o).findOrderById i = db.findOrderById i := by
  unfold Db.findOrderById Db.saveOrder saveDoc
  simp only
  split
  · induction db.orders with
    | nil => rfl
    | cons x xs ih =>
      by_cases hk : x.id = o.id
      · have hx : ¬ x.id = i := fun hxi => h (hk ▸ hxi)
        simp [List.map, hk, List.find?, h, hx, ih]
      · simp [List.map, hk, List.find?, ih]
  · rw [List.find?_append]
    simp [List.find?, h]

/-- On the fill path `executeOrder` is `executeOrderWrites` with the verdicts of the
validators as the outcomes of the two writes. -/
theorem executeOrderWrites_validators (now : Nat) (db : Db) (orderId : Nat) (order o' : Order)
    (asset : Asset) (portfolio p' : Portfolio)
    (ho : db.findOrderById orderId = some order) (hs : order.status = OrderStatus.pending)
    (ha : db.findAsset order.symbol = some asset)
    (hp : db.findPortfolio order.user = some portfolio)
    (hfill : executeOn now order asset portfolio = (o', some p')) :
    executeOrder now db orderId
      = executeOrderWrites (fillSchemaAccepts o') (portfolioSchemaAccepts p') now db orderId := by
  rw [executeOrder_found now db orderId order asset portfolio ho hs ha hp, hfill]
  simp only [executeOrderWrites, ho, hs, ha, hp, hfill]
  cases fillSchemaAccepts o' <;> cases portfolioSchemaAccepts p' <;> simp

/-- A stored portfolio that does not pass its validators (cash -100, where the schema
demands at least 0): the sell of 1 of the 10 `X` held, at 50, is stored as `filled`, the
validators refuse the portfolio with cash -50, and the stored portfolio is the one of
before. -/
theorem executeOrder_portfolio_refused :
    portfolioSchemaAccepts (scenarioPortfolio (-100) [scenarioItem 10 100 100]) = false ∧
    ((executeOrder 5 (scenarioDb 50 (scenarioPortfolio (-100) [scenarioItem 10 100 100])
        (scenarioOrder Side.sell 1 OrderStatus.pending)) 1).findOrderById 1).map Order.status
      = some OrderStatus.filled ∧
    (executeOrder 5 (scenarioDb 50 (scenarioPortfolio (-100) [scenarioItem 10 100 100])
        (scenarioOrder Side.sell 1 OrderStatus.pending)) 1).portfolios
      = [scenarioPortfolio (-100) [scenarioItem 10 100 100]] := by
  have hq : ¬ (scenarioItem 10 100 100).quantity
      < (scenarioOrder Side.sell 1 OrderStatus.pending).quantity := by
    norm_num [scenarioItem, scenarioOrder]
  have hfill := executeOn_sell 5 (scenarioOrder Side.sell 1 OrderStatus.pending)
    (scenarioAsset 50) (scenarioPortfolio (-100) [scenarioItem 10 100 100]) 0
    (scenarioItem 10 100 100) rfl rfl rfl hq
  have hcases := executeOrder_fill_cases 5
    (scenarioDb 50 (scenarioPortfolio (-100) [scenarioItem 10 100 100])
      (scenarioOrder Side.sell 1 OrderStatus.pending)) 1
    (scenarioOrder Side.sell 1 OrderStatus.pending) _ (scenarioAsset 50)
    (scenarioPortfolio (-100) [scenarioItem 10 100 100]) _ rfl rfl rfl rfl hfill
  have h1 : fillSchemaAccepts
      { scenarioOrder Side.sell 1 OrderStatus.pending with
        status := OrderStatus.filled
        filledQuantity := (scenarioOrder Side.sell 1 OrderStatus.pending).quantity
        averageFilledPrice := some (scenarioAsset 50).currentPrice
        totalCost := some ((scenarioAsset 50).currentPrice
          * (scenarioOrder Side.sell 1 OrderStatus.pending).quantity) } = true :=
    fillSchemaAccepts_filled _ _ (by norm_num [scenarioOrder]) (by norm_num [scenarioAsset])
  have h2 : portfolioSchemaAccepts
      { scenarioPortfolio (-100) [scenarioItem 10 100 100] with
        cashBalance := (scenarioPortfolio (-100) [scenarioItem 10 100 100]).cashBalance
          + (scenarioAsset 50).currentPrice
            * (scenarioOrder Side.sell 1 OrderStatus.pending).quantity
        items := sellItems (scenarioPortfolio (-100) [scenarioItem 10 100 100]).items 0
          (scenarioOrder Side.sell 1 OrderStatus.pending).quantity (scenarioAsset 50).currentPrice
        totalValue :=
          itemsTotalValue (sellItems (scenarioPortfolio (-100) [scenarioItem 10 100 100]).items 0
            (scenarioOrder Side.sell 1 OrderStatus.pending).quantity
            (scenarioAsset 50).currentPrice)
          + ((scenarioPortfolio (-100) [scenarioItem 10 100 100]).cashBalance
            + (scenarioAsset 50).currentPrice
              * (scenarioOrder Side.sell 1 OrderStatus.pending).quantity) } = false := by
    simp only [portfolioSchemaAccepts, Bool.and_eq_false_iff, decide_eq_false_iff_not, not_le]
    left
    right
    norm_num [scenarioPortfolio, scenarioAsset, scenarioOrder]
  refine ⟨by norm_num [portfolioSchemaAccepts, scenarioPortfolio], ?_, ?_⟩
  · rcases hcases with ⟨h, _⟩ | ⟨_, _, hrun⟩ | ⟨_, h, _⟩
    · rw [h1] at h
      exact absurd h (by decide)
    · rw [hrun]
      exact congrArg (Option.map Order.status) (findOrderById_saveOrder_self _ _)
    · rw [h2] at h
      exact absurd h (by decide)
  · rcases hcases with ⟨h, _⟩ | ⟨_, _, hrun⟩ | ⟨_, h, _⟩
    · rw [h1] at h
      exact absurd h (by decide)
    · rw [hrun]
      rfl
    · rw [h2] at h
      exact absurd h (by decide)

/-! ## Failed writes (C22) -/

/-- C22 (as amended): in an execution that fills the order, a failure of the order write
leaves the store as it was, whatever the portfolio write would have done; a failure of the
portfolio write comes after the order write, so the stored order is `filled` while the
portfolio collection is still the one of before the execution. -/
theorem executeOrderWrites_failed_write (now : Nat) (db : Db) (orderId : Nat)
    (order o' : Order) (asset : Asset) (portfolio p' : Portfolio) (portfolioWrite : Bool)
    (ho : db.findOrderById orderId = some order) (hs : order.status = OrderStatus.pending)
    (ha : db.findAsset order.symbol = some asset)
    (hp : db.findPortfolio order.user = some portfolio)
    (hfill : executeOn now order asset portfolio = (o', some p')) :
    executeOrderWrites false portfolioWrite now db orderId = db ∧
      (executeOrderWrites true false now db orderId).findOrderById orderId = some o' ∧
      o'.status = OrderStatus.filled ∧
      (executeOrderWrites true false now db orderId).portfolios = db.portfolios ∧
      (executeOrderWrites true false now db orderId).findPortfolio order.user
        = some portfolio := by
  have hsome : (executeOn now order asset portfolio).2 = some p' := by rw [hfill]
  have ho' := (executeOn_some now order asset portfolio p' hsome).1
  rw [hfill] at ho'
  simp only at ho'
  have h1 : executeOrderWrites false portfolioWrite now db orderId = db := by
    simp [executeOrderWrites, ho, hs, ha, hp, hfill]
  have h2 : executeOrderWrites true false now db orderId = db.saveOrder o' := by
    simp [executeOrderWrites, ho, hs, ha, hp, hfill]
  rw [h1, h2]
  refine ⟨rfl, findOrderById_saveOrder db orderId order o' ho (by rw [ho']), ?_, rfl, hp⟩
  rw [ho']

/-- Witness of C22: the market buy of 10 `X` at 100 with cash 10000, when the portfolio
write fails, leaves no trace with a failed order write and a filled order otherwise. -/
theorem executeOrderWrites_failed_write_witness :
    executeOrderWrites false true 5 (scenarioDb 100 (scenarioPortfolio 10000 [])
        (scenarioOrder Side.buy 10 OrderStatus.pending)) 1
      = scenarioDb 100 (scenarioPortfolio 10000 [])
        (scenarioOrder Side.buy 10 OrderStatus.pending) :=
  (executeOrderWrites_failed_write 5
    (scenarioDb 100 (scenarioPortfolio 10000 []) (scenarioOrder Side.buy 10 OrderStatus.pending))
    1 (scenarioOrder Side.buy 10 OrderStatus.pending) _ (scenarioAsset 100)
    (scenarioPortfolio 10000 []) _ true rfl rfl rfl rfl
    (executeOn_buy 5 (scenarioOrder Side.buy 10 OrderStatus.pending) (scenarioAsset 100)
      (scenarioPortfolio 10000 []) rfl
      (by norm_num [scenarioPortfolio, scenarioAsset, scenarioOrder]))).1

/-- Counterexample to C22 as stated: when the order write succeeds and the portfolio write
fails, the market buy of 10 `X` at 100 is stored as `filled` while the stored portfolio
is still the one of before, with cash 10000 and no item. -/
theorem executeOrderWrites_order_without_portfolio :
    (∃ o, (executeOrderWrites true false 5 (scenarioDb 100 (scenarioPortfolio 10000 [])
        (scenarioOrder Side.buy 10 OrderStatus.pending)) 1).findOrderById 1 = some o ∧
      o.status = OrderStatus.filled) ∧
    (executeOrderWrites true false 5 (scenarioDb 100 (scenarioPortfolio 10000 [])
        (scenarioOrder Side.buy 10 OrderStatus.pending)) 1).findPortfolio 7
      = some (scenarioPortfolio 10000 []) ∧
    executeOrderWrites true false 5 (scenarioDb 100 (scenarioPortfolio 10000 [])
        (scenarioOrder Side.buy 10 OrderStatus.pending)) 1
      ≠ scenarioDb 100 (scenarioPortfolio 10000 [])
        (scenarioOrder Side.buy 10 OrderStatus.pending) := by
  have hfill := executeOn_buy 5 (scenarioOrder Side.buy 10 OrderStatus.pending)
    (scenarioAsset 100) (scenarioPortfolio 10000 []) rfl
    (by norm_num [scenarioPortfolio, scenarioAsset, scenarioOrder])
  have hrun : executeOrderWrites true false 5 (scenarioDb 100 (scenarioPortfolio 10000 [])
        (scenarioOrder Side.buy 10 OrderStatus.pending)) 1
      = (scenarioDb 100 (scenarioPortfolio 10000 [])
        (scenarioOrder Side.buy 10 OrderStatus.pending)).saveOrder
        { scenarioOrder Side.buy 10 OrderStatus.pending with
          status := OrderStatus.filled
          filledQuantity := (scenarioOrder Side.buy 10 OrderStatus.pending).quantity
          averageFilledPrice := some (scenarioAsset 100).currentPrice
          totalCost := some ((scenarioAsset 100).currentPrice
            * (scenarioOrder Side.buy 10 OrderStatus.pending).quantity) } := by
    have hf : (scenarioDb 100 (scenarioPortfolio 10000 [])
        (scenarioOrder Side.buy 10 OrderStatus.pending)).findOrderById 1
        = some (scenarioOrder Side.buy 10 OrderStatus.pending) := rfl
    have ha : (scenarioDb 100 (scenarioPortfolio 10000 [])
        (scenarioOrder Side.buy 10 OrderStatus.pending)).findAsset
          (scenarioOrder Side.buy 10 OrderStatus.pending).symbol
        = some (scenarioAsset 100) := rfl
    have hp : (scenarioDb 100 (scenarioPortfolio 10000 [])
        (scenarioOrder Side.buy 10 OrderStatus.pending)).findPortfolio
          (scenarioOrder Side.buy 10 OrderStatus.pending).user
        = some (scenarioPortfolio 10000 []) := rfl
    have hs : (scenarioOrder Side.buy 10 OrderStatus.pending).status = OrderStatus.pending := rfl
    simp [executeOrderWrites, hf, ha, hp, hs, hfill]
  rw [hrun]
  refine ⟨⟨_, findOrderById_saveOrder_self _ _, rfl⟩, rfl, ?_⟩
  intro h
  have h1 := congrArg (fun d => (d.findOrderById 1).map Order.status) h
  simp only [findOrderById_saveOrder_self
    (scenarioDb 100 (scenarioPortfolio 10000 []) (scenarioOrder Side.buy 10 OrderStatus.pending))
    { scenarioOrder Side.buy 10 OrderStatus.pending with
      status := OrderStatus.filled
      filledQuantity := (scenarioOrder Side.buy 10 OrderStatus.pending).quantity
      averageFilledPrice := some (scenarioAsset 100).currentPrice
      totalCost := some ((scenarioAsset 100).currentPrice
        * (scenarioOrder Side.buy 10 OrderStatus.pending).quantity) }] at h1
  exact absurd h1 (by decide)

/-! ## Order life cycle (C23) -/

/-- Every order in the store after `executeOrder` was there before, or is the pending
order of that id, now `filled` or `rejected`. -/
theorem executeOrder_orders (now : Nat) (db : Db) (orderId : Nat) (o' : Order)
    (h : o' ∈ (executeOrder now db orderId).orders) :
    o' ∈ db.orders ∨
      ((o'.status = OrderStatus.filled ∨ o'.status = OrderStatus.rejected) ∧
        ∃ o, db.findOrderById orderId = some o ∧ o.status = OrderStatus.pending ∧
          o'.id = o.id) := by
  cases ho : db.findOrderById orderId with
  | none =>
    have : executeOrder now db orderId = db := by simp [executeOrder, ho]
    rw [this] at h
    exact Or.inl h
  | some order =>
    by_cases hs : order.status = OrderStatus.pending
    · rcases executeOrder_stored now db orderId order ho hs with
        ⟨_, hrun⟩ | ⟨asset, portfolio, _, _, hrun⟩
      · rw [hrun] at h
        rcases mem_saveDoc Order.id _ db.orders o' h with h1 | h1
        · right
          rw [h1]
          exact ⟨Or.inr rfl, order, rfl, hs, rfl⟩
        · exact Or.inl h1
      · have hmem : o' ∈ db.orders ∨
            o' ∈ (db.saveOrder (executeOn now order asset portfolio).1).orders := by
          rcases hrun with ⟨_, h2⟩ | ⟨p', _, ⟨_, h2⟩ | ⟨_, _, h2⟩ | ⟨_, _, h2⟩⟩
          · rw [h2] at h
            exact Or.inr h
          · rw [h2] at h
            exact Or.inl h
          · rw [h2] at h
            exact Or.inr h
          · rw [h2] at h
            exact Or.inr h
        rcases hmem with h0 | hmem
        · exact Or.inl h0
        rcases mem_saveDoc Order.id _ db.orders o' hmem with h1 | h1
        · right
          rw [h1]
          rcases executeOn_cases now order asset portfolio with hc | ⟨p', hc⟩
          · rw [hc]
            exact ⟨Or.inr rfl, order, rfl, hs, rfl⟩
          · rw [hc]
            exact ⟨Or.inl rfl, order, rfl, hs, rfl⟩
        · exact Or.inl h1
    · have : executeOrder now db orderId = db := by simp [executeOrder, ho, hs]
      rw [this] at h
      exact Or.inl h

/-- Every order in the store after `cancelOrder` was there before, or is the pending
order of the user under that id, now `cancelled`. -/
theorem cancelOrder_orders (db : Db) (orderId userId : Nat) (o' : Order)
    (h : o' ∈ (cancelOrder db orderId userId).1.orders) :
    o' ∈ db.orders ∨
      (o'.status = OrderStatus.cancelled ∧
        ∃ o, db.findOrder orderId userId = some o ∧ o.status = OrderStatus.pending ∧
          o'.id = o.id) := by
  cases ho : db.findOrder orderId userId with
  | none =>
    have : (cancelOrder db orderId userId).1 = db := by simp [cancelOrder, ho]
    rw [this] at h
    exact Or.inl h
  | some order =>
    by_cases hs : order.status = OrderStatus.pending
    · have : (cancelOrder db orderId userId).1
          = db.saveOrder { order with status := OrderStatus.cancelled } := by
        simp [cancelOrder, ho, hs]
      rw [this] at h
      rcases mem_saveDoc Order.id _ db.orders o' h with h1 | h1
      · right
        rw [h1]
        exact ⟨rfl, order, rfl, hs, rfl⟩
      · exact Or.inl h1
    · have : (cancelOrder db orderId userId).1 = db := by simp [cancelOrder, ho, hs]
      rw [this] at h
      exact Or.inl h

/-- C23: the order life cycle.  `executeOrder` and `cancelOrder` leave the whole store,
orders and portfolios, as it was when the order they find is not `pending`; a `pending`
order is found after `executeOrder` as it was, or `filled`, or `rejected`, and after
`cancelOrder` as `cancelled`; every order of the store afterwards is an order of before
or a pending order rewritten to `filled`, `rejected` or `cancelled`; and an order with
status `partially_filled` in the store after `executeOrder`, `cancelOrder` or
`placeOrder` was already there before. -/
theorem order_status_machine (now newId : Nat) (db : Db) (orderId userId : Nat)
    (req : OrderRequest) :
    (∀ o, db.findOrderById orderId = some o → o.status ≠ OrderStatus.pending →
        executeOrder now db orderId = db) ∧
    (∀ o, db.findOrder orderId userId = some o → o.status ≠ OrderStatus.pending →
        (cancelOrder db orderId userId).1 = db) ∧
    (∀ o, db.findOrderById orderId = some o → o.status = OrderStatus.pending →
        ∃ o', (executeOrder now db orderId).findOrderById orderId = some o' ∧
          (o' = o ∨ o'.status = OrderStatus.filled ∨ o'.status = OrderStatus.rejected)) ∧
    (∀ o, db.findOrder orderId userId = some o → o.status = OrderStatus.pending →
        ∃ o', (cancelOrder db orderId userId).1.findOrder orderId userId = some o' ∧
          o'.status = OrderStatus.cancelled) ∧
    (∀ o' ∈ (executeOrder now db orderId).orders, o' ∈ db.orders ∨
        ((o'.status = OrderStatus.filled ∨ o'.status = OrderStatus.rejected) ∧
          ∃ o, db.findOrderById orderId = some o ∧ o.status = OrderStatus.pending ∧
            o'.id = o.id)) ∧
    (∀ o' ∈ (cancelOrder db orderId userId).1.orders, o' ∈ db.orders ∨
        (o'.status = OrderStatus.cancelled ∧
          ∃ o, db.findOrder orderId userId = some o ∧ o.status = OrderStatus.pending ∧
            o'.id = o.id)) ∧
    (∀ o' ∈ (executeOrder now db orderId).orders,
        o'.status = OrderStatus.partially_filled → o' ∈ db.orders) ∧
    (∀ o' ∈ (cancelOrder db orderId userId).1.orders,
        o'.status = OrderStatus.partially_filled → o' ∈ db.orders) ∧
    (∀ o' ∈ (placeOrder now newId db userId req).1.orders,
        o'.status = OrderStatus.partially_filled → o' ∈ db.orders) := by
  refine ⟨?_, ?_, ?_, ?_, ?_, ?_, ?_, ?_, ?_⟩
  · intro o ho hs
    simp [executeOrder, ho, hs]
  · intro o ho hs
    simp [cancelOrder, ho, hs]
  · intro o ho hs
    rcases executeOrder_findOrder now db orderId o ho hs with ⟨_, h⟩ | h | ⟨asset, _, h⟩
    · exact ⟨o, h, Or.inl rfl⟩
    · exact ⟨_, h, Or.inr (Or.inr rfl)⟩
    · exact ⟨_, h, Or.inr (Or.inl rfl)⟩
  · intro o ho hs
    have : (cancelOrder db orderId userId).1
        = db.saveOrder { o with status := OrderStatus.cancelled } := by
      simp [cancelOrder, ho, hs]
    rw [this]
    exact ⟨_, findOrder_saveOrder db orderId userId o
      { o with status := OrderStatus.cancelled } ho rfl rfl, rfl⟩
  · exact fun o' h => executeOrder_orders now db orderId o' h
  · exact fun o' h => cancelOrder_orders db orderId userId o' h
  · intro o' h hpf
    rcases executeOrder_orders now db orderId o' h with h1 | ⟨h1, _⟩
    · exact h1
    · rw [hpf] at h1
      exact absurd h1 (by decide)
  · intro o' h hpf
    rcases cancelOrder_orders db orderId userId o' h with h1 | ⟨h1, _⟩
    · exact h1
    · rw [hpf] at h1
      exact absurd h1 (by decide)
  · intro o' h hpf
    rcases placeOrder_cases now newId db userId req with hrej | hacc
    · rw [hrej.1] at h
      exact h
    · obtain ⟨symbol, type, side, quantity, asset, portfolio, _, _, _, _, _, _, _, _, _, _,
        _, _, _, hrun⟩ := hacc
      rw [hrun] at h
      simp only at h
      have hsaved : ∀ (pr : Option ℚ),
          ∀ x ∈ (db.saveOrder (newOrder newId userId (toUpperCase symbol) type side
            quantity pr req.stopPrice)).orders,
          x.status = OrderStatus.partially_filled → x ∈ db.orders := by
        intro pr x hx hxs
        rcases mem_saveDoc Order.id _ db.orders x hx with h1 | h1
        · rw [h1] at hxs
          exact absurd hxs (by simp [newOrder])
        · exact h1
      split at h
      · rcases executeOrder_orders now _ newId o' h with h1 | ⟨h1, _⟩
        · exact hsaved _ o' h1 hpf
        · rw [hpf] at h1
          exact absurd h1 (by decide)
      · exact hsaved _ o' h hpf

/-- Witness of C23: executing or cancelling the filled order 1 of user 7 leaves the store
as it is. -/
theorem order_status_machine_witness :
    executeOrder 5 (scenarioDb 100 (scenarioPortfolio 9000 [scenarioItem 10 100 100])
        (scenarioOrder Side.buy 10 OrderStatus.filled)) 1
      = scenarioDb 100 (scenarioPortfolio 9000 [scenarioItem 10 100 100])
        (scenarioOrder Side.buy 10 OrderStatus.filled) ∧
    (cancelOrder (scenarioDb 100 (scenarioPortfolio 9000 [scenarioItem 10 100 100])
        (scenarioOrder Side.buy 10 OrderStatus.filled)) 1 7).1
      = scenarioDb 100 (scenarioPortfolio 9000 [scenarioItem 10 100 100])
        (scenarioOrder Side.buy 10 OrderStatus.filled) := by
  obtain ⟨h1, h2, _⟩ := order_status_machine 5 2
    (scenarioDb 100 (scenarioPortfolio 9000 [scenarioItem 10 100 100])
      (scenarioOrder Side.buy 10 OrderStatus.filled)) 1 7
    (scenarioRequest OrderType.market Side.buy (some 1) none)
  exact ⟨h1 (scenarioOrder Side.buy 10 OrderStatus.filled) rfl (by decide),
    h2 (scenarioOrder Side.buy 10 OrderStatus.filled) rfl (by decide)⟩

/-! ## Portfolio invariants (C24, C25) -/

/-- The user's portfolio after `executeOrder` of a pending order: the one of before when
the order is rejected, the one `executeOn` hands back when it is filled. -/
theorem executeOrder_portfolio (now : Nat) (db : Db) (orderId : Nat) (order : Order)
    (portfolio : Portfolio)
    (ho : db.findOrderById orderId = some order) (hs : order.status = OrderStatus.pending)
    (hp : db.findPortfolio order.user = some portfolio) :
    (executeOrder now db orderId).findPortfolio order.user = some portfolio ∨
      ∃ asset p', db.findAsset order.symbol = some asset ∧
        (executeOn now order asset portfolio).2 = some p' ∧
        (executeOrder now db orderId).findPortfolio order.user = some p' := by
  have hu : portfolio.user = order.user := by
    simpa [Db.findPortfolio] using List.find?_some hp
  rcases executeOrder_stored now db orderId order ho hs with
    ⟨_, hrun⟩ | ⟨asset, portfolio', ha, hp', hrun⟩
  · left
    rw [hrun]
    exact hp
  · rw [hp] at hp'
    simp only [Option.some.injEq] at hp'
    subst hp'
    rcases hrun with ⟨_, h⟩ | ⟨p', hsome, ⟨_, h⟩ | ⟨_, _, h⟩ | ⟨_, _, h⟩⟩
    · left
      rw [h]
      exact hp
    · left
      rw [h]
      exact hp
    · left
      rw [h]
      exact hp
    · right
      obtain ⟨_, hid, huser, _⟩ := executeOn_some now order asset portfolio p' hsome
      refine ⟨asset, p', ha, hsome, ?_⟩
      rw [h]
      exact findPortfolio_savePortfolio _ order.user portfolio p' hp hid (huser.trans hu)

/-- C24: cash never goes negative.  With cash at least 0, the instrument's price at least
0 and a pending order of positive quantity, the user's portfolio after `executeOrder` has
cash at least 0, whether the order was filled or rejected. -/
theorem executeOrder_cash_nonneg (now : Nat) (db : Db) (orderId : Nat) (order : Order)
    (portfolio : Portfolio)
    (ho : db.findOrderById orderId = some order) (hs : order.status = OrderStatus.pending)
    (hp : db.findPortfolio order.user = some portfolio)
    (hcash : 0 ≤ portfolio.cashBalance)
    (hprice : ∀ asset, db.findAsset order.symbol = some asset → 0 ≤ asset.currentPrice)
    (hq : 0 < order.quantity) :
    ∃ p', (executeOrder now db orderId).findPortfolio order.user = some p' ∧
      0 ≤ p'.cashBalance := by
  rcases executeOrder_portfolio now db orderId order portfolio ho hs hp with
    h | ⟨asset, p', ha, hsome, h⟩
  · exact ⟨portfolio, h, hcash⟩
  · refine ⟨p', h, ?_⟩
    obtain ⟨_, _, _, hcase⟩ := executeOn_some now order asset portfolio p' hsome
    rcases hcase with ⟨_, hc, hcb, _⟩ | ⟨_, i, item, _, _, _, hcb, _⟩
    · rw [hcb]
      linarith [not_lt.mp hc]
    · rw [hcb]
      have := mul_nonneg (hprice asset ha) (le_of_lt hq)
      linarith

/-- Witness of C24: after the market buy of 10 `X` at 100 with cash 10000 the cash is not
negative. -/
theorem executeOrder_cash_nonneg_witness :
    ∃ p', (executeOrder 5 (scenarioDb 100 (scenarioPortfolio 10000 [])
        (scenarioOrder Side.buy 10 OrderStatus.pending)) 1).findPortfolio 7 = some p' ∧
      0 ≤ p'.cashBalance :=
  executeOrder_cash_nonneg 5
    (scenarioDb 100 (scenarioPortfolio 10000 []) (scenarioOrder Side.buy 10 OrderStatus.pending))
    1 (scenarioOrder Side.buy 10 OrderStatus.pending) (scenarioPortfolio 10000 []) rfl rfl rfl
    (by norm_num [scenarioPortfolio])
    (by
      intro asset ha
      have h : asset = scenarioAsset 100 := by
        have h' : some (scenarioAsset 100) = some asset := ha
        exact (Option.some.inj h').symm
      rw [h]
      norm_num [scenarioAsset])
    (by norm_num [scenarioOrder])

/-- No item carries the symbol when `findIndex` finds none. -/
theorem findItemIndex_none (items : List PortfolioItem) (symbol : String)
    (h : findItemIndex items symbol = none) :
    symbol ∉ items.map PortfolioItem.symbol := by
  unfold findItemIndex at h
  rw [List.findIdx?_eq_none_iff] at h
  intro hmem
  rw [List.mem_map] at hmem
  obtain ⟨item, hitem, hsym⟩ := hmem
  have := h item hitem
  simp [hsym] at this

/-- The buy branch keeps the items well-formed: positive quantities, distinct symbols. -/
theorem buyItems_wellFormed (now : Nat) (items : List PortfolioItem) (symbol : String)
    (quantity executionPrice totalCost : ℚ)
    (hpos : ∀ item ∈ items, 0 < item.quantity)
    (hnodup : (items.map PortfolioItem.symbol).Nodup) (hq : 0 < quantity) :
    (∀ item ∈ buyItems now items symbol quantity executionPrice totalCost,
        0 < item.quantity) ∧
      ((buyItems now items symbol quantity executionPrice totalCost).map
        PortfolioItem.symbol).Nodup := by
  unfold buyItems
  rcases hfi : findItemIndex items symbol with _ | i
  · simp only
    constructor
    · intro item hmem
      rw [List.mem_append] at hmem
      rcases hmem with h | h
      · exact hpos item h
      · simp only [List.mem_singleton] at h
        rw [h]
        exact hq
    · rw [List.map_append, List.nodup_append]
      refine ⟨hnodup, by simp, ?_⟩
      intro a ha hb
      simp only [List.map_cons, List.map_nil, List.mem_singleton] at hb
      rw [hb] at ha
      exact findItemIndex_none items symbol hfi ha
  · obtain ⟨item, hitem, _⟩ := findItemIndex_get _ _ _ hfi
    have hlt : i < items.length := by
      rcases Nat.lt_or_ge i items.length with h | h
      · exact h
      · rw [List.getElem?_eq_none h] at hitem
        exact absurd hitem (by simp)
    have hmem : item ∈ items := List.mem_iff_getElem?.mpr ⟨i, hitem⟩
    simp only [hitem]
    constructor
    · intro x hx
      rcases List.mem_or_eq_of_mem_set hx with h | h
      · exact hpos x h
      · rw [h]
        exact add_pos (hpos item hmem) hq
    · rw [map_set_same PortfolioItem.symbol items i
        { item with
          quantity := item.quantity + quantity
          averageBuyPrice := (item.averageBuyPrice * item.quantity + totalCost)
            / (item.quantity + quantity)
          currentPrice := executionPrice
          totalValue := (item.quantity + quantity) * executionPrice } item hitem rfl]
      exact hnodup

/-- The sell branch keeps the items well-formed: positive quantities, distinct symbols. -/
theorem sellItems_wellFormed (items : List PortfolioItem) (i : Nat)
    (quantity executionPrice : ℚ)
    (hpos : ∀ item ∈ items, 0 < item.quantity)
    (hnodup : (items.map PortfolioItem.symbol).Nodup) :
    (∀ item ∈ sellItems items i quantity executionPrice, 0 < item.quantity) ∧
      ((sellItems items i quantity executionPrice).map PortfolioItem.symbol).Nodup := by
  unfold sellItems
  rcases hitem : items[i]? with _ | item
  · exact ⟨hpos, hnodup⟩
  · simp only
    split
    · rename_i hnew
      constructor
      · intro x hx
        rcases List.mem_or_eq_of_mem_set hx with h | h
        · exact hpos x h
        · rw [h]
          exact hnew
      · rw [map_set_same PortfolioItem.symbol items i
          { item with
            quantity := item.quantity - quantity
            totalValue := (item.quantity - quantity) * executionPrice } item hitem rfl]
        exact hnodup
    · constructor
      · intro x hx
        exact hpos x ((List.eraseIdx_sublist items i).subset hx)
      · exact hnodup.sublist ((List.eraseIdx_sublist items i).map _)

/-- C25: the items stay well-formed.  If every item of the user's portfolio has a positive
quantity and the symbols are pairwise distinct, then after `executeOrder` of a pending
order of positive quantity every item has a positive quantity and the symbols are
pairwise distinct. -/
theorem executeOrder_items_wellFormed (now : Nat) (db : Db) (orderId : Nat) (order : Order)
    (portfolio : Portfolio)
    (ho : db.findOrderById orderId = some order) (hs : order.status = OrderStatus.pending)
    (hp : db.findPortfolio order.user = some portfolio)
    (hpos : ∀ item ∈ portfolio.items, 0 < item.quantity)
    (hnodup : (portfolio.items.map PortfolioItem.symbol).Nodup)
    (hq : 0 < order.quantity) :
    ∃ p', (executeOrder now db orderId).findPortfolio order.user = some p' ∧
      (∀ item ∈ p'.items, 0 < item.quantity) ∧
      (p'.items.map PortfolioItem.symbol).Nodup := by
  rcases executeOrder_portfolio now db orderId order portfolio ho hs hp with
    h | ⟨asset, p', _, hsome, h⟩
  · exact ⟨portfolio, h, hpos, hnodup⟩
  · refine ⟨p', h, ?_⟩
    obtain ⟨_, _, _, hcase⟩ := executeOn_some now order asset portfolio p' hsome
    rcases hcase with ⟨_, _, _, hitems⟩ | ⟨_, i, item, _, _, _, _, hitems⟩
    · rw [hitems]
      exact buyItems_wellFormed now portfolio.items order.symbol order.quantity _ _
        hpos hnodup hq
    · rw [hitems]
      exact sellItems_wellFormed portfolio.items i order.quantity _ hpos hnodup

/-- Witness of C25: selling all 10 `X` held leaves a well-formed, here empty, item list. -/
theorem executeOrder_items_wellFormed_witness :
    ∃ p', (executeOrder 5 (scenarioDb 120 (scenarioPortfolio 9000 [scenarioItem 10 100 100])
        (scenarioOrder Side.sell 10 OrderStatus.pending)) 1).findPortfolio 7 = some p' ∧
      (∀ item ∈ p'.items, 0 < item.quantity) ∧
      (p'.items.map PortfolioItem.symbol).Nodup :=
  executeOrder_items_wellFormed 5
    (scenarioDb 120 (scenarioPortfolio 9000 [scenarioItem 10 100 100])
      (scenarioOrder Side.sell 10 OrderStatus.pending))
    1 (scenarioOrder Side.sell 10 OrderStatus.pending)
    (scenarioPortfolio 9000 [scenarioItem 10 100 100]) rfl rfl rfl
    (by
      intro item hitem
      have h : item = scenarioItem 10 100 100 := by
        simpa [scenarioPortfolio] using hitem
      rw [h]
      norm_num [scenarioItem])
    (by simp [scenarioPortfolio])
    (by norm_num [scenarioOrder])

/-! ## Selling refreshes the total value only (C26) -/

/-- C26 (the code departs from it): holding 10 `X` marked at 100, a sell of 4 at the
execution price 120 leaves the item with quantity 6 and total value 720, that is 6 × 120,
but with its current price still 100, not 120. -/
theorem executeOrder_sell_keeps_stale_price :
    ∃ p' item', (executeOrder 5 (scenarioDb 120 (scenarioPortfolio 9000 [scenarioItem 10 100 100])
        (scenarioOrder Side.sell 4 OrderStatus.pending)) 1).findPortfolio 7 = some p' ∧
      p'.items[0]? = some item' ∧ item'.quantity = 6 ∧ item'.totalValue = 720 ∧
      item'.currentPrice = 100 ∧ item'.currentPrice ≠ 120 := by
  have hq : ¬ (scenarioItem 10 100 100).quantity
      < (scenarioOrder Side.sell 4 OrderStatus.pending).quantity := by
    norm_num [scenarioItem, scenarioOrder]
  have hrun := executeOrder_filled 5
    (scenarioDb 120 (scenarioPortfolio 9000 [scenarioItem 10 100 100])
      (scenarioOrder Side.sell 4 OrderStatus.pending)) 1
    (scenarioOrder Side.sell 4 OrderStatus.pending) _ (scenarioAsset 120)
    (scenarioPortfolio 9000 [scenarioItem 10 100 100]) _ rfl rfl rfl rfl
    (executeOn_sell 5 (scenarioOrder Side.sell 4 OrderStatus.pending) (scenarioAsset 120)
      (scenarioPortfolio 9000 [scenarioItem 10 100 100]) 0 (scenarioItem 10 100 100)
      rfl rfl rfl hq)
    (by norm_num [scenarioOrder]) (by norm_num [scenarioAsset])
    (by norm_num [portfolioSchemaAccepts, itemSchemaAccepts, scenarioPortfolio, scenarioItem])
  rw [hrun]
  have hpos : (scenarioItem 10 100 100).quantity
      - (scenarioOrder Side.sell 4 OrderStatus.pending).quantity > 0 := by
    norm_num [scenarioItem, scenarioOrder]
  have hitems : sellItems (scenarioPortfolio 9000 [scenarioItem 10 100 100]).items 0
      (scenarioOrder Side.sell 4 OrderStatus.pending).quantity (scenarioAsset 120).currentPrice
      = [{ scenarioItem 10 100 100 with quantity := 6, totalValue := 720 }] := by
    unfold sellItems
    have h0 : (scenarioPortfolio 9000 [scenarioItem 10 100 100]).items[0]?
        = some (scenarioItem 10 100 100) := rfl
    rw [h0]
    simp only [hpos, if_true]
    norm_num [scenarioPortfolio, scenarioItem, scenarioOrder, scenarioAsset]
  refine ⟨_, { scenarioItem 10 100 100 with quantity := 6, totalValue := 720 },
    findPortfolio_savePortfolio _ 7 (scenarioPortfolio 9000 [scenarioItem 10 100 100]) _
      rfl rfl rfl, ?_, rfl, rfl, rfl, ?_⟩
  · simp only [hitems]
    rfl
  · norm_num [scenarioItem]

/-! ## Placement and execution (C27, C28) -/

/-- The index `findIndex` returns is the one of the item `find` returns. -/
theorem findItemIndex_of_find (symbol : String) :
    ∀ (items : List PortfolioItem) (item : PortfolioItem),
      items.find? (fun it => decide (it.symbol = symbol)) = some item →
      ∃ i, findItemIndex items symbol = some i ∧ items[i]? = some item := by
  intro items
  induction items with
  | nil => intro item h; simp at h
  | cons x xs ih =>
    intro item h
    by_cases hx : x.symbol = symbol
    · refine ⟨0, ?_, ?_⟩
      · simp [findItemIndex, List.findIdx?_cons, hx]
      · simp [List.find?, hx] at h
        simp [h]
    · simp only [List.find?, hx, decide_False] at h
      obtain ⟨i, hi, hget⟩ := ih item h
      refine ⟨i + 1, ?_, ?_⟩
      · unfold findItemIndex at hi ⊢
        simp [List.findIdx?_cons, hx, List.findIdx?_succ, hi]
      · simpa using hget

/-- The validators accept the new order of a request with a positive quantity, a price
that is not negative, and a stop price that is not negative when present and is present
for a stop order. -/
theorem orderSchemaAccepts_newOrder (newId userId : Nat) (symbol : String) (type : OrderType)
    (side : Side) (quantity price : ℚ) (stopPrice : Option ℚ)
    (hq : 0 < quantity) (hprice : 0 ≤ price)
    (hstop : type = OrderType.stop → ∃ s, stopPrice = some s)
    (hstop0 : ∀ s, stopPrice = some s → 0 ≤ s) :
    orderSchemaAccepts (newOrder newId userId symbol type side quantity (some price) stopPrice)
      = true := by
  cases stopPrice with
  | none =>
    have hns : type ≠ OrderType.stop := by
      intro h
      obtain ⟨s, hs⟩ := hstop h
      exact absurd hs (by simp)
    simp [orderSchemaAccepts, newOrder, le_of_lt hq, hprice, hns]
  | some s =>
    simp [orderSchemaAccepts, newOrder, le_of_lt hq, hprice, hstop0 s rfl]

/-- The validators accept a new order only when its price is not negative. -/
theorem orderSchemaAccepts_price (newId userId : Nat) (symbol : String) (type : OrderType)
    (side : Side) (quantity price : ℚ) (stopPrice : Option ℚ)
    (h : orderSchemaAccepts
      (newOrder newId userId symbol type side quantity (some price) stopPrice) = true) :
    0 ≤ price := by
  simp only [orderSchemaAccepts, newOrder, Bool.and_eq_true, decide_eq_true_eq] at h
  exact h.1.1.1.1.1.1.2

/-- C27: a limit or stop request that passes every check of `placeOrder` (the shape checks
of lines 14 to 28: symbol and side given, a positive quantity, a price other than 0 and,
for a stop order, a stop price other than 0; instrument and portfolio found; the cash
covering `price × quantity` for a buy, the item holding the quantity for a sell; the
validators of the schema accepting the new order) is stored as the new order, `pending`,
with filled quantity 0 and total cost 0; the store afterwards is the store of before with
that one order written, so nothing was executed and the portfolios and instruments are
as they were. -/
theorem placeOrder_limit_stop_pending (now newId : Nat) (db : Db) (userId : Nat)
    (symbol : String) (type : OrderType) (side : Side) (quantity price : ℚ)
    (stopPrice : Option ℚ) (asset : Asset) (portfolio : Portfolio)
    (htype : type = OrderType.limit ∨ type = OrderType.stop)
    (hsym : symbol ≠ "") (hq : 0 < quantity) (hprice : price ≠ 0)
    (hstop : type = OrderType.stop → falsyNumber stopPrice = false)
    (ha : db.findAsset (toUpperCase symbol) = some asset)
    (hp : db.findPortfolio userId = some portfolio)
    (hfunds : side = Side.buy → ¬ portfolio.cashBalance < price * quantity)
    (hheld : side = Side.sell → ∃ item,
      portfolio.items.find? (fun item => decide (item.symbol = toUpperCase symbol)) = some item ∧
        ¬ item.quantity < quantity)
    (hschema : orderSchemaAccepts
      (newOrder newId userId (toUpperCase symbol) type side quantity (some price) stopPrice)
        = true) :
    (placeOrder now newId db userId
        { symbol := some symbol, type := some type, side := some side
          quantity := some quantity, price := some price, stopPrice := stopPrice }).1
      = db.saveOrder
          (newOrder newId userId (toUpperCase symbol) type side quantity (some price) stopPrice) ∧
    (placeOrder now newId db userId
        { symbol := some symbol, type := some type, side := some side
          quantity := some quantity, price := some price, stopPrice := stopPrice }).1.findOrderById
        newId
      = some
          (newOrder newId userId (toUpperCase symbol) type side quantity (some price) stopPrice) ∧
    (newOrder newId userId (toUpperCase symbol) type side quantity (some price) stopPrice).status
      = OrderStatus.pending ∧
    (newOrder newId userId (toUpperCase symbol) type side quantity (some price)
      stopPrice).filledQuantity = 0 ∧
    (newOrder newId userId (toUpperCase symbol) type side quantity (some price)
      stopPrice).totalCost = some 0 ∧
    (placeOrder now newId db userId
        { symbol := some symbol, type := some type, side := some side
          quantity := some quantity, price := some price, stopPrice := stopPrice }).1.portfolios
      = db.portfolios ∧
    (placeOrder now newId db userId
        { symbol := some symbol, type := some type, side := some side
          quantity := some quantity, price := some price, stopPrice := stopPrice }).1.assets
      = db.assets := by
  have hm : type ≠ OrderType.market := by
    rcases htype with h | h <;> rw [h] <;> decide
  have hrun := placeOrder_checked now newId db userId symbol type side quantity (some price)
    stopPrice asset portfolio hsym hq
    (by intro _; simp [falsyNumber, hprice]) hstop ha hp
  simp only [hm, if_false, Option.map_some'] at hrun
  have hb : ¬ (side = Side.buy ∧ decide (portfolio.cashBalance < price * quantity) = true) := by
    rintro ⟨hside, hshort⟩
    exact absurd (of_decide_eq_true hshort) (hfunds hside)
  have hsl : ¬ (side = Side.sell ∧
      (match portfolio.items.find? (fun item => decide (item.symbol = toUpperCase symbol)) with
       | none => true
       | some portfolioItem => decide (portfolioItem.quantity < quantity)) = true) := by
    rintro ⟨hside, hshort⟩
    obtain ⟨item, hfind, hle⟩ := hheld hside
    rw [hfind] at hshort
    exact absurd (of_decide_eq_true hshort) hle
  have hacc : ¬ orderSchemaAccepts
      (newOrder newId userId (toUpperCase symbol) type side quantity (some price) stopPrice)
      = false := by
    rw [hschema]
    decide
  rw [if_neg hb, if_neg hsl, if_neg hacc] at hrun
  rw [hrun]
  exact ⟨rfl, findOrderById_saveOrder_self db
    (newOrder newId userId (toUpperCase symbol) type side quantity (some price) stopPrice),
    rfl, rfl, rfl, rfl, rfl⟩

/-- Witness of C27: a limit buy of 1 `X` at 3 with cash 10000 is stored pending and the
portfolio of user 7 is the one of before. -/
theorem placeOrder_limit_stop_pending_witness :
    (placeOrder 5 1 (scenarioStore 100 (scenarioPortfolio 10000 [])) 7
        (scenarioRequest OrderType.limit Side.buy (some 1) (some 3))).1.findOrderById 1
        = some (newOrder 1 7 "X" OrderType.limit Side.buy 1 (some 3) none) ∧
      (newOrder 1 7 "X" OrderType.limit Side.buy 1 (some 3) none).status
        = OrderStatus.pending ∧
      (placeOrder 5 1 (scenarioStore 100 (scenarioPortfolio 10000 [])) 7
        (scenarioRequest OrderType.limit Side.buy (some 1) (some 3))).1.portfolios
        = [scenarioPortfolio 10000 []] := by
  obtain ⟨_, h2, h3, _, _, h6, _⟩ := placeOrder_limit_stop_pending 5 1
    (scenarioStore 100 (scenarioPortfolio 10000 [])) 7 "x" OrderType.limit Side.buy 1 3 none
    (scenarioAsset 100) (scenarioPortfolio 10000 []) (Or.inl rfl) (by decide) (by norm_num)
    (by norm_num) (by intro h; exact absurd h (by decide)) rfl rfl
    (by intro _; norm_num [scenarioPortfolio])
    (by intro h; exact absurd h (by decide))
    (orderSchemaAccepts_newOrder 1 7 (toUpperCase "x") OrderType.limit Side.buy 1 3 none
      (by norm_num) (by norm_num) (by intro h; exact absurd h (by decide))
      (by intro s h; simp at h))
  exact ⟨h2, h3, h6⟩

/-- C28: the checks of `placeOrder` and the re-checks of `executeOrder` agree.  A market
request that passes every check of `placeOrder` (symbol and side given, a positive
quantity, instrument and portfolio found, the cash covering `price × quantity` for a buy,
the item holding the quantity for a sell, the validators of the schema accepting the new
order, whose price is the instrument's current price) is stored and executed against the
same instrument price and portfolio, and the order found afterwards is `filled` at that
price, not `rejected`. -/
theorem placeOrder_market_filled (now newId : Nat) (db : Db) (userId : Nat)
    (symbol : String) (side : Side) (quantity : ℚ) (price stopPrice : Option ℚ)
    (asset : Asset) (portfolio : Portfolio)
    (hsym : symbol ≠ "") (hq : 0 < quantity)
    (ha : db.findAsset (toUpperCase symbol) = some asset)
    (hp : db.findPortfolio userId = some portfolio)
    (hfunds : side = Side.buy → ¬ portfolio.cashBalance < asset.currentPrice * quantity)
    (hheld : side = Side.sell → ∃ item,
      portfolio.items.find? (fun item => decide (item.symbol = toUpperCase symbol)) = some item ∧
        ¬ item.quantity < quantity)
    (hschema : orderSchemaAccepts
      (newOrder newId userId (toUpperCase symbol) OrderType.market side quantity
        (some asset.currentPrice) stopPrice) = true) :
    (placeOrder now newId db userId
        { symbol := some symbol, type := some OrderType.market, side := some side
          quantity := some quantity, price := price, stopPrice := stopPrice }).1
      = executeOrder now (db.saveOrder
          (newOrder newId userId (toUpperCase symbol) OrderType.market side quantity
            (some asset.currentPrice) stopPrice)) newId ∧
    (executeOrder now (db.saveOrder
          (newOrder newId userId (toUpperCase symbol) OrderType.market side quantity
            (some asset.currentPrice) stopPrice)) newId).findOrderById newId
      = some
          { newOrder newId userId (toUpperCase symbol) OrderType.market side quantity
              (some asset.currentPrice) stopPrice with
            status := OrderStatus.filled
            filledQuantity := quantity
            averageFilledPrice := some asset.currentPrice
            totalCost := some (asset.currentPrice * quantity) } := by
  have hprice : 0 ≤ asset.currentPrice :=
    orderSchemaAccepts_price newId userId (toUpperCase symbol) OrderType.market side quantity
      asset.currentPrice stopPrice hschema
  have hrun := placeOrder_checked now newId db userId symbol OrderType.market side quantity
    price stopPrice asset portfolio hsym hq (by intro h; exact absurd rfl h)
    (by intro h; exact absurd h (by decide)) ha hp
  simp only [if_true, Option.map_some'] at hrun
  have hb : ¬ (side = Side.buy ∧
      decide (portfolio.cashBalance < asset.currentPrice * quantity) = true) := by
    rintro ⟨hside, hshort⟩
    exact absurd (of_decide_eq_true hshort) (hfunds hside)
  have hsl : ¬ (side = Side.sell ∧
      (match portfolio.items.find? (fun item => decide (item.symbol = toUpperCase symbol)) with
       | none => true
       | some portfolioItem => decide (portfolioItem.quantity < quantity)) = true) := by
    rintro ⟨hside, hshort⟩
    obtain ⟨item, hfind, hle⟩ := hheld hside
    rw [hfind] at hshort
    exact absurd (of_decide_eq_true hshort) hle
  have hacc : ¬ orderSchemaAccepts
      (newOrder newId userId (toUpperCase symbol) OrderType.market side quantity
        (some asset.currentPrice) stopPrice) = false := by
    rw [hschema]
    decide
  rw [if_neg hb, if_neg hsl, if_neg hacc] at hrun
  rw [hrun]
  refine ⟨rfl, ?_⟩
  have hfo := findOrderById_saveOrder_self db
    (newOrder newId userId (toUpperCase symbol) OrderType.market side quantity
      (some asset.currentPrice) stopPrice)
  have hsides : side = Side.buy ∨ side = Side.sell := by
    cases side
    · exact Or.inl rfl
    · exact Or.inr rfl
  rcases hsides with hside | hside
  · exact executeOrder_fill_stores now _ newId _ _ asset portfolio _ hfo rfl ha hp
      (executeOn_buy now _ asset portfolio hside (hfunds hside))
      (le_of_lt hq) hprice
  · obtain ⟨item, hfind, hle⟩ := hheld hside
    obtain ⟨i, hi, hitem⟩ := findItemIndex_of_find (toUpperCase symbol) portfolio.items
      item hfind
    exact executeOrder_fill_stores now _ newId _ _ asset portfolio _ hfo rfl ha hp
      (executeOn_sell now _ asset portfolio i item hside hi hitem hle)
      (le_of_lt hq) hprice

/-- Witness of C28: the market buy of 10 `X` at 100 with cash 10000 passes every check and
is stored as filled at 100. -/
theorem placeOrder_market_filled_witness :
    (placeOrder 5 1 (scenarioStore 100 (scenarioPortfolio 10000 [])) 7
        (scenarioRequest OrderType.market Side.buy (some 10) none)).1.findOrderById 1
      = some
          { newOrder 1 7 "X" OrderType.market Side.buy 10 (some 100) none with
            status := OrderStatus.filled
            filledQuantity := 10
            averageFilledPrice := some 100
            totalCost := some (100 * 10) } := by
  obtain ⟨h1, h2⟩ := placeOrder_market_filled 5 1
    (scenarioStore 100 (scenarioPortfolio 10000 [])) 7 "x"
    Side.buy 10 none none (scenarioAsset 100) (scenarioPortfolio 10000 []) (by decide)
    (by norm_num) rfl rfl
    (by intro _; norm_num [scenarioPortfolio, scenarioAsset])
    (by intro h; exact absurd h (by decide))
    (orderSchemaAccepts_newOrder 1 7 (toUpperCase "x") OrderType.market Side.buy 10
      (scenarioAsset 100).currentPrice none (by norm_num) (by norm_num [scenarioAsset])
      (by intro h; exact absurd h (by decide)) (by intro s h; simp at h))
  have hreq : scenarioRequest OrderType.market Side.buy (some 10) none
      = { symbol := some "x", type := some OrderType.market, side := some Side.buy
          quantity := some 10, price := none, stopPrice := none } := rfl
  rw [hreq, h1]
  exact h2

end TradePro
